import Mathlib

/-!
# cm.grainlabs~ : grain scheduler and mixing engine

A shallow embedding of `src/cm.grainlabs~.c` (the object structure, the
constructor, the message handlers and the 64 bit perform routine) together
with theorems about it.

Conventions of the embedding

* `double` and `float` values are exact rationals (`ℚ`): no NaN, no
  infinities, and sums, products and quotients are not rounded (so the index
  expressions of the playback routine, lines 466-474, and the output sums are
  exact).  A division by zero therefore yields `0` here, where the C code
  would produce an infinity or a NaN.  Two places differ.  The product
  `t_length * pitch` of line 427, whose truncation the grain keeps as
  `gr_length`, is rounded to the nearest double as in C (`roundDouble`), and
  the comparisons of the float handler are also given for an argument that is
  a NaN (`Double`, `floatAssigns`).
* `long`, `short` and `int` values are mathematical integers.  The conversion
  of a `double` to `long` is truncation toward zero (`toLong`).  The start and
  length parameters and the random values are whatever the patch supplies, so
  their conversion (lines 368-379) can leave the range of a 64 bit `long`,
  which C leaves undefined: `castLong` gives the truncation inside the range
  and the value of the platform outside (a parameter).  The only narrowing
  conversion of integers that can wrap (the constructor's third argument stored
  into a `short`) is modelled by `toShort`.
* A flag that the C code only ever sets to `0` or `1` and only tests for
  truth (`busy`, `limit_modified`, `buffer_modified`, the four attributes, the
  local `trigger`) is a `Bool`.
* The grain array `x->grains` is a list; the constructor creates `MAXGRAINS`
  entries, as its initialisation loop assumes (the size handed to
  `sysmem_newptr` is not modelled).  An access outside the list (undefined
  behaviour in C) is a no-op.
* `cmstereo.h` and `cmutil.h` are not among the sources: `cm_panning` and
  `cm_lininterp` are parameters (`Collab`), and every value returned by
  `cm_random` is an input of the tick (`Draws`).
-/

namespace CmGrainlabs

/-! ## Constants -/

/-- Max grain length in ms (`#define MAX_GRAINLENGTH 300`). -/
def MAX_GRAINLENGTH : ℚ := 300

/-- Min grain length in ms (`#define MIN_GRAINLENGTH 1`). -/
def MIN_GRAINLENGTH : ℚ := 1

/-- Max pitch (`#define MAX_PITCH 10`). -/
def MAX_PITCH : ℚ := 10

/-- Number of arguments required for the external (`#define ARGUMENTS 3`). -/
def ARGUMENTS : Int := 3

/-- Maximum number of simultaneously playing grains (`#define MAXGRAINS 128`). -/
def MAXGRAINS : Nat := 128

/-! ## Data model -/

/-- Grain information structure (`cm_grainsinfo`). -/
structure cm_grainsinfo where
  busy : Bool
  grainpos : Int
  start : Int
  t_length : Int
  gr_length : Int
  pan_left : ℚ
  pan_right : ℚ
deriving DecidableEq, Repr

/-- Object structure (`t_cmgrainlabs`), without the host object header, the
buffer names and references and the outlet pointer. -/
structure t_cmgrainlabs where
  m_sr : ℚ
  startmin_float : ℚ
  startmax_float : ℚ
  lengthmin_float : ℚ
  lengthmax_float : ℚ
  pitchmin_float : ℚ
  pitchmax_float : ℚ
  panmin_float : ℚ
  panmax_float : ℚ
  connect_status : List Int
  grains : List cm_grainsinfo
  tr_prev : ℚ
  grains_limit : Int
  grains_limit_old : Int
  limit_modified : Bool
  buffer_modified : Bool
  grains_count : Int
  attr_stereo : Bool
  attr_winterp : Bool
  attr_sinterp : Bool
  attr_zero : Bool
deriving DecidableEq, Repr

/-- A locked buffer as the perform routine sees it: the sample array, the
frame count and the channel count. -/
structure t_buffer where
  sample : Int → ℚ
  framecount : Int
  channelcount : Int

/-- What the perform routine takes from outside this source file.  The
functions of `cmstereo.h` and `cmutil.h` it calls are not part of the
repository sources, so they are parameters: `cm_panning pan` is the pair
`(pan_in.left, pan_in.right)`, `cm_lininterp distance buffer channelcount
channel` is the interpolated sample.  `long_overflow d` is the `long` the
platform produces when a `double` `d` outside the range of `long` is
converted (undefined in C; `LONG_MIN` on x86-64). -/
structure Collab where
  cm_panning : ℚ → ℚ × ℚ
  cm_lininterp : ℚ → (Int → ℚ) → Int → Int → ℚ
  long_overflow : ℚ → Int

/-- The eight parameters resolved at the start of a block (lines 319-326). -/
structure Params where
  startmin : ℚ
  startmax : ℚ
  lengthmin : ℚ
  lengthmax : ℚ
  pitchmin : ℚ
  pitchmax : ℚ
  panmin : ℚ
  panmax : ℚ
deriving DecidableEq, Repr

/-- The values `cm_random` returns in one spawn, in call order: for the start,
the length, the pan and the pitch.  A value is only used when the
corresponding range is not degenerate. -/
structure Draws where
  start : ℚ
  length : ℚ
  pan : ℚ
  pitch : ℚ
deriving DecidableEq, Repr

/-- The locals of `cmgrainlabs_perform64` that live across the iterations of
the DSP loop: `trigger` and `slot` are declared (and set to 0) before the
loop. -/
structure Locals where
  trigger : Bool
  slot : Nat
deriving DecidableEq, Repr

/-- Truncation toward zero: the conversion of a `double` to `long` for a
value whose truncation is in the range of `long`. -/
def toLong (d : ℚ) : Int := if 0 ≤ d then ⌊d⌋ else ⌈d⌉

/-- The least value of a 64 bit `long`. -/
def LONG_MIN : Int := -9223372036854775808

/-- The greatest value of a 64 bit `long`. -/
def LONG_MAX : Int := 9223372036854775807

/-- Conversion to `long` of a `double` that can be any value: the truncation
when it is in the range of a 64 bit `long`, else what the platform produces. -/
def castLong (c : Collab) (d : ℚ) : Int :=
  if LONG_MIN ≤ toLong d ∧ toLong d ≤ LONG_MAX then toLong d else c.long_overflow d

/-- The integer nearest to `q`; when `q` lies half way between two integers,
the even one. -/
def roundHalfEven (q : ℚ) : Int :=
  if q - ⌊q⌋ < 1 / 2 then ⌊q⌋
  else if q - ⌊q⌋ > 1 / 2 then ⌊q⌋ + 1
  else if ⌊q⌋ % 2 = 0 then ⌊q⌋ else ⌊q⌋ + 1

/-- Number of binary digits of `n`, by halving; `fuel` bounds the number of
halvings (`n` itself is enough). -/
def bitLength : Nat → Nat → Nat
  | 0, _ => 0
  | fuel + 1, n => if n = 0 then 0 else bitLength fuel (n / 2) + 1

/-- The binary exponent of `q ≠ 0`: the `e` with `2 ^ e ≤ |q| < 2 ^ (e + 1)`. -/
def binade (q : ℚ) : Int :=
  let e := (bitLength q.num.natAbs q.num.natAbs : Int) - (bitLength q.den q.den : Int)
  if (2 : ℚ) ^ e ≤ |q| then e else e - 1

/-- The `double` nearest to `q` (IEEE 754 binary64, round to nearest, ties to
even): `q` rounded to 53 significant binary digits.  The exponent range is not
limited: no overflow to infinity above `2 ^ 1024`, no subnormal numbers below
`2 ^ (-1022)`. -/
def roundDouble (q : ℚ) : ℚ :=
  if q = 0 then 0
  else (roundHalfEven (q / 2 ^ (binade q - 52)) : ℚ) * 2 ^ (binade q - 52)

/-- Conversion of an integer to `short`: wrap to 16 bit two's complement. -/
def toShort (n : Int) : Int := (n + 32768) % 65536 - 32768

/-- Number of slots whose busy flag is set. -/
def countBusy (gs : List cm_grainsinfo) : Nat := gs.countP (fun g => g.busy)

/-- Apply `f` to `grains[i]` in place; nothing happens outside the array. -/
def updateSlot (gs : List cm_grainsinfo) (i : Nat) (f : cm_grainsinfo → cm_grainsinfo) :
    List cm_grainsinfo :=
  match gs[i]? with
  | some g => gs.set i (f g)
  | none => gs

/-! ## The constructor and the message handlers -/

/-- The initial grain slot (lines 212-220). -/
def emptyGrain : cm_grainsinfo :=
  { busy := false, grainpos := 0, start := 0, t_length := 0, gr_length := 0,
    pan_left := 0, pan_right := 0 }

/-- The values `attr_args_process` finds among the arguments (`@stereo 1` ...);
`none` when the attribute is not given. -/
structure AttrArgs where
  stereo : Option Bool
  winterp : Option Bool
  sinterp : Option Bool
  zero : Option Bool
deriving DecidableEq, Repr

/-- `cmgrainlabs_new`: `argc` is the argument count, `arg2` the integer value
of the third argument (`atom_getintarg(2, argc, argv)`), `sr` the result of
`sys_getsr()`, `allocated` whether `sysmem_newptr` returned a pointer.  The
result is `none` where the C function returns `NULL`. -/
def cmgrainlabs_new (argc : Int) (arg2 : Int) (attrs : AttrArgs) (sr : ℚ) (allocated : Bool) :
    Option t_cmgrainlabs :=
  if argc < ARGUMENTS then none
  else
    let grains_limit := toShort arg2
    if grains_limit < 1 ∨ grains_limit > (MAXGRAINS : Int) then none
    else if !allocated then none
    else some
      { m_sr := sr * (1 / 1000)
        startmin_float := 0
        startmax_float := 0
        lengthmin_float := 150
        lengthmax_float := 150
        pitchmin_float := 1
        pitchmax_float := 1
        panmin_float := 0
        panmax_float := 0
        connect_status := List.replicate 8 0
        grains := List.replicate MAXGRAINS emptyGrain
        tr_prev := 0
        grains_limit := grains_limit
        grains_limit_old := 0
        limit_modified := false
        buffer_modified := false
        grains_count := 0
        attr_stereo := attrs.stereo.getD false
        attr_winterp := attrs.winterp.getD false
        attr_sinterp := attrs.sinterp.getD true
        attr_zero := attrs.zero.getD false }

/-- `cmgrainlabs_dsp64`: `count` is the host's connection count array of
`short`s (index 0 is the trigger inlet), `samplerate` the current sample rate. -/
def cmgrainlabs_dsp64 (x : t_cmgrainlabs) (count : List Int) (samplerate : ℚ) : t_cmgrainlabs :=
  { x with
    connect_status := (List.range 8).map (fun k => count.getD (k + 1) 0)
    m_sr := if x.m_sr ≠ samplerate * (1 / 1000) then samplerate * (1 / 1000) else x.m_sr }

/-- `cmgrainlabs_float`: `inlet` is the inlet number the host stored in `z_in`,
`f` a number.  The branches taken for any `double`, a NaN included, are those
of `floatAssigns`. -/
def cmgrainlabs_float (x : t_cmgrainlabs) (inlet : Int) (f : ℚ) : t_cmgrainlabs :=
  if inlet = 1 then
    if f < 0 then x else { x with startmin_float := f }
  else if inlet = 2 then
    if f < 0 then x else { x with startmax_float := f }
  else if inlet = 3 then
    if f < MIN_GRAINLENGTH then x
    else if f > MAX_GRAINLENGTH then x
    else { x with lengthmin_float := f }
  else if inlet = 4 then
    if f < MIN_GRAINLENGTH then x
    else if f > MAX_GRAINLENGTH then x
    else { x with lengthmax_float := f }
  else if inlet = 5 then
    if f ≤ 0 then x
    else if f > MAX_PITCH then x
    else { x with pitchmin_float := f }
  else if inlet = 6 then
    if f ≤ 0 then x
    else if f > MAX_PITCH then x
    else { x with pitchmax_float := f }
  else if inlet = 7 then
    if f < -1 ∨ f > 1 then x else { x with panmin_float := f }
  else if inlet = 8 then
    if f < -1 ∨ f > 1 then x else { x with panmax_float := f }
  else x

/-- A `double` as a float message can carry it: a number or a NaN. -/
inductive Double where
  | num (q : ℚ)
  | nan
deriving DecidableEq, Repr

/-- The comparison `a < b` of two doubles: false when one of them is a NaN. -/
def Double.lt : Double → Double → Bool
  | .num a, .num b => decide (a < b)
  | _, _ => false

/-- The comparison `a <= b` of two doubles: false when one of them is a NaN. -/
def Double.le : Double → Double → Bool
  | .num a, .num b => decide (a ≤ b)
  | _, _ => false

/-- The branch `cmgrainlabs_float` takes for a `double` `f` on inlet `inlet`
(lines 605-682): `true` when it reaches the `else` that assigns `f` to the
field of the inlet, `false` when `f` goes to `dump` or the inlet has no
case. -/
def floatAssigns (inlet : Int) (f : Double) : Bool :=
  if inlet = 1 then
    if f.lt (.num 0) then false else true
  else if inlet = 2 then
    if f.lt (.num 0) then false else true
  else if inlet = 3 then
    if f.lt (.num MIN_GRAINLENGTH) then false
    else if (Double.num MAX_GRAINLENGTH).lt f then false
    else true
  else if inlet = 4 then
    if f.lt (.num MIN_GRAINLENGTH) then false
    else if (Double.num MAX_GRAINLENGTH).lt f then false
    else true
  else if inlet = 5 then
    if f.le (.num 0) then false
    else if (Double.num MAX_PITCH).lt f then false
    else true
  else if inlet = 6 then
    if f.le (.num 0) then false
    else if (Double.num MAX_PITCH).lt f then false
    else true
  else if inlet = 7 then
    if f.lt (.num (-1)) || (Double.num 1).lt f then false else true
  else if inlet = 8 then
    if f.lt (.num (-1)) || (Double.num 1).lt f then false else true
  else false

/-- `cmgrainlabs_notify`: `modified` says whether the message is
`buffer_modified`.  The forwarding to `buffer_ref_notify` is the host's. -/
def cmgrainlabs_notify (x : t_cmgrainlabs) (modified : Bool) : t_cmgrainlabs :=
  if modified then { x with buffer_modified := true } else x

/-- `cmgrainlabs_set`: `ac` is the argument count; the buffer names and
references are the host's. -/
def cmgrainlabs_set (x : t_cmgrainlabs) (ac : Int) : t_cmgrainlabs :=
  if ac = 2 then { x with buffer_modified := true } else x

/-- `cmgrainlabs_limit`: `arg` is `atom_getlong(av)`.  The second component
says whether `object_error` was called, that is, whether the argument was
rejected. -/
def cmgrainlabs_limit (x : t_cmgrainlabs) (arg : Int) : t_cmgrainlabs × Bool :=
  if arg < 1 ∨ arg > (MAXGRAINS : Int) then (x, true)
  else
    ({ x with
       grains_limit_old := x.grains_limit
       grains_limit := toShort arg
       limit_modified := true }, false)

/-- `cmgrainlabs_stereo_set`: `av` is `none` when `ac && av` fails, else the
integer `atom_getlong(av)`. -/
def cmgrainlabs_stereo_set (x : t_cmgrainlabs) (av : Option Int) : t_cmgrainlabs :=
  match av with
  | some v => { x with attr_stereo := decide (v ≠ 0) }
  | none => x

/-- `cmgrainlabs_winterp_set`. -/
def cmgrainlabs_winterp_set (x : t_cmgrainlabs) (av : Option Int) : t_cmgrainlabs :=
  match av with
  | some v => { x with attr_winterp := decide (v ≠ 0) }
  | none => x

/-- `cmgrainlabs_sinterp_set`. -/
def cmgrainlabs_sinterp_set (x : t_cmgrainlabs) (av : Option Int) : t_cmgrainlabs :=
  match av with
  | some v => { x with attr_sinterp := decide (v ≠ 0) }
  | none => x

/-- `cmgrainlabs_zero_set`. -/
def cmgrainlabs_zero_set (x : t_cmgrainlabs) (av : Option Int) : t_cmgrainlabs :=
  match av with
  | some v => { x with attr_zero := decide (v ≠ 0) }
  | none => x

/-! ## The perform routine -/

/-- The condition under which the detector sets `trigger` (lines 332-341):
a zero crossing from negative to positive when `attr_zero` is set, a drop of
the trigger ramp by more than 0.9 otherwise. -/
def detectorFires (x : t_cmgrainlabs) (tr_curr : ℚ) : Bool :=
  if x.attr_zero then decide (tr_curr > 0 ∧ x.tr_prev < 0)
  else decide (x.tr_prev - tr_curr > 9 / 10)

/-- Trigger detection (lines 332-341): the new value of the local `trigger`,
which keeps its old value when the detector does not fire. -/
def detectTrigger (x : t_cmgrainlabs) (tr_curr : ℚ) (trigger : Bool) : Bool :=
  if detectorFires x tr_curr then true else trigger

/-- Reset of all playback information when a buffer was modified
(lines 343-349). -/
def resetPlayback (x : t_cmgrainlabs) : t_cmgrainlabs :=
  if x.buffer_modified then
    { x with
      grains := x.grains.map (fun g => { g with busy := false })
      grains_count := 0
      buffer_modified := false }
  else x

/-- The free slot search (lines 356-364) from index `i` on, over the slots
from `i` on: the first index below `limit` whose slot is not busy, `none`
when the loop ends without a `break`. -/
def scanFree : List cm_grainsinfo → Nat → Int → Option Nat
  | [], _, _ => none
  | g :: gs, i, limit =>
    if (i : Int) < limit then
      if !g.busy then some i else scanFree gs (i + 1) limit
    else none

/-- Random start position before its clamps (lines 367-372). -/
def drawStart (c : Collab) (p : Params) (d : Draws) : Int :=
  if p.startmin ≠ p.startmax then castLong c d.start else castLong c p.startmin

/-- Random length and its check against the legal range (lines 375-387). -/
def drawLength (c : Collab) (m_sr : ℚ) (p : Params) (d : Draws) : Int :=
  let t_length := if p.lengthmin ≠ p.lengthmax then castLong c d.length
    else castLong c p.lengthmin
  if (t_length : ℚ) > MAX_GRAINLENGTH * m_sr then toLong (MAX_GRAINLENGTH * m_sr)
  else if (t_length : ℚ) < MIN_GRAINLENGTH * m_sr then toLong (MIN_GRAINLENGTH * m_sr)
  else t_length

/-- Random pan and its sanity test (lines 390-402). -/
def drawPan (p : Params) (d : Draws) : ℚ :=
  let pan := if p.panmin ≠ p.panmax then d.pan else p.panmin
  let pan := if pan < -1 then -1 else pan
  if pan > 1 then 1 else pan

/-- Random pitch and its check (lines 412-424). -/
def drawPitch (p : Params) (d : Draws) : ℚ :=
  let pitch := if p.pitchmin ≠ p.pitchmax then d.pitch else p.pitchmin
  let pitch := if pitch < 1 / 1000 then 1 / 1000 else pitch
  if pitch > MAX_PITCH then MAX_PITCH else pitch

/-- The actual grain length according to pitch, not larger than the buffer
(lines 427-431): `t_length` is converted to `double`, the product with `pitch`
is a `double`, and the assignment to the `long` field truncates it. -/
def grainLength (t_length : Int) (pitch : ℚ) (b_framecount : Int) : Int :=
  let gr_length := toLong (roundDouble (roundDouble (t_length : ℚ) * pitch))
  if gr_length > b_framecount then b_framecount else gr_length

/-- The check of the start position against grain length and buffer size
(lines 434-439). -/
def clampStart (start gr_length b_framecount : Int) : Int :=
  let start := if start > b_framecount - gr_length then b_framecount - gr_length else start
  if start < 0 then 0 else start

/-- The writes of lines 367-439 to `x->grains[slot]`: start, lengths and pan
gains are overwritten, `busy` and `grainpos` are not touched. -/
def writeGrain (c : Collab) (m_sr : ℚ) (b_framecount : Int) (p : Params) (d : Draws)
    (g : cm_grainsinfo) : cm_grainsinfo :=
  let t_length := drawLength c m_sr p d
  let gr_length := grainLength t_length (drawPitch p d) b_framecount
  let pan_in := c.cm_panning (drawPan p d)
  { g with
    start := clampStart (drawStart c p d) gr_length b_framecount
    t_length := t_length
    gr_length := gr_length
    pan_left := pan_in.1
    pan_right := pan_in.2 }

/-- The guard of the spawn (line 352). -/
def spawnGuard (x : t_cmgrainlabs) (loc : Locals) : Bool :=
  loc.trigger && decide (x.grains_count < x.grains_limit) && !x.limit_modified

/-- The spawn step (lines 352-440).  When the search finds slot `i`, that slot
is marked busy, `slot` becomes `i` and the new grain is written there; when the
search falls through, `slot` keeps the value it had and the grain is written
to that slot without touching its busy flag. -/
def spawn (c : Collab) (b : t_buffer) (p : Params) (d : Draws) (x : t_cmgrainlabs)
    (loc : Locals) : t_cmgrainlabs × Locals :=
  if spawnGuard x loc then
    match scanFree x.grains 0 x.grains_limit with
    | some i =>
      ({ x with
         grains_count := x.grains_count + 1
         grains := updateSlot x.grains i
           (fun g => writeGrain c x.m_sr b.framecount p d { g with busy := true }) },
       { trigger := false, slot := i })
    | none =>
      ({ x with
         grains_count := x.grains_count + 1
         grains := updateSlot x.grains loc.slot (writeGrain c x.m_sr b.framecount p d) },
       { trigger := false, slot := loc.slot })
  else (x, loc)

/-- The object together with the two output accumulators of the tick. -/
structure Mix where
  x : t_cmgrainlabs
  outsample_left : ℚ
  outsample_right : ℚ

/-- The window sample read for grain `g` (lines 465-472). -/
def windowRead (c : Collab) (w : t_buffer) (x : t_cmgrainlabs) (g : cm_grainsinfo) : ℚ :=
  if x.attr_winterp then
    c.cm_lininterp (((g.grainpos : ℚ) / (g.t_length : ℚ)) * (w.framecount : ℚ))
      w.sample w.channelcount 0
  else
    w.sample (toLong (((g.grainpos : ℚ) / (g.t_length : ℚ)) * (w.framecount : ℚ)))

/-- The floating point index into the sample buffer for grain `g` (line 474),
computed from the position before its increment. -/
def sourceDistance (g : cm_grainsinfo) : ℚ :=
  (g.start : ℚ) + ((g.grainpos : ℚ) / (g.t_length : ℚ)) * (g.gr_length : ℚ)

/-- What grain `g` adds to `outsample_left` (lines 476-496). -/
def leftSample (c : Collab) (b w : t_buffer) (x : t_cmgrainlabs) (g : cm_grainsinfo) : ℚ :=
  if b.channelcount > 1 ∧ x.attr_stereo then
    if x.attr_sinterp then
      (c.cm_lininterp (sourceDistance g) b.sample b.channelcount 0 * windowRead c w x g)
        * g.pan_left
    else
      (b.sample (toLong (sourceDistance g) * b.channelcount) * windowRead c w x g) * g.pan_left
  else
    if x.attr_sinterp then
      (c.cm_lininterp (sourceDistance g) b.sample b.channelcount 0 * windowRead c w x g)
        * g.pan_left
    else
      (b.sample (toLong (sourceDistance g) * b.channelcount) * windowRead c w x g) * g.pan_left

/-- What grain `g` adds to `outsample_right` (lines 476-496). -/
def rightSample (c : Collab) (b w : t_buffer) (x : t_cmgrainlabs) (g : cm_grainsinfo) : ℚ :=
  if b.channelcount > 1 ∧ x.attr_stereo then
    if x.attr_sinterp then
      (c.cm_lininterp (sourceDistance g) b.sample b.channelcount 1 * windowRead c w x g)
        * g.pan_right
    else
      (b.sample (toLong (sourceDistance g) * b.channelcount + 1) * windowRead c w x g)
        * g.pan_right
  else
    if x.attr_sinterp then
      (c.cm_lininterp (sourceDistance g) b.sample b.channelcount 0 * windowRead c w x g)
        * g.pan_right
    else
      (b.sample (toLong (sourceDistance g) * b.channelcount) * windowRead c w x g) * g.pan_right

/-- One iteration of the playback loop (lines 463-505) for slot `i`: a busy
grain adds its samples to the accumulators, its position is incremented, and
when the position has reached `t_length` the slot is released. -/
def playSlot (c : Collab) (b w : t_buffer) (i : Nat) (m : Mix) : Mix :=
  match m.x.grains[i]? with
  | none => m
  | some g =>
    if g.busy then
      if g.grainpos + 1 = g.t_length then
        { x := { m.x with
                 grains := m.x.grains.set i { g with grainpos := 0, busy := false }
                 grains_count := if m.x.grains_count - 1 < 0 then 0 else m.x.grains_count - 1 }
          outsample_left := m.outsample_left + leftSample c b w m.x g
          outsample_right := m.outsample_right + rightSample c b w m.x g }
      else
        { x := { m.x with grains := m.x.grains.set i { g with grainpos := g.grainpos + 1 } }
          outsample_left := m.outsample_left + leftSample c b w m.x g
          outsample_right := m.outsample_right + rightSample c b w m.x g }
    else m

/-- The limit of the playback loop (lines 456-461). -/
def playLimit (x : t_cmgrainlabs) : Int :=
  if x.limit_modified then x.grains_limit_old else x.grains_limit

/-- The playback routine (lines 443-509): the object after it and the two
output samples.  The branches for absent buffers (lines 447-454) cannot be
taken, the routine has left through `zero` before the loop in that case. -/
def playback (c : Collab) (b w : t_buffer) (x : t_cmgrainlabs) : Mix :=
  if x.grains_count = 0 then { x := x, outsample_left := 0, outsample_right := 0 }
  else
    (List.range (playLimit x).toNat).foldl (fun m i => playSlot c b w i m)
      { x := x, outsample_left := 0, outsample_right := 0 }

/-- Reset of the `limit_modified` flag (lines 511-513). -/
def resetLimitModified (x : t_cmgrainlabs) : t_cmgrainlabs :=
  if x.grains_count = 0 then { x with limit_modified := false } else x

/-- The result of one iteration of the DSP loop. -/
structure TickResult where
  x : t_cmgrainlabs
  loc : Locals
  out_left : ℚ
  out_right : ℚ

/-- The object and the locals after the spawn step of a tick, before the
playback routine. -/
def tickSpawn (c : Collab) (b : t_buffer) (p : Params) (tr_curr : ℚ) (d : Draws)
    (x : t_cmgrainlabs) (loc : Locals) : t_cmgrainlabs × Locals :=
  spawn c b p d (resetPlayback x) { loc with trigger := detectTrigger x tr_curr loc.trigger }

/-- One iteration of the DSP loop (lines 329-519), both buffers present:
`tr_curr` is the trigger sample, `d` the random values of this tick. -/
def tick (c : Collab) (b w : t_buffer) (p : Params) (tr_curr : ℚ) (d : Draws)
    (x : t_cmgrainlabs) (loc : Locals) : TickResult :=
  let s := tickSpawn c b p tr_curr d x loc
  let m := playback c b w s.1
  { x := { resetLimitModified m.x with tr_prev := tr_curr }
    loc := s.2
    out_left := m.outsample_left
    out_right := m.outsample_right }

/-- First sample of the signal vector of inlet `k` (`*ins[k]`). -/
def firstSample (ins : List (List ℚ)) (k : Nat) : ℚ := (ins.getD k []).headD 0

/-- The inlet values of a block (lines 319-326). -/
def resolveParams (x : t_cmgrainlabs) (ins : List (List ℚ)) : Params :=
  { startmin := if x.connect_status.getD 0 0 ≠ 0 then firstSample ins 1 * x.m_sr
      else x.startmin_float * x.m_sr
    startmax := if x.connect_status.getD 1 0 ≠ 0 then firstSample ins 2 * x.m_sr
      else x.startmax_float * x.m_sr
    lengthmin := if x.connect_status.getD 2 0 ≠ 0 then firstSample ins 3 * x.m_sr
      else x.lengthmin_float * x.m_sr
    lengthmax := if x.connect_status.getD 3 0 ≠ 0 then firstSample ins 4 * x.m_sr
      else x.lengthmax_float * x.m_sr
    pitchmin := if x.connect_status.getD 4 0 ≠ 0 then firstSample ins 5 else x.pitchmin_float
    pitchmax := if x.connect_status.getD 5 0 ≠ 0 then firstSample ins 6 else x.pitchmax_float
    panmin := if x.connect_status.getD 6 0 ≠ 0 then firstSample ins 7 else x.panmin_float
    panmax := if x.connect_status.getD 7 0 ≠ 0 then firstSample ins 8 else x.panmax_float }

/-- The DSP loop over the trigger vector: the results of the ticks in order.
`rnd k` holds the random values of tick `k` of the block. -/
def dspLoop (c : Collab) (b w : t_buffer) (p : Params) (rnd : Nat → Draws) :
    List ℚ → Nat → t_cmgrainlabs → Locals → List TickResult
  | [], _, _, _ => []
  | tr_curr :: rest, k, x, loc =>
    let r := tick c b w p tr_curr (rnd k) x loc
    r :: dspLoop c b w p rnd rest (k + 1) r.x r.loc

/-- The result of a block: the object after it and the two output vectors. -/
structure BlockResult where
  x : t_cmgrainlabs
  out_left : List ℚ
  out_right : List ℚ

/-- `cmgrainlabs_perform64`: `buffer` and `w_buffer` are `none` when
`buffer_locksamples` returns no pointer, `ins` are the nine signal vectors
(`ins[0]` the trigger, of `sampleframes` samples).  The report of
`grains_count` to the outlet is not part of the result. -/
def cmgrainlabs_perform64 (c : Collab) (x : t_cmgrainlabs) (buffer w_buffer : Option t_buffer)
    (ins : List (List ℚ)) (rnd : Nat → Draws) : BlockResult :=
  let n := (ins.getD 0 []).length
  match buffer, w_buffer with
  | some b, some w =>
    let trace := dspLoop c b w (resolveParams x ins) rnd (ins.getD 0 []) 0 x
      { trigger := false, slot := 0 }
    { x := (trace.getLast?.map (fun r => r.x)).getD x
      out_left := trace.map (fun r => r.out_left)
      out_right := trace.map (fun r => r.out_right) }
  | _, _ =>
    { x := x, out_left := List.replicate n 0, out_right := List.replicate n 0 }

/-! ## Reachable states -/

/-- The states of an object: a successfully constructed one, and every state
a handler or one iteration of the DSP loop (with both buffers present, any
parameters, any random values and any value of the loop locals) leads to. -/
inductive Reachable (c : Collab) : t_cmgrainlabs → Prop
  | new (argc arg2 : Int) (attrs : AttrArgs) (sr : ℚ) (allocated : Bool) (x : t_cmgrainlabs) :
      cmgrainlabs_new argc arg2 attrs sr allocated = some x → Reachable c x
  | tick (b w : t_buffer) (p : Params) (tr_curr : ℚ) (d : Draws) (loc : Locals)
      (x : t_cmgrainlabs) :
      Reachable c x → Reachable c (tick c b w p tr_curr d x loc).x
  | limit (arg : Int) (x : t_cmgrainlabs) :
      Reachable c x → Reachable c (cmgrainlabs_limit x arg).1
  | float (inlet : Int) (f : ℚ) (x : t_cmgrainlabs) :
      Reachable c x → Reachable c (cmgrainlabs_float x inlet f)
  | notify (modified : Bool) (x : t_cmgrainlabs) :
      Reachable c x → Reachable c (cmgrainlabs_notify x modified)
  | set (ac : Int) (x : t_cmgrainlabs) :
      Reachable c x → Reachable c (cmgrainlabs_set x ac)
  | dsp64 (count : List Int) (samplerate : ℚ) (x : t_cmgrainlabs) :
      Reachable c x → Reachable c (cmgrainlabs_dsp64 x count samplerate)
  | stereo_set (av : Option Int) (x : t_cmgrainlabs) :
      Reachable c x → Reachable c (cmgrainlabs_stereo_set x av)
  | winterp_set (av : Option Int) (x : t_cmgrainlabs) :
      Reachable c x → Reachable c (cmgrainlabs_winterp_set x av)
  | sinterp_set (av : Option Int) (x : t_cmgrainlabs) :
      Reachable c x → Reachable c (cmgrainlabs_sinterp_set x av)
  | zero_set (av : Option Int) (x : t_cmgrainlabs) :
      Reachable c x → Reachable c (cmgrainlabs_zero_set x av)

/-- The counting invariant of the grain pool: the array has `MAXGRAINS` slots,
the limit does not exceed it, and `grains_count` is the number of busy slots. -/
def CountInv (x : t_cmgrainlabs) : Prop :=
  x.grains.length = MAXGRAINS ∧ x.grains_limit ≤ (MAXGRAINS : Int) ∧
    x.grains_count = (countBusy x.grains : Int)

/-- A grain is spawned on a tick: the spawn step of the tick (lines 352-440)
increments `grains_count`, compared with its value after the buffer-modified
reset. -/
def spawnsGrain (c : Collab) (b : t_buffer) (p : Params) (tr_curr : ℚ) (d : Draws)
    (x : t_cmgrainlabs) (loc : Locals) : Bool :=
  decide ((tickSpawn c b p tr_curr d x loc).1.grains_count = (resetPlayback x).grains_count + 1)

/-- No sample `> 0` of the signal is immediately preceded by a sample `< 0`,
`prev` being the predecessor of the first sample. -/
def noCrossing : ℚ → List ℚ → Prop
  | _, [] => True
  | prev, tr_curr :: rest => ¬ (tr_curr > 0 ∧ prev < 0) ∧ noCrossing tr_curr rest

/-! ## Concrete collaborators, buffers and objects

Used to run the model on explicit inputs. -/

/-- A linear pan law and a linear interpolation, standing in for the two
library functions where a concrete run needs them, and the conversion of
x86-64, which gives `LONG_MIN` for every `double` outside the range of
`long`. -/
def linearCollab : Collab :=
  { cm_panning := fun pan => ((1 - pan) / 2, (1 + pan) / 2)
    cm_lininterp := fun distance buf channelcount channel =>
      buf (⌊distance⌋ * channelcount + channel)
        + (distance - ⌊distance⌋)
          * (buf ((⌊distance⌋ + 1) * channelcount + channel)
              - buf (⌊distance⌋ * channelcount + channel))
    long_overflow := fun _ => LONG_MIN }

/-- A mono buffer of `n` frames of constant value 1. -/
def constBuffer (n : Int) : t_buffer :=
  { sample := fun _ => 1, framecount := n, channelcount := 1 }

/-- No attribute given among the arguments. -/
def noAttrs : AttrArgs := { stereo := none, winterp := none, sinterp := none, zero := none }

/-- Random values that are all zero. -/
def zeroDraws : Draws := { start := 0, length := 0, pan := 0, pitch := 0 }

/-- The object built by `cm.grainlabs~ buf win 4` at 44.1 kHz. -/
def object441 : t_cmgrainlabs :=
  (cmgrainlabs_new 3 4 noAttrs 44100 true).get (by decide)

/-- The object built by `cm.grainlabs~ buf win 1` at 48 kHz. -/
def object48 : t_cmgrainlabs :=
  (cmgrainlabs_new 3 1 noAttrs 48000 true).get (by decide)

/-- The locals right after the detector has set `trigger`. -/
def triggered : Locals := { trigger := true, slot := 0 }

/-- The locals at the start of a block. -/
def blockStart : Locals := { trigger := false, slot := 0 }

/-- The grain written by the spawn of the first trigger at 44.1 kHz with the
default parameters, a 100000 frame buffer. -/
def firstGrain : cm_grainsinfo :=
  { busy := true, grainpos := 0, start := 0, t_length := 6615, gr_length := 6615,
    pan_left := 1 / 2, pan_right := 1 / 2 }

/-- The object at 44.1 kHz after the float messages `1.` to the two length
inlets (grain length 1 ms). -/
def object441short : t_cmgrainlabs :=
  cmgrainlabs_float (cmgrainlabs_float object441 3 1) 4 1

/-- The object at 48 kHz with limit 1 after the float messages `1.` to the two
length inlets (grain length 1 ms, 48 samples). -/
def object48short : t_cmgrainlabs :=
  cmgrainlabs_float (cmgrainlabs_float object48 3 1) 4 1

/-- The first 49 trigger samples of a block: the ramp drops at the second
sample and again at the fourth, then stays at 0. -/
def latchSignal : List ℚ := [1, 0, 1, 0] ++ List.replicate 45 0

/-- The result of the 49th tick of the block that starts with `latchSignal`,
on `object48short` with constant buffers. -/
def latchEntry : Option TickResult :=
  (dspLoop linearCollab (constBuffer 100000) (constBuffer 512) (resolveParams object48short [])
    (fun _ => zeroDraws) latchSignal 0 object48short blockStart).getLast?

/-- The object at 44.1 kHz switched to zero-crossing mode. -/
def object441zero : t_cmgrainlabs := cmgrainlabs_zero_set object441 (some 1)

/-- The object after the tick of a fresh object at 44.1 kHz in which the first
trigger is served. -/
def afterFirstSpawn : t_cmgrainlabs :=
  (tick linearCollab (constBuffer 100000) (constBuffer 512) (resolveParams object441 []) 0
    zeroDraws object441 triggered).x

/-- A block of 64 samples on `object48` (default grain length 150 ms, 7200
samples): the ramp drops at the second sample, the grain spawned there has
advanced to position 63 when the block ends. -/
def staleBlock1 : BlockResult :=
  cmgrainlabs_perform64 linearCollab object48 (some (constBuffer 100000))
    (some (constBuffer 512)) [1 :: List.replicate 63 0] (fun _ => zeroDraws)

/-- After the block: a buffer-modified notification and the float messages
`1.` to the two length inlets (grain length 1 ms, 48 samples). -/
def staleObject : t_cmgrainlabs :=
  cmgrainlabs_float (cmgrainlabs_float (cmgrainlabs_notify staleBlock1.x true) 3 1) 4 1

/-- The next block, with the same trigger signal: the first tick resets the
playback information, the second serves a new trigger, the other 62 advance
the new grain. -/
def staleBlock2 : BlockResult :=
  cmgrainlabs_perform64 linearCollab staleObject (some (constBuffer 100000))
    (some (constBuffer 512)) [1 :: List.replicate 63 0] (fun _ => zeroDraws)

/-- Resolved parameters of a grain of 100 samples at pitch 2. -/
def pitchTwoParams : Params :=
  { startmin := 0, startmax := 0, lengthmin := 100, lengthmax := 100,
    pitchmin := 2, pitchmax := 2, panmin := 0, panmax := 0 }

/-- The grain spawned with `pitchTwoParams` against a buffer of 150 frames. -/
def pitchTwoGrain : cm_grainsinfo :=
  { busy := true, grainpos := 0, start := 0, t_length := 100, gr_length := 150,
    pan_left := 1 / 2, pan_right := 1 / 2 }

/-- The object after the first spawn and the message `limit 2`. -/
def afterLimitMessage : t_cmgrainlabs := (cmgrainlabs_limit afterFirstSpawn 2).1

/-- The body of the reset (lines 344-348): every busy flag cleared,
`grains_count` and `buffer_modified` set to 0. -/
def invalidateAll (x : t_cmgrainlabs) : t_cmgrainlabs :=
  { x with
    grains := x.grains.map (fun g => { g with busy := false })
    grains_count := 0
    buffer_modified := false }

/-- The object after the first spawn and a buffer-modified notification. -/
def afterNotify : t_cmgrainlabs := cmgrainlabs_notify afterFirstSpawn true

/-- What can happen to an object after its construction: one iteration of the
DSP loop with both buffers present (any parameters, trigger sample, random
values and loop locals) or a call of one of the handlers. -/
inductive Event where
  | tick (b w : t_buffer) (p : Params) (tr_curr : ℚ) (d : Draws) (loc : Locals)
  | limit (arg : Int)
  | float (inlet : Int) (f : ℚ)
  | notify (modified : Bool)
  | set (ac : Int)
  | dsp64 (count : List Int) (samplerate : ℚ)
  | stereo_set (av : Option Int)
  | winterp_set (av : Option Int)
  | sinterp_set (av : Option Int)
  | zero_set (av : Option Int)

/-- The object after an event. -/
def applyEvent (c : Collab) (x : t_cmgrainlabs) : Event → t_cmgrainlabs
  | .tick b w p tr_curr d loc => (tick c b w p tr_curr d x loc).x
  | .limit arg => (cmgrainlabs_limit x arg).1
  | .float inlet f => cmgrainlabs_float x inlet f
  | .notify modified => cmgrainlabs_notify x modified
  | .set ac => cmgrainlabs_set x ac
  | .dsp64 count samplerate => cmgrainlabs_dsp64 x count samplerate
  | .stereo_set av => cmgrainlabs_stereo_set x av
  | .winterp_set av => cmgrainlabs_winterp_set x av
  | .sinterp_set av => cmgrainlabs_sinterp_set x av
  | .zero_set av => cmgrainlabs_zero_set x av

/-- The event is a limit message. -/
def isLimitMessage : Event → Bool
  | .limit _ => true
  | _ => false

/-- The object after a sequence of events. -/
def runEvents (c : Collab) (x : t_cmgrainlabs) (es : List Event) : t_cmgrainlabs :=
  es.foldl (applyEvent c) x

/-- The limit invariant: the limit is at least 1, and while no limit change is
pending `grains_count` does not exceed it. -/
def LimitInv (x : t_cmgrainlabs) : Prop :=
  1 ≤ x.grains_limit ∧ (x.limit_modified = false → x.grains_count ≤ x.grains_limit)

/-- The busy slots below the effective limit of the playback loop, in index
order. -/
def busyBelowLimit (x : t_cmgrainlabs) : List cm_grainsinfo :=
  (x.grains.take (playLimit x).toNat).filter (fun g => g.busy)

/-- The object at 48 kHz after float messages that set the start range to
2000 ms, the length range to 1 ms and the pitch range to 0.01. -/
def lowPitchObject : t_cmgrainlabs :=
  cmgrainlabs_float (cmgrainlabs_float (cmgrainlabs_float (cmgrainlabs_float
    (cmgrainlabs_float (cmgrainlabs_float object48 1 2000) 2 2000) 3 1) 4 1) 5 (1 / 100)) 6
    (1 / 100)

/-- Random values that are all different from the default parameters. -/
def otherDraws : Draws := { start := 7, length := 9, pan := 1, pitch := 3 }

/-- The first tick of the block that follows `staleObject` (trigger sample 1):
the playback information is reset, no grain is spawned. -/
def staleEntry : TickResult :=
  tick linearCollab (constBuffer 100000) (constBuffer 512) (resolveParams staleObject []) 1
    zeroDraws staleObject blockStart

/-- The object built by `cm.grainlabs~ buf win 2` at 48 kHz. -/
def object48two : t_cmgrainlabs :=
  (cmgrainlabs_new 3 2 noAttrs 48000 true).get (by decide)

/-- A block of four samples on `object48two`: the ramp drops at the second and
at the fourth sample, two grains of 7200 samples are spawned into slots 0 and
1. -/
def twoGrainsBlock : BlockResult :=
  cmgrainlabs_perform64 linearCollab object48two (some (constBuffer 100000))
    (some (constBuffer 512)) [[1, 0, 1, 0]] (fun _ => zeroDraws)

/-- After the block the message `limit 1` is sent twice. -/
def twiceLimited : t_cmgrainlabs :=
  (cmgrainlabs_limit (cmgrainlabs_limit twoGrainsBlock.x 1).1 1).1

/-- The next block of four samples. -/
def stuckBlock : BlockResult :=
  cmgrainlabs_perform64 linearCollab twiceLimited (some (constBuffer 100000))
    (some (constBuffer 512)) [[0, 0, 0, 0]] (fun _ => zeroDraws)

/-- The event keeps the millisample rate at 1 or above: a `dsp64` call with a
sample rate of at least 1000 Hz, or any other event. -/
def keepsRate : Event → Prop
  | .dsp64 _ samplerate => 1 ≤ samplerate * (1 / 1000)
  | _ => True

/-- The length invariant: `m_sr` is at least 1 and every busy slot has a
`t_length` of at least 1. -/
def BusyLengthInv (x : t_cmgrainlabs) : Prop :=
  1 ≤ x.m_sr ∧ ∀ g ∈ x.grains, g.busy = true → 1 ≤ g.t_length

/-- The object and the loop locals at the entry of tick `k` of the DSP loop
(`k = 0` is the first tick), following `dspLoop`; past the end of the signal
they are those after the last tick. -/
def tickEntry (c : Collab) (b w : t_buffer) (p : Params) (rnd : Nat → Draws) :
    List ℚ → Nat → t_cmgrainlabs → Locals → Nat → t_cmgrainlabs × Locals
  | _, _, x, loc, 0 => (x, loc)
  | [], _, x, loc, _ + 1 => (x, loc)
  | tr_curr :: rest, k0, x, loc, k + 1 =>
    tickEntry c b w p rnd rest (k0 + 1) (tick c b w p tr_curr (rnd k0) x loc).x
      (tick c b w p tr_curr (rnd k0) x loc).loc k

/-- The event is an iteration of the DSP loop. -/
def isTick : Event → Bool
  | .tick _ _ _ _ _ _ => true
  | _ => false

/-- What the playback loop does to a busy slot (lines 474 and 497-500): the
position is incremented, and when it has reached `t_length` the position is
reset and the slot released. -/
def advanced (g : cm_grainsinfo) : cm_grainsinfo :=
  if g.grainpos + 1 = g.t_length then { g with grainpos := 0, busy := false }
  else { g with grainpos := g.grainpos + 1 }

/-- Resolved parameters of a grain of 2 samples at the sample rate that gives
`m_sr = 1`. -/
def shortGrainParams : Params :=
  { startmin := 0, startmax := 0, lengthmin := 2, lengthmax := 2,
    pitchmin := 1, pitchmax := 1, panmin := 0, panmax := 0 }

/-- The object built by `cm.grainlabs~ buf win 4` at 1 kHz (`m_sr = 1`). -/
def object1k : t_cmgrainlabs :=
  (cmgrainlabs_new 3 4 noAttrs 1000 true).get (by decide)

/-- The grain of 2 samples spawned on `object1k`. -/
def shortGrain : cm_grainsinfo :=
  { busy := true, grainpos := 0, start := 0, t_length := 2, gr_length := 2,
    pan_left := 1 / 2, pan_right := 1 / 2 }

/-- The legal range of a float message as the specification gives it for the
inlets 1..8 (start: `f >= 0`; length: `1 <= f <= 300`; pitch: `0 < f <= 10`;
pan: `-1 <= f <= 1`), in the comparisons of doubles. -/
def legalValue (inlet : Int) (f : Double) : Bool :=
  if inlet = 1 ∨ inlet = 2 then (Double.num 0).le f
  else if inlet = 3 ∨ inlet = 4 then (Double.num 1).le f && f.le (.num 300)
  else if inlet = 5 ∨ inlet = 6 then (Double.num 0).lt f && f.le (.num 10)
  else if inlet = 7 ∨ inlet = 8 then (Double.num (-1)).le f && f.le (.num 1)
  else false

/-- The scalar fallback of inlet 1..8. -/
def fallback (x : t_cmgrainlabs) (inlet : Int) : ℚ :=
  if inlet = 1 then x.startmin_float
  else if inlet = 2 then x.startmax_float
  else if inlet = 3 then x.lengthmin_float
  else if inlet = 4 then x.lengthmax_float
  else if inlet = 5 then x.pitchmin_float
  else if inlet = 6 then x.pitchmax_float
  else if inlet = 7 then x.panmin_float
  else if inlet = 8 then x.panmax_float
  else 0

/-- The object at 48 kHz after the float messages `2 ^ 100` to the two start
inlets. -/
def farStartObject : t_cmgrainlabs :=
  cmgrainlabs_float (cmgrainlabs_float object48 1 (2 ^ 100)) 2 (2 ^ 100)

/-- The grain spawned on `farStartObject` against a buffer of 100000 frames
when the conversion of the start gives `LONG_MIN`. -/
def farStartGrain : cm_grainsinfo :=
  { busy := true, grainpos := 0, start := 0, t_length := 7200, gr_length := 7200,
    pan_left := 1 / 2, pan_right := 1 / 2 }

/-- The collaborators of `linearCollab` on a platform whose conversion
saturates: `LONG_MAX` above the range of `long`, `LONG_MIN` below. -/
def saturatingCollab : Collab :=
  { linearCollab with long_overflow := fun d => if d < 0 then LONG_MIN else LONG_MAX }

/-! ## Conversion and clamp lemmas -/

theorem toLong_le_of_nonneg {d : ℚ} (h : 0 ≤ d) : (toLong d : ℚ) ≤ d := by
  unfold toLong
  rw [if_pos h]
  exact Int.floor_le d

theorem toLong_nonneg {d : ℚ} (h : 0 ≤ d) : 0 ≤ toLong d := by
  unfold toLong
  rw [if_pos h]
  exact Int.floor_nonneg.mpr h

theorem sub_one_lt_toLong (d : ℚ) : d - 1 < (toLong d : ℚ) := by
  unfold toLong
  split_ifs with h
  · exact Int.sub_one_lt_floor d
  · have := Int.le_ceil d
    linarith

theorem toLong_mono {a b : ℚ} (ha : 0 ≤ a) (hab : a ≤ b) : toLong a ≤ toLong b := by
  unfold toLong
  rw [if_pos ha, if_pos (ha.trans hab)]
  exact Int.floor_mono hab

theorem toLong_le_of_le_cast {d : ℚ} {n : Int} (hd : 0 ≤ d) (h : d ≤ (n : ℚ)) : toLong d ≤ n := by
  unfold toLong
  rw [if_pos hd]
  exact_mod_cast (Int.floor_le d).trans h

/-! ## Lemmas on the rounding to double -/

theorem roundHalfEven_error (q : ℚ) : |(roundHalfEven q : ℚ) - q| ≤ 1 / 2 := by
  have h0 := Int.floor_le q
  have h1 := Int.lt_floor_add_one q
  unfold roundHalfEven
  rw [abs_le]
  split_ifs with ha hb hc
  · constructor <;> linarith
  · push_cast
    constructor <;> linarith
  · constructor <;> linarith
  · push_cast
    constructor <;> linarith

theorem roundHalfEven_floor (q : ℚ) : ⌊q⌋ ≤ roundHalfEven q ∧ roundHalfEven q ≤ ⌊q⌋ + 1 := by
  unfold roundHalfEven
  split_ifs <;> omega

theorem roundHalfEven_le_ceil (q : ℚ) : roundHalfEven q ≤ ⌈q⌉ := by
  have hfc := Int.floor_le_ceil q
  unfold roundHalfEven
  have hne : ¬ (q - ⌊q⌋ < 1 / 2) → ⌊q⌋ + 1 ≤ ⌈q⌉ := by
    intro h
    have h1 : ((⌊q⌋ : Int) : ℚ) < q := by linarith
    have h2 := Int.le_ceil q
    have h3 : ((⌊q⌋ : Int) : ℚ) < ((⌈q⌉ : Int) : ℚ) := lt_of_lt_of_le h1 h2
    have h4 : ⌊q⌋ < ⌈q⌉ := by exact_mod_cast h3
    omega
  split_ifs with ha hb hc
  · exact hfc
  · exact hne ha
  · exact hfc
  · exact hne ha

theorem bitLength_zero (fuel : Nat) : bitLength fuel 0 = 0 := by
  cases fuel <;> simp [bitLength]

theorem bitLength_spec (fuel : Nat) : ∀ n : Nat, n ≤ fuel → 0 < n →
    2 ^ (bitLength fuel n - 1) ≤ n ∧ n < 2 ^ bitLength fuel n ∧ 1 ≤ bitLength fuel n := by
  induction fuel with
  | zero => intro n h1 h2; omega
  | succ fuel ih =>
    intro n h1 h2
    have hn : n ≠ 0 := by omega
    simp only [bitLength, if_neg hn]
    by_cases h : n / 2 = 0
    · rw [h, bitLength_zero]
      have : n = 1 := by omega
      subst this
      simp
    · have hpos : 0 < n / 2 := Nat.pos_of_ne_zero h
      have hle : n / 2 ≤ fuel := by omega
      obtain ⟨i1, i2, i3⟩ := ih (n / 2) hle hpos
      refine ⟨?_, ?_, by omega⟩
      · have : bitLength fuel (n / 2) + 1 - 1 = (bitLength fuel (n / 2) - 1) + 1 := by omega
        rw [this, pow_succ]
        omega
      · rw [pow_succ]
        omega

/-- The bounds of `bitLength` over the rationals: `2 ^ a ≤ 2 * n` and `n < 2 ^ a`. -/
theorem bitLength_bounds (n : Nat) (h : 0 < n) :
    (2 : ℚ) ^ bitLength n n ≤ 2 * (n : ℚ) ∧ (n : ℚ) < (2 : ℚ) ^ bitLength n n := by
  obtain ⟨i1, i2, i3⟩ := bitLength_spec n n le_rfl h
  constructor
  · have : 2 ^ bitLength n n ≤ 2 * n := by
      have h' : bitLength n n = (bitLength n n - 1) + 1 := by omega
      rw [h', pow_succ]
      omega
    exact_mod_cast this
  · exact_mod_cast i2

theorem abs_eq_natAbs_div_den (q : ℚ) : |q| = (q.num.natAbs : ℚ) / (q.den : ℚ) := by
  conv_lhs => rw [← Rat.num_div_den q]
  rw [abs_div, Nat.cast_natAbs, Int.cast_abs, abs_of_pos (by exact_mod_cast q.den_pos : (0 : ℚ) < q.den)]

theorem binade_spec (q : ℚ) (hq : q ≠ 0) :
    (2 : ℚ) ^ binade q ≤ |q| ∧ |q| < (2 : ℚ) ^ (binade q + 1) := by
  have hN : 0 < q.num.natAbs := Int.natAbs_pos.mpr (Rat.num_ne_zero.mpr hq)
  have hD : 0 < q.den := q.den_pos
  obtain ⟨a1, a2⟩ := bitLength_bounds q.num.natAbs hN
  obtain ⟨b1, b2⟩ := bitLength_bounds q.den hD
  have hNq : (0 : ℚ) < (q.num.natAbs : ℚ) := by exact_mod_cast hN
  have hDq : (0 : ℚ) < (q.den : ℚ) := by exact_mod_cast hD
  have h2 : (2 : ℚ) ≠ 0 := by norm_num
  have hpa : (0 : ℚ) < (2 : ℚ) ^ bitLength q.num.natAbs q.num.natAbs := by positivity
  have hpb : (0 : ℚ) < (2 : ℚ) ^ bitLength q.den q.den := by positivity
  have habs := abs_eq_natAbs_div_den q
  have hup : |q| < (2 : ℚ) ^ ((bitLength q.num.natAbs q.num.natAbs : Int)
      - (bitLength q.den q.den : Int) + 1) := by
    rw [zpow_add₀ h2, zpow_sub₀ h2, zpow_natCast, zpow_natCast, zpow_one, habs,
      div_mul_eq_mul_div, div_lt_div_iff₀ hDq hpb]
    nlinarith
  have hlow : (2 : ℚ) ^ ((bitLength q.num.natAbs q.num.natAbs : Int)
      - (bitLength q.den q.den : Int) - 1) ≤ |q| := by
    rw [zpow_sub₀ h2, zpow_sub₀ h2, zpow_natCast, zpow_natCast, zpow_one, habs,
      div_div, div_le_div_iff₀ (by positivity) hDq]
    nlinarith
  unfold binade
  simp only
  split_ifs with h
  · exact ⟨h, hup⟩
  · refine ⟨hlow, ?_⟩
    rw [sub_add_cancel]
    exact not_le.mp h

/-- The value of `roundDouble` at `q ≠ 0` is a multiple of
`2 ^ (binade q - 52)` by an integer between `2 ^ 52` and `2 ^ 53` in absolute
value (53 binary digits), at most half such a unit away from `q`, hence within
`|q| / 2 ^ 53` of `q`. -/
theorem roundDouble_spec (q : ℚ) (hq : q ≠ 0) :
    roundDouble q = (roundHalfEven (q / 2 ^ (binade q - 52)) : ℚ) * 2 ^ (binade q - 52) ∧
      (2 ^ 52 ≤ |roundHalfEven (q / 2 ^ (binade q - 52))| ∧
        |roundHalfEven (q / 2 ^ (binade q - 52))| ≤ 2 ^ 53) ∧
      |roundDouble q - q| ≤ 2 ^ (binade q - 53) ∧
      |roundDouble q - q| ≤ |q| / 2 ^ 53 := by
  have h2 : (2 : ℚ) ≠ 0 := by norm_num
  have hs : (0 : ℚ) < (2 : ℚ) ^ (binade q - 52) := by positivity
  obtain ⟨e1, e2⟩ := binade_spec q hq
  have herr := roundHalfEven_error (q / 2 ^ (binade q - 52))
  have hr : roundDouble q
      = (roundHalfEven (q / 2 ^ (binade q - 52)) : ℚ) * 2 ^ (binade q - 52) := by
    unfold roundDouble
    rw [if_neg hq]
  have hm : |q / 2 ^ (binade q - 52)| < 2 ^ 53 := by
    rw [abs_div, abs_of_pos hs, div_lt_iff₀ hs]
    calc |q| < 2 ^ (binade q + 1) := e2
      _ = 2 ^ 53 * 2 ^ (binade q - 52) := by
        rw [show binade q + 1 = 53 + (binade q - 52) by ring, zpow_add₀ h2]
        norm_num
  have hd : |roundDouble q - q| ≤ 2 ^ (binade q - 53) := by
    rw [hr]
    have : (roundHalfEven (q / 2 ^ (binade q - 52)) : ℚ) * 2 ^ (binade q - 52) - q
        = ((roundHalfEven (q / 2 ^ (binade q - 52)) : ℚ) - q / 2 ^ (binade q - 52))
          * 2 ^ (binade q - 52) := by
      field_simp
    rw [this, abs_mul, abs_of_pos hs]
    calc |(roundHalfEven (q / 2 ^ (binade q - 52)) : ℚ) - q / 2 ^ (binade q - 52)|
          * 2 ^ (binade q - 52) ≤ 1 / 2 * 2 ^ (binade q - 52) :=
          mul_le_mul_of_nonneg_right herr hs.le
      _ = 2 ^ (binade q - 53) := by
        rw [show binade q - 52 = 1 + (binade q - 53) by ring, zpow_add₀ h2, zpow_one]
        ring
  have hm2 : 2 ^ 52 ≤ |q / 2 ^ (binade q - 52)| := by
    rw [abs_div, abs_of_pos hs, le_div_iff₀ hs]
    calc (2 : ℚ) ^ 52 * 2 ^ (binade q - 52) = 2 ^ binade q := by
          rw [show binade q = 52 + (binade q - 52) by ring, zpow_add₀ h2]
          norm_num
      _ ≤ |q| := e1
  refine ⟨hr, ?_, hd, ?_⟩
  · obtain ⟨f1, f2⟩ := roundHalfEven_floor (q / 2 ^ (binade q - 52))
    have f3 := roundHalfEven_le_ceil (q / 2 ^ (binade q - 52))
    obtain ⟨m1, m2⟩ := abs_lt.mp hm
    have hfl : ⌊q / 2 ^ (binade q - 52)⌋ < 2 ^ 53 := by
      have := Int.floor_le (q / 2 ^ (binade q - 52))
      have h3 : ((⌊q / 2 ^ (binade q - 52)⌋ : Int) : ℚ) < ((2 ^ 53 : Int) : ℚ) := by
        push_cast
        linarith
      exact_mod_cast h3
    have hfl2 : -(2 ^ 53 : Int) ≤ ⌊q / 2 ^ (binade q - 52)⌋ := by
      apply Int.le_floor.mpr
      push_cast
      linarith
    constructor
    · rcases le_abs'.mp hm2 with h | h
      · have hc : ⌈q / 2 ^ (binade q - 52)⌉ ≤ -(2 ^ 52 : Int) := by
          apply Int.ceil_le.mpr
          push_cast
          exact h
        rw [le_abs']
        left
        omega
      · have hc : (2 ^ 52 : Int) ≤ ⌊q / 2 ^ (binade q - 52)⌋ := by
          apply Int.le_floor.mpr
          push_cast
          exact h
        rw [le_abs']
        right
        omega
    · rw [abs_le]
      constructor <;> omega
  · calc |roundDouble q - q| ≤ 2 ^ (binade q - 53) := hd
      _ = 2 ^ binade q / 2 ^ 53 := by
        rw [zpow_sub₀ h2]
        norm_num
      _ ≤ |q| / 2 ^ 53 := by
        apply div_le_div_of_nonneg_right e1
        positivity

/-! ## Lemmas on the clamps of a spawn -/

theorem drawLength_upper (c : Collab) (m_sr : ℚ) (p : Params) (d : Draws) (h : 0 < m_sr) :
    (drawLength c m_sr p d : ℚ) ≤ MAX_GRAINLENGTH * m_sr := by
  have h300 : (0 : ℚ) ≤ MAX_GRAINLENGTH * m_sr := by unfold MAX_GRAINLENGTH; positivity
  have h1 : (0 : ℚ) ≤ MIN_GRAINLENGTH * m_sr := by unfold MIN_GRAINLENGTH; positivity
  have h13 : MIN_GRAINLENGTH * m_sr ≤ MAX_GRAINLENGTH * m_sr := by
    unfold MIN_GRAINLENGTH MAX_GRAINLENGTH; nlinarith
  unfold drawLength
  simp only
  split_ifs with ha hb hc hd
  all_goals first
    | exact toLong_le_of_nonneg h300
    | exact (toLong_le_of_nonneg h1).trans h13
    | exact not_lt.mp (by assumption)

theorem drawLength_lower (c : Collab) (m_sr : ℚ) (p : Params) (d : Draws) (h : 0 < m_sr) :
    toLong (MIN_GRAINLENGTH * m_sr) ≤ drawLength c m_sr p d := by
  have h1 : (0 : ℚ) ≤ MIN_GRAINLENGTH * m_sr := by unfold MIN_GRAINLENGTH; positivity
  have h13 : MIN_GRAINLENGTH * m_sr ≤ MAX_GRAINLENGTH * m_sr := by
    unfold MIN_GRAINLENGTH MAX_GRAINLENGTH; nlinarith
  unfold drawLength
  simp only
  split_ifs with ha hb hc hd
  all_goals first
    | exact toLong_mono h1 h13
    | exact le_refl _
    | exact toLong_le_of_le_cast h1 (not_lt.mp (by assumption))

theorem grainLength_le (t : Int) (pitch : ℚ) (b : Int) : grainLength t pitch b ≤ b := by
  unfold grainLength
  simp only
  split_ifs <;> omega

theorem grainLength_eq_min (t : Int) (pitch : ℚ) (b : Int) :
    grainLength t pitch b = min (toLong (roundDouble (roundDouble (t : ℚ) * pitch))) b := by
  unfold grainLength
  simp only
  split_ifs <;> omega

theorem clampStart_bounds (s gr b : Int) (h : gr ≤ b) :
    0 ≤ clampStart s gr b ∧ clampStart s gr b + gr ≤ b := by
  unfold clampStart
  simp only
  split_ifs <;> omega

theorem clampStart_moved (s gr b : Int) (h : gr ≤ b) (hs : s > b - gr) :
    clampStart s gr b = b - gr := by
  unfold clampStart
  simp only
  split_ifs <;> omega

theorem drawPitch_eq (p : Params) (d : Draws) :
    drawPitch p d = min (max (if p.pitchmin ≠ p.pitchmax then d.pitch else p.pitchmin) (1 / 1000)) 10 := by
  unfold drawPitch MAX_PITCH
  simp only
  split_ifs with h1 h2 h3 h4 h5 h6 h7 <;>
    simp only [max_def, min_def] <;> split_ifs <;> first | rfl | linarith

/-! ## Slot search and counting lemmas -/

theorem updateSlot_length (gs : List cm_grainsinfo) (i : Nat) (f : cm_grainsinfo → cm_grainsinfo) :
    (updateSlot gs i f).length = gs.length := by
  unfold updateSlot
  split <;> simp

theorem updateSlot_getElem?_self (gs : List cm_grainsinfo) (i : Nat)
    (f : cm_grainsinfo → cm_grainsinfo) :
    (updateSlot gs i f)[i]? = (gs[i]?).map f := by
  unfold updateSlot
  split
  · rename_i g hg
    have hi : i < gs.length := by
      rcases List.getElem?_eq_some_iff.mp hg with ⟨h, _⟩
      exact h
    simp [hg, List.getElem?_set_self, hi]
  · rename_i hg
    simp [hg]

theorem updateSlot_getElem?_ne (gs : List cm_grainsinfo) (i k : Nat)
    (f : cm_grainsinfo → cm_grainsinfo) (h : k ≠ i) :
    (updateSlot gs i f)[k]? = gs[k]? := by
  unfold updateSlot
  split
  · simp [List.getElem?_set_ne (Ne.symm h)]
  · rfl

theorem countBusy_set (gs : List cm_grainsinfo) (i : Nat) (g g' : cm_grainsinfo)
    (h : gs[i]? = some g) :
    countBusy (gs.set i g') + (if g.busy then 1 else 0)
      = countBusy gs + (if g'.busy then 1 else 0) := by
  induction gs generalizing i with
  | nil => simp at h
  | cons a as ih =>
    cases i with
    | zero =>
      simp at h
      subst h
      simp only [countBusy, List.set_cons_zero, List.countP_cons]
      omega
    | succ n =>
      simp at h
      have := ih n h
      simp only [countBusy, List.set_cons_succ, List.countP_cons] at this ⊢
      omega

theorem scanFree_none (gs : List cm_grainsinfo) (k : Nat) (limit : Int)
    (h : scanFree gs k limit = none) (hl : limit - k ≤ (gs.length : Int)) :
    limit - k ≤ (countBusy gs : Int) := by
  induction gs generalizing k with
  | nil => simpa [countBusy] using hl
  | cons g gs ih =>
    unfold scanFree at h
    split_ifs at h with h1 h2
    · have hb : g.busy = true := by simpa using h2
      have := ih (k + 1) h (by simp at hl ⊢; omega)
      simp only [countBusy, List.countP_cons, hb] at this ⊢
      push_cast at this ⊢
      simp
      omega
    · have : (0 : Int) ≤ (countBusy (g :: gs) : Int) := Int.ofNat_nonneg _
      omega

theorem scanFree_some (gs : List cm_grainsinfo) (k : Nat) (limit : Int) (i : Nat)
    (h : scanFree gs k limit = some i) :
    k ≤ i ∧ (i : Int) < limit ∧ (∃ g, gs[i - k]? = some g ∧ g.busy = false) ∧
      ∀ j, j < i - k → ∀ g, gs[j]? = some g → g.busy = true := by
  induction gs generalizing k with
  | nil => simp [scanFree] at h
  | cons g gs ih =>
    unfold scanFree at h
    split_ifs at h with h1 h2
    · simp at h
      subst h
      refine ⟨le_refl _, h1, ⟨g, by simp, by simpa using h2⟩, ?_⟩
      intro j hj
      omega
    · have hb : g.busy = true := by simpa using h2
      obtain ⟨hk, hlim, ⟨g0, hg0, hfree⟩, hbelow⟩ := ih (k + 1) h
      have hik : i - k = (i - (k + 1)) + 1 := by omega
      refine ⟨by omega, hlim, ⟨g0, by rw [hik]; simpa using hg0, hfree⟩, ?_⟩
      intro j hj g' hg'
      cases j with
      | zero => simp at hg'; subst hg'; exact hb
      | succ n =>
        simp at hg'
        exact hbelow n (by omega) g' hg'

theorem scanFree_isSome (gs : List cm_grainsinfo) (k : Nat) (limit : Int) (j : Nat) (g : cm_grainsinfo)
    (hj : ((k + j : Nat) : Int) < limit) (hg : gs[j]? = some g) (hfree : g.busy = false) :
    ∃ i, scanFree gs k limit = some i := by
  induction gs generalizing k j with
  | nil => simp at hg
  | cons a as ih =>
    unfold scanFree
    have hk : (k : Int) < limit := by push_cast at hj; omega
    rw [if_pos hk]
    by_cases ha : a.busy = true
    · simp only [ha, Bool.not_true, Bool.false_eq_true, if_false]
      cases j with
      | zero => simp at hg; subst hg; simp [ha] at hfree
      | succ n =>
        simp at hg
        exact ih (k + 1) n (by push_cast at hj ⊢; omega) hg
    · simp at ha
      exact ⟨k, by simp [ha]⟩

theorem countBusy_map_clear (gs : List cm_grainsinfo) :
    countBusy (gs.map (fun g => { g with busy := false })) = 0 := by
  induction gs with
  | nil => rfl
  | cons g gs ih =>
    simp only [countBusy, List.map_cons, List.countP_cons] at ih ⊢
    simp [ih]

theorem countBusy_replicate_empty (n : Nat) : countBusy (List.replicate n emptyGrain) = 0 := by
  induction n with
  | zero => rfl
  | succ n ih =>
    simp only [countBusy, List.replicate_succ, List.countP_cons] at ih ⊢
    simp [ih, emptyGrain]

/-! ## The counting invariant -/

theorem CountInv_new (argc arg2 : Int) (attrs : AttrArgs) (sr : ℚ) (allocated : Bool)
    (x : t_cmgrainlabs) (h : cmgrainlabs_new argc arg2 attrs sr allocated = some x) : CountInv x := by
  unfold cmgrainlabs_new at h
  simp only at h
  split_ifs at h with h1 h2 h3
  simp only [Option.some.injEq] at h
  subst h
  refine ⟨by simp, ?_, ?_⟩
  · simp only
    push_neg at h2
    exact h2.2
  · simp [countBusy_replicate_empty]

theorem CountInv_resetPlayback (x : t_cmgrainlabs) (h : CountInv x) : CountInv (resetPlayback x) := by
  unfold resetPlayback
  split_ifs
  · obtain ⟨h1, h2, _⟩ := h
    exact ⟨by simpa using h1, h2, by simp [countBusy_map_clear]⟩
  · exact h

theorem CountInv_spawn (c : Collab) (b : t_buffer) (p : Params) (d : Draws) (x : t_cmgrainlabs)
    (loc : Locals) (h : CountInv x) : CountInv (spawn c b p d x loc).1 := by
  obtain ⟨hlen, hlim, hcnt⟩ := h
  unfold spawn
  split_ifs with hg
  · have hlt : x.grains_count < x.grains_limit := by
      simp only [spawnGuard, Bool.and_eq_true, decide_eq_true_eq] at hg
      exact hg.1.2
    cases hs : scanFree x.grains 0 x.grains_limit with
    | none =>
      exfalso
      have := scanFree_none x.grains 0 x.grains_limit hs (by rw [hlen]; simpa using hlim)
      simp at this
      omega
    | some i =>
      obtain ⟨_, _, ⟨g0, hg0, hfree⟩, _⟩ := scanFree_some x.grains 0 x.grains_limit i hs
      simp only [Nat.sub_zero] at hg0
      refine ⟨by simp [updateSlot_length, hlen], hlim, ?_⟩
      simp only [updateSlot, hg0]
      have := countBusy_set x.grains i g0
        (writeGrain c x.m_sr b.framecount p d { g0 with busy := true }) hg0
      simp only [hfree, writeGrain] at this
      simp only [writeGrain]
      simp at this
      rw [this, hcnt]
      push_cast
      rfl
  · exact ⟨hlen, hlim, hcnt⟩

theorem CountInv_playSlot (c : Collab) (b w : t_buffer) (i : Nat) (m : Mix) (h : CountInv m.x) :
    CountInv (playSlot c b w i m).x := by
  obtain ⟨hlen, hlim, hcnt⟩ := h
  unfold playSlot
  split
  · exact ⟨hlen, hlim, hcnt⟩
  · rename_i g hg
    by_cases hb : g.busy = true
    · rw [if_pos hb]
      by_cases hr : g.grainpos + 1 = g.t_length
      · rw [if_pos hr]
        have := countBusy_set m.x.grains i g { g with grainpos := 0, busy := false } hg
        simp only [hb, if_true] at this
        simp at this
        refine ⟨by simp [hlen], hlim, ?_⟩
        simp only
        rw [hcnt, ← this]
        push_cast
        have h0 : (0 : Int) ≤
            (countBusy (m.x.grains.set i { g with grainpos := 0, busy := false }) : Int) :=
          Int.ofNat_nonneg _
        split_ifs <;> omega
      · rw [if_neg hr]
        have := countBusy_set m.x.grains i g { g with grainpos := g.grainpos + 1 } hg
        refine ⟨by simp [hlen], hlim, ?_⟩
        simp only at this ⊢
        rw [hcnt]
        omega
    · rw [if_neg hb]
      exact ⟨hlen, hlim, hcnt⟩

theorem CountInv_foldl_playSlot (c : Collab) (b w : t_buffer) (l : List Nat) (m : Mix) (h : CountInv m.x) :
    CountInv (l.foldl (fun m i => playSlot c b w i m) m).x := by
  induction l generalizing m with
  | nil => exact h
  | cons i l ih => exact ih _ (CountInv_playSlot c b w i m h)

theorem CountInv_playback (c : Collab) (b w : t_buffer) (x : t_cmgrainlabs) (h : CountInv x) :
    CountInv (playback c b w x).x := by
  unfold playback
  split_ifs
  · exact h
  · exact CountInv_foldl_playSlot c b w _ _ h

theorem CountInv_tick (c : Collab) (b w : t_buffer) (p : Params) (tr_curr : ℚ) (d : Draws)
    (x : t_cmgrainlabs) (loc : Locals) (h : CountInv x) : CountInv (tick c b w p tr_curr d x loc).x := by
  have h1 := CountInv_playback c b w _ (CountInv_spawn c b p d _
    { loc with trigger := detectTrigger x tr_curr loc.trigger } (CountInv_resetPlayback x h))
  unfold tick tickSpawn resetLimitModified
  simp only
  split_ifs <;> exact h1

theorem CountInv_limit (x : t_cmgrainlabs) (arg : Int) (h : CountInv x) : CountInv (cmgrainlabs_limit x arg).1 := by
  obtain ⟨hlen, hlim, hcnt⟩ := h
  unfold cmgrainlabs_limit
  split_ifs with ha
  · exact ⟨hlen, hlim, hcnt⟩
  · refine ⟨hlen, ?_, hcnt⟩
    simp only [toShort, MAXGRAINS] at ha ⊢
    push_cast at ha ⊢
    omega

theorem CountInv_of_eq (x y : t_cmgrainlabs) (hg : y.grains = x.grains)
    (hl : y.grains_limit = x.grains_limit) (hc : y.grains_count = x.grains_count) (h : CountInv x) :
    CountInv y := by
  unfold CountInv at h ⊢
  rw [hg, hl, hc]
  exact h

theorem CountInv_float (x : t_cmgrainlabs) (inlet : Int) (f : ℚ) (h : CountInv x) :
    CountInv (cmgrainlabs_float x inlet f) := by
  unfold cmgrainlabs_float
  repeat' split
  all_goals exact CountInv_of_eq x _ rfl rfl rfl h

theorem CountInv_reachable (c : Collab) (x : t_cmgrainlabs) (h : Reachable c x) : CountInv x := by
  induction h with
  | new argc arg2 attrs sr allocated x hx => exact CountInv_new argc arg2 attrs sr allocated x hx
  | tick b w p tr_curr d loc x _ ih => exact CountInv_tick c b w p tr_curr d x loc ih
  | limit arg x _ ih => exact CountInv_limit x arg ih
  | float inlet f x _ ih => exact CountInv_float x inlet f ih
  | notify modified x _ ih =>
    unfold cmgrainlabs_notify
    split_ifs <;> exact ih
  | set ac x _ ih =>
    unfold cmgrainlabs_set
    split_ifs <;> exact ih
  | dsp64 count samplerate x _ ih => exact ih
  | stereo_set av x _ ih => cases av <;> exact ih
  | winterp_set av x _ ih => cases av <;> exact ih
  | sinterp_set av x _ ih => cases av <;> exact ih
  | zero_set av x _ ih => cases av <;> exact ih

/-! ## Lemmas on the steps of a tick -/

/-- The grain found at `slot` after an executed spawn was written by
`writeGrain`. -/
theorem spawn_written (c : Collab) (b : t_buffer) (p : Params) (d : Draws) (x : t_cmgrainlabs)
    (loc : Locals) (hg : spawnGuard x loc = true) (g : cm_grainsinfo)
    (hs : (spawn c b p d x loc).1.grains[(spawn c b p d x loc).2.slot]? = some g) :
    ∃ g0, g = writeGrain c x.m_sr b.framecount p d g0 := by
  unfold spawn at hs
  rw [if_pos hg] at hs
  cases hsc : scanFree x.grains 0 x.grains_limit with
  | none =>
    simp only [hsc, updateSlot_getElem?_self] at hs
    cases hx : x.grains[loc.slot]? with
    | none => simp [hx] at hs
    | some g0 =>
      simp only [hx, Option.map_some', Option.some.injEq] at hs
      exact ⟨g0, hs.symm⟩
  | some i =>
    simp only [hsc, updateSlot_getElem?_self] at hs
    cases hx : x.grains[i]? with
    | none => simp [hx] at hs
    | some g0 =>
      simp only [hx, Option.map_some', Option.some.injEq] at hs
      exact ⟨{ g0 with busy := true }, hs.symm⟩

theorem spawn_count (c : Collab) (b : t_buffer) (p : Params) (d : Draws) (x : t_cmgrainlabs)
    (loc : Locals) :
    (spawn c b p d x loc).1.grains_count
      = if spawnGuard x loc then x.grains_count + 1 else x.grains_count := by
  unfold spawn
  split_ifs
  · cases scanFree x.grains 0 x.grains_limit <;> rfl
  · rfl

theorem spawn_of_not_guard (c : Collab) (b : t_buffer) (p : Params) (d : Draws)
    (x : t_cmgrainlabs) (loc : Locals) (h : spawnGuard x loc = false) :
    spawn c b p d x loc = (x, loc) := by
  unfold spawn
  simp [h]

theorem spawnsGrain_eq_guard (c : Collab) (b : t_buffer) (p : Params) (tr_curr : ℚ) (d : Draws)
    (x : t_cmgrainlabs) (loc : Locals) :
    spawnsGrain c b p tr_curr d x loc
      = spawnGuard (resetPlayback x) { loc with trigger := detectTrigger x tr_curr loc.trigger } := by
  unfold spawnsGrain tickSpawn
  rw [spawn_count]
  cases hg : spawnGuard (resetPlayback x)
    { loc with trigger := detectTrigger x tr_curr loc.trigger }
  · simp
  · simp

theorem playSlot_busy_sub (c : Collab) (b w : t_buffer) (i : Nat) (m : Mix) (k : Nat)
    (g' : cm_grainsinfo) (h : (playSlot c b w i m).x.grains[k]? = some g')
    (hb : g'.busy = true) : ∃ g, m.x.grains[k]? = some g ∧ g.busy = true := by
  unfold playSlot at h
  split at h
  · exact ⟨g', h, hb⟩
  · rename_i g hg
    by_cases hbusy : g.busy = true
    · rw [if_pos hbusy] at h
      by_cases hik : i = k
      · subst hik
        have hi : i < m.x.grains.length := (List.getElem?_eq_some_iff.mp hg).1
        by_cases hr : g.grainpos + 1 = g.t_length
        · rw [if_pos hr] at h
          simp only [List.getElem?_set_self hi, Option.some.injEq] at h
          subst h
          simp at hb
        · exact ⟨g, hg, hbusy⟩
      · by_cases hr : g.grainpos + 1 = g.t_length
        · rw [if_pos hr] at h
          simp only [List.getElem?_set_ne hik] at h
          exact ⟨g', h, hb⟩
        · rw [if_neg hr] at h
          simp only [List.getElem?_set_ne hik] at h
          exact ⟨g', h, hb⟩
    · rw [if_neg hbusy] at h
      exact ⟨g', h, hb⟩

theorem playSlot_count_le (c : Collab) (b w : t_buffer) (i : Nat) (m : Mix)
    (h0 : 0 ≤ m.x.grains_count) :
    0 ≤ (playSlot c b w i m).x.grains_count ∧
      (playSlot c b w i m).x.grains_count ≤ m.x.grains_count := by
  unfold playSlot
  split
  · exact ⟨h0, le_refl _⟩
  · rename_i g hg
    by_cases hbusy : g.busy = true
    · rw [if_pos hbusy]
      by_cases hr : g.grainpos + 1 = g.t_length
      · rw [if_pos hr]
        simp only
        split_ifs <;> omega
      · rw [if_neg hr]
        exact ⟨h0, le_refl _⟩
    · rw [if_neg hbusy]
      exact ⟨h0, le_refl _⟩

theorem foldl_playSlot_busy_sub (c : Collab) (b w : t_buffer) (l : List Nat) (m : Mix) (k : Nat)
    (g' : cm_grainsinfo)
    (h : (l.foldl (fun m i => playSlot c b w i m) m).x.grains[k]? = some g')
    (hb : g'.busy = true) : ∃ g, m.x.grains[k]? = some g ∧ g.busy = true := by
  induction l generalizing m g' with
  | nil => exact ⟨g', h, hb⟩
  | cons i l ih =>
    obtain ⟨g1, hg1, hb1⟩ := ih (playSlot c b w i m) g' h hb
    exact playSlot_busy_sub c b w i m k g1 hg1 hb1

theorem foldl_playSlot_count_le (c : Collab) (b w : t_buffer) (l : List Nat) (m : Mix)
    (h0 : 0 ≤ m.x.grains_count) :
    0 ≤ (l.foldl (fun m i => playSlot c b w i m) m).x.grains_count ∧
      (l.foldl (fun m i => playSlot c b w i m) m).x.grains_count ≤ m.x.grains_count := by
  induction l generalizing m with
  | nil => exact ⟨h0, le_refl _⟩
  | cons i l ih =>
    have h1 := playSlot_count_le c b w i m h0
    have h2 := ih (playSlot c b w i m) h1.1
    exact ⟨h2.1, h2.2.trans h1.2⟩

theorem playback_busy_sub (c : Collab) (b w : t_buffer) (x : t_cmgrainlabs) (k : Nat)
    (g' : cm_grainsinfo) (h : (playback c b w x).x.grains[k]? = some g')
    (hb : g'.busy = true) : ∃ g, x.grains[k]? = some g ∧ g.busy = true := by
  unfold playback at h
  split_ifs at h
  · exact ⟨g', h, hb⟩
  · exact foldl_playSlot_busy_sub c b w _ _ k g' h hb

theorem playback_count_le (c : Collab) (b w : t_buffer) (x : t_cmgrainlabs)
    (h0 : 0 ≤ x.grains_count) : (playback c b w x).x.grains_count ≤ x.grains_count := by
  unfold playback
  split_ifs
  · exact le_refl _
  · exact (foldl_playSlot_count_le c b w _ _ h0).2

theorem resetPlayback_busy_sub (x : t_cmgrainlabs) (k : Nat) (g' : cm_grainsinfo)
    (h : (resetPlayback x).grains[k]? = some g') (hb : g'.busy = true) :
    ∃ g, x.grains[k]? = some g ∧ g.busy = true := by
  unfold resetPlayback at h
  split_ifs at h
  · simp only [List.getElem?_map] at h
    cases hx : x.grains[k]? with
    | none => simp [hx] at h
    | some g =>
      simp only [hx, Option.map_some', Option.some.injEq] at h
      subst h
      simp at hb
  · exact ⟨g', h, hb⟩

theorem resetPlayback_count (x : t_cmgrainlabs) (h0 : 0 ≤ x.grains_count) :
    0 ≤ (resetPlayback x).grains_count ∧ (resetPlayback x).grains_count ≤ x.grains_count := by
  unfold resetPlayback
  split_ifs
  · exact ⟨le_refl _, h0⟩
  · exact ⟨h0, le_refl _⟩

theorem resetPlayback_limit (x : t_cmgrainlabs) :
    (resetPlayback x).grains_limit = x.grains_limit ∧
      (resetPlayback x).limit_modified = x.limit_modified := by
  unfold resetPlayback
  split_ifs <;> exact ⟨rfl, rfl⟩

theorem resetPlayback_attr_zero (x : t_cmgrainlabs) :
    (resetPlayback x).attr_zero = x.attr_zero := by
  unfold resetPlayback
  split_ifs <;> rfl

theorem resetPlayback_count_zero (x : t_cmgrainlabs) (h : x.grains_count = 0) :
    (resetPlayback x).grains_count = 0 := by
  unfold resetPlayback
  split_ifs
  · rfl
  · exact h

theorem tick_zero_mode_silent (c : Collab) (b w : t_buffer) (p : Params) (tr_curr : ℚ)
    (d : Draws) (x : t_cmgrainlabs) (loc : Locals) (hz : x.attr_zero = true)
    (hc : x.grains_count = 0) (ht : loc.trigger = false)
    (hn : ¬ (tr_curr > 0 ∧ x.tr_prev < 0)) :
    (tick c b w p tr_curr d x loc).x.grains_count = 0 ∧
      (tick c b w p tr_curr d x loc).out_left = 0 ∧
      (tick c b w p tr_curr d x loc).out_right = 0 ∧
      (tick c b w p tr_curr d x loc).loc.trigger = false ∧
      (tick c b w p tr_curr d x loc).x.attr_zero = true ∧
      (tick c b w p tr_curr d x loc).x.tr_prev = tr_curr := by
  have hd : detectTrigger x tr_curr loc.trigger = false := by
    unfold detectTrigger detectorFires
    simp [hz, ht, hn]
  have hg : spawnGuard (resetPlayback x)
      { loc with trigger := detectTrigger x tr_curr loc.trigger } = false := by
    unfold spawnGuard
    simp [hd]
  have hsp : tickSpawn c b p tr_curr d x loc
      = (resetPlayback x, { loc with trigger := detectTrigger x tr_curr loc.trigger }) := by
    unfold tickSpawn
    exact spawn_of_not_guard c b p d _ _ hg
  have hpb : playback c b w (resetPlayback x)
      = { x := resetPlayback x, outsample_left := 0, outsample_right := 0 } := by
    unfold playback
    rw [if_pos (resetPlayback_count_zero x hc)]
  unfold tick resetLimitModified
  simp only [hsp, hpb, resetPlayback_count_zero x hc, if_true]
  exact ⟨trivial, trivial, trivial, hd, by rw [resetPlayback_attr_zero, hz], trivial⟩

theorem dspLoop_length (c : Collab) (b w : t_buffer) (p : Params) (rnd : Nat → Draws)
    (sig : List ℚ) (k : Nat) (x : t_cmgrainlabs) (loc : Locals) :
    (dspLoop c b w p rnd sig k x loc).length = sig.length := by
  induction sig generalizing k x loc with
  | nil => rfl
  | cons tr rest ih => simp [dspLoop, ih]

theorem dspLoop_zero_mode_silent (c : Collab) (b w : t_buffer) (p : Params) (rnd : Nat → Draws)
    (sig : List ℚ) (k : Nat) (x : t_cmgrainlabs) (loc : Locals) (hz : x.attr_zero = true)
    (hc : x.grains_count = 0) (ht : loc.trigger = false) (hn : noCrossing x.tr_prev sig) :
    ∀ r ∈ dspLoop c b w p rnd sig k x loc,
      r.x.grains_count = 0 ∧ r.out_left = 0 ∧ r.out_right = 0 := by
  induction sig generalizing k x loc with
  | nil => intro r hr; simp [dspLoop] at hr
  | cons tr rest ih =>
    obtain ⟨hn1, hn2⟩ := hn
    obtain ⟨h1, h2, h3, h4, h5, h6⟩ := tick_zero_mode_silent c b w p tr (rnd k) x loc hz hc ht hn1
    intro r hr
    simp only [dspLoop, List.mem_cons] at hr
    rcases hr with rfl | hr
    · exact ⟨h1, h2, h3⟩
    · exact ih (k + 1) _ _ h5 h1 h4 (by rw [h6]; exact hn2) r hr

theorem Reachable_dspLoop (c : Collab) (b w : t_buffer) (p : Params) (rnd : Nat → Draws)
    (sig : List ℚ) (k : Nat) (x : t_cmgrainlabs) (loc : Locals) (h : Reachable c x) :
    ∀ r ∈ dspLoop c b w p rnd sig k x loc, Reachable c r.x := by
  induction sig generalizing k x loc with
  | nil => intro r hr; simp [dspLoop] at hr
  | cons tr rest ih =>
    intro r hr
    simp only [dspLoop, List.mem_cons] at hr
    have h1 : Reachable c (tick c b w p tr (rnd k) x loc).x :=
      Reachable.tick b w p tr (rnd k) loc x h
    rcases hr with rfl | hr
    · exact h1
    · exact ih (k + 1) _ _ h1 r hr

theorem Reachable_perform64 (c : Collab) (x : t_cmgrainlabs) (buffer w_buffer : Option t_buffer)
    (ins : List (List ℚ)) (rnd : Nat → Draws) (h : Reachable c x) :
    Reachable c (cmgrainlabs_perform64 c x buffer w_buffer ins rnd).x := by
  unfold cmgrainlabs_perform64
  cases buffer with
  | none => exact h
  | some b =>
    cases w_buffer with
    | none => exact h
    | some w =>
      simp only
      cases hl : (dspLoop c b w (resolveParams x ins) rnd (ins.getD 0 []) 0 x
          { trigger := false, slot := 0 }).getLast? with
      | none => exact h
      | some r =>
        exact Reachable_dspLoop c b w _ rnd _ 0 x _ h r (List.mem_of_getLast?_eq_some hl)

theorem Reachable_object441 (c : Collab) : Reachable c object441 :=
  Reachable.new 3 4 noAttrs 44100 true object441 (Option.some_get _).symm

theorem Reachable_object48 (c : Collab) : Reachable c object48 :=
  Reachable.new 3 1 noAttrs 48000 true object48 (Option.some_get _).symm

/-! ## C1: the live count is the number of busy slots -/

/-- Claim C1: in every reachable state the grain array has its 128 slots and
`grains_count` equals the number of slots whose busy flag is set. -/
theorem grains_count_eq_busy_slots (c : Collab) (x : t_cmgrainlabs) (h : Reachable c x) :
    x.grains.length = 128 ∧ x.grains_count = (countBusy x.grains : Int) :=
  ⟨(CountInv_reachable c x h).1, (CountInv_reachable c x h).2.2⟩

/-- Witness for claim C1: the state after the first spawn, with one busy slot. -/
theorem grains_count_eq_busy_slots_witness :
    Reachable linearCollab afterFirstSpawn ∧ afterFirstSpawn.grains_count = 1 ∧
      afterFirstSpawn.grains_count = (countBusy afterFirstSpawn.grains : Int) :=
  have hr : Reachable linearCollab afterFirstSpawn :=
    Reachable.tick _ _ _ _ _ _ _ (Reachable_object441 linearCollab)
  ⟨hr, by decide!, (grains_count_eq_busy_slots linearCollab afterFirstSpawn hr).2⟩

/-! ## C2: playback position within the nominal length -/

/-- Claim C2 fails on the code: the reset after a buffer modification clears
`busy` but not `grainpos`, so the grain spawned into slot 0 after the reset
starts at the stale position 63 with `t_length = 48`; it is never released,
and when the block ends the reachable state has `grainpos = 126 > t_length = 48`
in a busy slot. -/
theorem stale_grainpos_exceeds_t_length :
    Reachable linearCollab staleBlock2.x ∧
      staleBlock1.x.grains.head?.map (fun g => (g.busy, g.grainpos, g.t_length))
        = some (true, 63, 7200) ∧
      staleBlock2.x.grains.head?.map (fun g => (g.busy, g.grainpos, g.t_length))
        = some (true, 126, 48) := by
  refine ⟨?_, by decide!, by decide!⟩
  apply Reachable_perform64
  apply Reachable.float
  apply Reachable.float
  apply Reachable.notify
  apply Reachable_perform64
  exact Reachable_object48 linearCollab

/-! ## C3: start position within the source buffer -/

/-- Claim C3: the grain written by a spawn has `start >= 0` and
`start + gr_length <= b_framecount` for every frame count, ranges, random
values and conversion of out-of-range values; a drawn start (the `long` the
conversion gives) beyond `b_framecount - gr_length` is moved back to exactly
that value, and `gr_length` is the pitch-scaled length (the truncated double
product) capped at the frame count whatever the start. -/
theorem spawn_start_within_buffer (c : Collab) (b : t_buffer) (p : Params) (d : Draws)
    (x : t_cmgrainlabs) (loc : Locals) (hg : spawnGuard x loc = true) (g : cm_grainsinfo)
    (hs : (spawn c b p d x loc).1.grains[(spawn c b p d x loc).2.slot]? = some g) :
    0 ≤ g.start ∧ g.start + g.gr_length ≤ b.framecount ∧
      g.gr_length
        = min (toLong (roundDouble (roundDouble (g.t_length : ℚ) * drawPitch p d)))
            b.framecount ∧
      (drawStart c p d > b.framecount - g.gr_length →
        g.start = b.framecount - g.gr_length) := by
  obtain ⟨g0, rfl⟩ := spawn_written c b p d x loc hg g hs
  simp only [writeGrain]
  have hle := grainLength_le (drawLength c x.m_sr p d) (drawPitch p d) b.framecount
  have hb := clampStart_bounds (drawStart c p d)
    (grainLength (drawLength c x.m_sr p d) (drawPitch p d) b.framecount) b.framecount hle
  exact ⟨hb.1, hb.2, grainLength_eq_min _ _ _, fun h => clampStart_moved _ _ _ hle h⟩

/-- Witness for claim C3: the start range is [2 ^ 100, 2 ^ 100] ms at 48 kHz
and the buffer has 100000 frames.  The start in samples is beyond the range of
`long`; with the conversion of `linearCollab` (`LONG_MIN`) the grain starts at
frame 0. -/
theorem spawn_start_within_buffer_witness :
    spawnGuard farStartObject triggered = true ∧
      (spawn linearCollab (constBuffer 100000) (resolveParams farStartObject []) zeroDraws
        farStartObject triggered).1.grains[(spawn linearCollab (constBuffer 100000)
          (resolveParams farStartObject []) zeroDraws farStartObject triggered).2.slot]?
        = some farStartGrain ∧
      0 ≤ farStartGrain.start ∧ farStartGrain.start + farStartGrain.gr_length ≤ 100000 := by
  have h := spawn_start_within_buffer linearCollab (constBuffer 100000)
    (resolveParams farStartObject []) zeroDraws farStartObject triggered (by decide!)
    farStartGrain (by decide!)
  exact ⟨by decide!, by decide!, h.1, h.2.1⟩

/-- The same spawn on a platform whose conversion saturates: the start is
`LONG_MAX` before the clamps and is moved back to `b_framecount - gr_length`. -/
theorem spawn_far_start_saturating :
    ((spawn saturatingCollab (constBuffer 100000) (resolveParams farStartObject []) zeroDraws
        farStartObject triggered).1.grains[(spawn saturatingCollab (constBuffer 100000)
          (resolveParams farStartObject []) zeroDraws farStartObject triggered).2.slot]?).map
      (fun g => (g.start, g.t_length, g.gr_length)) = some (92800, 7200, 7200) := by
  decide!

/-! ## C4: bounds of the nominal length -/

/-- Claim C4, amended: for `m_sr > 0` the `t_length` of the grain written by a
spawn lies between the truncation of `MIN_GRAINLENGTH * m_sr` and
`MAX_GRAINLENGTH * m_sr`; it is more than `MIN_GRAINLENGTH * m_sr - 1`. -/
theorem spawn_t_length_bounds (c : Collab) (b : t_buffer) (p : Params) (d : Draws)
    (x : t_cmgrainlabs) (loc : Locals) (hm : 0 < x.m_sr) (hg : spawnGuard x loc = true)
    (g : cm_grainsinfo)
    (hs : (spawn c b p d x loc).1.grains[(spawn c b p d x loc).2.slot]? = some g) :
    toLong (MIN_GRAINLENGTH * x.m_sr) ≤ g.t_length ∧
      MIN_GRAINLENGTH * x.m_sr - 1 < (g.t_length : ℚ) ∧
      (g.t_length : ℚ) ≤ MAX_GRAINLENGTH * x.m_sr := by
  obtain ⟨g0, rfl⟩ := spawn_written c b p d x loc hg g hs
  simp only [writeGrain]
  have hlow := drawLength_lower c x.m_sr p d hm
  refine ⟨hlow, ?_, drawLength_upper c x.m_sr p d hm⟩
  have h1 := sub_one_lt_toLong (MIN_GRAINLENGTH * x.m_sr)
  have h2 : (toLong (MIN_GRAINLENGTH * x.m_sr) : ℚ) ≤ (drawLength c x.m_sr p d : ℚ) := by
    exact_mod_cast hlow
  linarith

/-- Witness for claim C4 (amended): the first spawn of a fresh object at
44.1 kHz, `t_length = 6615`. -/
theorem spawn_t_length_bounds_witness :
    0 < object441.m_sr ∧ toLong (MIN_GRAINLENGTH * object441.m_sr) ≤ firstGrain.t_length := by
  have h := spawn_t_length_bounds linearCollab (constBuffer 100000)
    (resolveParams object441 []) zeroDraws object441 triggered (by decide!) (by decide)
    firstGrain (by decide!)
  exact ⟨by decide!, h.1⟩

/-- Claim C4 fails as stated: at 44.1 kHz (`m_sr = 44.1 > 0`) with the length
range set to 1 ms the spawned grain has `t_length = 44`, below
`MIN_GRAINLENGTH * m_sr = 44.1`. -/
theorem spawn_t_length_below_min_counterexample :
    0 < object441short.m_sr ∧ spawnGuard object441short triggered = true ∧
    ((spawn linearCollab (constBuffer 100000) (resolveParams object441short []) zeroDraws
        object441short triggered).1.grains[(spawn linearCollab (constBuffer 100000)
          (resolveParams object441short []) zeroDraws object441short triggered).2.slot]?).map
      (fun g => (g.t_length, decide (MIN_GRAINLENGTH * object441short.m_sr ≤ (g.t_length : ℚ))))
      = some (44, false) := by
  decide!

/-! ## C5: the source span -/

/-- The rounding on values that come up in the product of line 427: 0.7 and
1/48 are not doubles and are rounded to their neighbours, 200 is a double; the
default grain of 7200 samples at pitch 0.7 spans 5040 frames and a grain of 48
samples at pitch 1/48 spans 1 frame, where the exact products of the two
doubles would truncate to 5039 and 0; an exact tie goes to the even
neighbour. -/
theorem roundDouble_values :
    roundDouble (7 / 10) = 3152519739159347 / 4503599627370496 ∧
      roundDouble (1 / 48) = 6004799503160661 / 288230376151711744 ∧
      roundDouble 200 = 200 ∧
      toLong (7200 * roundDouble (7 / 10)) = 5039 ∧
      grainLength 7200 (roundDouble (7 / 10)) 100000 = 5040 ∧
      toLong (48 * roundDouble (1 / 48)) = 0 ∧
      grainLength 48 (roundDouble (1 / 48)) 100000 = 1 ∧
      roundDouble (9007199254740993 : ℚ) = 9007199254740992 ∧
      roundDouble (9007199254740995 : ℚ) = 9007199254740996 := by
  decide!

/-- Claim C5: the `gr_length` of the grain written by a spawn is the minimum of
the truncation of `t_length * p` and the frame count, `p` being the drawn pitch
(the range minimum when the range is degenerate) clamped to [0.001, 10] and
the product being the product of doubles (`t_length` converted to double, the
result rounded to double); with `t_length = 100`, pitch range [2,2] and 150
frames it is 150, and with `t_length = 7200` and the pitch range at the double
nearest to 0.7 it is 5040 in every buffer of at least 5040 frames. -/
theorem spawn_gr_length (c : Collab) (b : t_buffer) (p : Params) (d : Draws)
    (x : t_cmgrainlabs) (loc : Locals) (hg : spawnGuard x loc = true) (g : cm_grainsinfo)
    (hs : (spawn c b p d x loc).1.grains[(spawn c b p d x loc).2.slot]? = some g) :
    g.gr_length = min (toLong (roundDouble (roundDouble (g.t_length : ℚ) *
        min (max (if p.pitchmin ≠ p.pitchmax then d.pitch else p.pitchmin) (1 / 1000)) 10)))
        b.framecount ∧
      (g.t_length = 100 → p.pitchmin = 2 → p.pitchmax = 2 → b.framecount = 150 →
        g.gr_length = 150) ∧
      (g.t_length = 7200 → p.pitchmin = 3152519739159347 / 4503599627370496 →
        p.pitchmax = 3152519739159347 / 4503599627370496 → 5040 ≤ b.framecount →
        g.gr_length = 5040) := by
  obtain ⟨g0, rfl⟩ := spawn_written c b p d x loc hg g hs
  have hgr : (writeGrain c x.m_sr b.framecount p d g0).gr_length
      = min (toLong (roundDouble (roundDouble
          ((writeGrain c x.m_sr b.framecount p d g0).t_length : ℚ) *
          min (max (if p.pitchmin ≠ p.pitchmax then d.pitch else p.pitchmin) (1 / 1000)) 10)))
          b.framecount := by
    rw [← drawPitch_eq]
    simp only [writeGrain]
    exact grainLength_eq_min _ _ _
  refine ⟨hgr, ?_, ?_⟩
  · intro ht hmin hmax hb
    rw [hgr, ht, hmin, hmax, hb]
    have h2 : min (max (if (2 : ℚ) ≠ 2 then d.pitch else 2) (1 / 1000)) 10 = (2 : ℚ) := by
      norm_num
    rw [h2]
    decide!
  · intro ht hmin hmax hb
    rw [hgr, ht, hmin, hmax]
    have h2 : min (max (if (3152519739159347 / 4503599627370496 : ℚ)
          ≠ 3152519739159347 / 4503599627370496 then d.pitch
        else 3152519739159347 / 4503599627370496) (1 / 1000)) 10
        = (3152519739159347 / 4503599627370496 : ℚ) := by
      norm_num
    rw [h2]
    have h3 : toLong (roundDouble (roundDouble ((7200 : Int) : ℚ) *
        (3152519739159347 / 4503599627370496))) = 5040 := by
      decide!
    rw [h3]
    exact min_eq_left hb

/-- Witness for claim C5: length 100, pitch range [2,2], 150 frames. -/
theorem spawn_gr_length_witness :
    spawnGuard object48 triggered = true ∧
      (spawn linearCollab (constBuffer 150) pitchTwoParams zeroDraws object48
        triggered).1.grains[(spawn linearCollab (constBuffer 150) pitchTwoParams zeroDraws
          object48 triggered).2.slot]? = some pitchTwoGrain ∧
      pitchTwoGrain.gr_length = 150 :=
  ⟨by decide, by decide!,
    (spawn_gr_length linearCollab (constBuffer 150) pitchTwoParams zeroDraws object48 triggered
      (by decide) pitchTwoGrain (by decide!)).2.1 rfl rfl rfl rfl⟩

/-! ## C6: the lowest free slot wins -/

/-- Claim C6: when a spawn is executed and some slot below `grains_limit` is
not busy, the spawn picks the lowest-indexed non-busy slot `i`: every slot
before `i` is busy, slot `i` was not, `slot` becomes `i`, slot `i` holds the
new grain's parameters with its busy flag set, and every other slot is
unchanged. -/
theorem spawn_takes_lowest_free_slot (c : Collab) (b : t_buffer) (p : Params) (d : Draws)
    (x : t_cmgrainlabs) (loc : Locals) (hg : spawnGuard x loc = true)
    (j : Nat) (gj : cm_grainsinfo) (hj : (j : Int) < x.grains_limit)
    (hgj : x.grains[j]? = some gj) (hfree : gj.busy = false) :
    ∃ i g0, (spawn c b p d x loc).2.slot = i ∧ i ≤ j ∧
      x.grains[i]? = some g0 ∧ g0.busy = false ∧
      (∀ k, k < i → ∀ g, x.grains[k]? = some g → g.busy = true) ∧
      (spawn c b p d x loc).1.grains[i]?
        = some { writeGrain c x.m_sr b.framecount p d g0 with busy := true } ∧
      (∀ k, k ≠ i → (spawn c b p d x loc).1.grains[k]? = x.grains[k]?) := by
  obtain ⟨i, hi⟩ := scanFree_isSome x.grains 0 x.grains_limit j gj (by simpa using hj) hgj hfree
  obtain ⟨_, _, ⟨g0, hg0, hfree0⟩, hbelow⟩ := scanFree_some x.grains 0 x.grains_limit i hi
  simp only [Nat.sub_zero] at hg0 hbelow
  have hij : i ≤ j := by
    by_contra hlt
    have := hbelow j (by omega) gj hgj
    rw [hfree] at this
    exact Bool.false_ne_true this
  refine ⟨i, g0, ?_, hij, hg0, hfree0, hbelow, ?_, ?_⟩
  · unfold spawn
    rw [if_pos hg]
    simp only [hi]
  · unfold spawn
    rw [if_pos hg]
    simp only [hi, updateSlot_getElem?_self, hg0, Option.map_some']
    rfl
  · intro k hk
    unfold spawn
    rw [if_pos hg]
    simp only [hi]
    exact updateSlot_getElem?_ne x.grains i k _ hk

/-- Witness for claim C6: the first spawn of a fresh object takes slot 0. -/
theorem spawn_takes_lowest_free_slot_witness :
    spawnGuard object441 triggered = true ∧
    ∃ i g0, (spawn linearCollab (constBuffer 100000) (resolveParams object441 []) zeroDraws
        object441 triggered).2.slot = i ∧ i ≤ 0 ∧
      object441.grains[i]? = some g0 ∧ g0.busy = false ∧
      (∀ k, k < i → ∀ g, object441.grains[k]? = some g → g.busy = true) ∧
      (spawn linearCollab (constBuffer 100000) (resolveParams object441 []) zeroDraws
        object441 triggered).1.grains[i]?
        = some { writeGrain linearCollab object441.m_sr (constBuffer 100000).framecount
            (resolveParams object441 []) zeroDraws g0 with busy := true } ∧
      (∀ k, k ≠ i → (spawn linearCollab (constBuffer 100000) (resolveParams object441 [])
        zeroDraws object441 triggered).1.grains[k]? = object441.grains[k]?) :=
  ⟨by decide, spawn_takes_lowest_free_slot linearCollab (constBuffer 100000)
    (resolveParams object441 []) zeroDraws object441 triggered (by decide) 0 emptyGrain
    (by decide) (by decide!) rfl⟩

/-! ## C7: when a grain is spawned -/

/-- Claim C7, amended: a grain is spawned on a tick exactly when the trigger
flag is set after the detector step (the detector fires on this tick, or the
flag is still set from an earlier tick of the block), `grains_count` after the
buffer-modified reset is below `grains_limit`, and `limit_modified` is clear;
on every other tick no slot becomes busy and `grains_count` does not increase. -/
theorem spawn_iff_trigger_flag (c : Collab) (b w : t_buffer) (p : Params) (tr_curr : ℚ)
    (d : Draws) (x : t_cmgrainlabs) (loc : Locals) (h0 : 0 ≤ x.grains_count) :
    (spawnsGrain c b p tr_curr d x loc = true ↔
      ((x.attr_zero = true ∧ tr_curr > 0 ∧ x.tr_prev < 0) ∨
        (x.attr_zero = false ∧ x.tr_prev - tr_curr > 9 / 10) ∨ loc.trigger = true) ∧
      (resetPlayback x).grains_count < x.grains_limit ∧ x.limit_modified = false) ∧
    (spawnsGrain c b p tr_curr d x loc = false →
      (∀ (i : Nat) (g' : cm_grainsinfo),
        (tick c b w p tr_curr d x loc).x.grains[i]? = some g' → g'.busy = true →
        ∃ g, x.grains[i]? = some g ∧ g.busy = true) ∧
      (tick c b w p tr_curr d x loc).x.grains_count ≤ x.grains_count) := by
  constructor
  · rw [spawnsGrain_eq_guard]
    unfold spawnGuard
    rw [(resetPlayback_limit x).1, (resetPlayback_limit x).2]
    simp only [detectTrigger, detectorFires, Bool.and_eq_true, decide_eq_true_eq,
      Bool.not_eq_true']
    by_cases hz : x.attr_zero = true <;> by_cases ht : loc.trigger = true <;>
      simp [hz, ht, and_assoc]
  · intro hns
    rw [spawnsGrain_eq_guard] at hns
    have hsp : tickSpawn c b p tr_curr d x loc
        = (resetPlayback x, { loc with trigger := detectTrigger x tr_curr loc.trigger }) := by
      unfold tickSpawn
      exact spawn_of_not_guard c b p d _ _ hns
    have hx : (tick c b w p tr_curr d x loc).x.grains
        = (playback c b w (resetPlayback x)).x.grains := by
      unfold tick resetLimitModified
      simp only [hsp]
      split_ifs <;> rfl
    have hc : (tick c b w p tr_curr d x loc).x.grains_count
        = (playback c b w (resetPlayback x)).x.grains_count := by
      unfold tick resetLimitModified
      simp only [hsp]
      split_ifs <;> rfl
    constructor
    · intro i g' hg' hb
      rw [hx] at hg'
      obtain ⟨g1, hg1, hb1⟩ := playback_busy_sub c b w _ i g' hg' hb
      exact resetPlayback_busy_sub x i g1 hg1 hb1
    · rw [hc]
      have h1 := resetPlayback_count x h0
      exact (playback_count_le c b w _ h1.1).trans h1.2

/-- Witness for claim C7 (amended): on a fresh object a set trigger flag leads
to a spawn. -/
theorem spawn_iff_trigger_flag_witness :
    (0 : Int) ≤ object441.grains_count ∧
      spawnsGrain linearCollab (constBuffer 100000) (resolveParams object441 []) 0 zeroDraws
        object441 triggered = true :=
  ⟨by decide,
    (spawn_iff_trigger_flag linearCollab (constBuffer 100000) (constBuffer 512)
      (resolveParams object441 []) 0 zeroDraws object441 triggered (by decide)).1.mpr
      ⟨Or.inr (Or.inr rfl), by decide, rfl⟩⟩

/-- Claim C7 fails as stated: in the block that starts with `latchSignal` the
second drop of the ramp arrives while the only allowed grain is playing; the
grain ends at the 49th tick, and at the 50th tick (trigger sample 0, previous
sample 0) the detector does not fire, `grains_count < grains_limit` and
`limit_modified` is clear, yet a grain is spawned, from the trigger flag that
is still set. -/
theorem spawn_without_detection_counterexample :
    latchEntry.map (fun r =>
      (r.x.tr_prev, detectorFires r.x 0, decide (r.x.grains_count < r.x.grains_limit),
        r.x.limit_modified, r.loc.trigger,
        spawnsGrain linearCollab (constBuffer 100000) (resolveParams object48short []) 0
          zeroDraws r.x r.loc))
      = some (0, false, true, false, true, true) := by
  decide!

/-! ## C8: zero-crossing mode without a crossing -/

/-- Claim C8: a block in zero-crossing mode with both buffers present, started
with `grains_count = 0`, whose trigger signal has no sample `> 0` right after a
sample `< 0` (the stored `tr_prev` preceding the first sample): `grains_count`
is 0 after every tick, and every output sample of both channels is 0. -/
theorem zero_mode_without_crossing_silent (c : Collab) (x : t_cmgrainlabs) (b w : t_buffer)
    (ins : List (List ℚ)) (rnd : Nat → Draws) (hz : x.attr_zero = true)
    (hc : x.grains_count = 0) (hn : noCrossing x.tr_prev (ins.getD 0 [])) :
    (∀ r ∈ dspLoop c b w (resolveParams x ins) rnd (ins.getD 0 []) 0 x
        { trigger := false, slot := 0 },
      r.x.grains_count = 0 ∧ r.out_left = 0 ∧ r.out_right = 0) ∧
    (cmgrainlabs_perform64 c x (some b) (some w) ins rnd).out_left
      = List.replicate (ins.getD 0 []).length 0 ∧
    (cmgrainlabs_perform64 c x (some b) (some w) ins rnd).out_right
      = List.replicate (ins.getD 0 []).length 0 ∧
    (cmgrainlabs_perform64 c x (some b) (some w) ins rnd).x.grains_count = 0 := by
  have hall := dspLoop_zero_mode_silent c b w (resolveParams x ins) rnd (ins.getD 0 []) 0 x
    { trigger := false, slot := 0 } hz hc rfl hn
  have hlen := dspLoop_length c b w (resolveParams x ins) rnd (ins.getD 0 []) 0 x
    { trigger := false, slot := 0 }
  refine ⟨hall, ?_, ?_, ?_⟩
  · unfold cmgrainlabs_perform64
    simp only
    rw [List.eq_replicate_iff]
    refine ⟨by rw [List.length_map]; exact hlen, ?_⟩
    intro a ha
    obtain ⟨r, hr, rfl⟩ := List.mem_map.mp ha
    exact (hall r hr).2.1
  · unfold cmgrainlabs_perform64
    simp only
    rw [List.eq_replicate_iff]
    refine ⟨by rw [List.length_map]; exact hlen, ?_⟩
    intro a ha
    obtain ⟨r, hr, rfl⟩ := List.mem_map.mp ha
    exact (hall r hr).2.2
  · unfold cmgrainlabs_perform64
    simp only
    cases hl : (dspLoop c b w (resolveParams x ins) rnd (ins.getD 0 []) 0 x
        { trigger := false, slot := 0 }).getLast? with
    | none => simpa using hc
    | some r =>
      simp only [Option.map_some', Option.getD_some]
      exact (hall r (List.mem_of_getLast?_eq_some hl)).1

/-- Witness for claim C8: a trigger signal that stays positive. -/
theorem zero_mode_without_crossing_silent_witness :
    object441zero.attr_zero = true ∧ object441zero.grains_count = 0 ∧
      noCrossing object441zero.tr_prev [1 / 2, 1, 1 / 2] ∧
      (cmgrainlabs_perform64 linearCollab object441zero (some (constBuffer 100000))
        (some (constBuffer 512)) [[1 / 2, 1, 1 / 2]] (fun _ => zeroDraws)).out_left
        = [0, 0, 0] :=
  have hn : noCrossing object441zero.tr_prev [1 / 2, 1, 1 / 2] := by
    have h0 : object441zero.tr_prev = 0 := by decide!
    rw [h0]
    norm_num [noCrossing]
  ⟨by decide, by decide, hn,
    (zero_mode_without_crossing_silent linearCollab object441zero (constBuffer 100000)
      (constBuffer 512) [[1 / 2, 1, 1 / 2]] (fun _ => zeroDraws) (by decide) (by decide) hn).2.1⟩

/-! ## C9: rejected limit messages -/

/-- Claim C9: `cmgrainlabs_limit` rejects its argument exactly when it is below
1 or above `MAXGRAINS` = 128, and a rejected message leaves the whole object
(limits, flags, count and every grain slot) unchanged. -/
theorem limit_rejects_iff (x : t_cmgrainlabs) (arg : Int) :
    ((cmgrainlabs_limit x arg).2 = true ↔ (arg < 1 ∨ arg > 128)) ∧
      ((cmgrainlabs_limit x arg).2 = true → (cmgrainlabs_limit x arg).1 = x) := by
  unfold cmgrainlabs_limit MAXGRAINS
  by_cases h : arg < 1 ∨ arg > ((128 : Nat) : Int)
  · rw [if_pos h]
    exact ⟨⟨fun _ => by simpa using h, fun _ => rfl⟩, fun _ => rfl⟩
  · rw [if_neg h]
    refine ⟨⟨fun hf => by simp at hf, fun ha => absurd (by simpa using ha) h⟩, fun hf => by simp at hf⟩

/-- Witness for claim C9: the message `limit 0` is rejected and changes nothing. -/
theorem limit_rejects_iff_witness :
    (cmgrainlabs_limit object441 0).2 = true ∧ (cmgrainlabs_limit object441 0).1 = object441 :=
  ⟨by decide, (limit_rejects_iff object441 0).2 (by decide)⟩

/-! ## C10: accepted limit messages -/

/-- Claim C10: an accepted limit message (1 <= arg <= 128) stores the previous
limit in `grains_limit_old`, the argument in `grains_limit`, sets
`limit_modified` and changes no other field: the grain slots and
`grains_count` are as before, so no busy slot is released. -/
theorem limit_accepted_effect (x : t_cmgrainlabs) (arg : Int) (h1 : 1 ≤ arg) (h2 : arg ≤ 128) :
    (cmgrainlabs_limit x arg).2 = false ∧
      (cmgrainlabs_limit x arg).1 =
        { x with grains_limit_old := x.grains_limit, grains_limit := arg,
                 limit_modified := true } ∧
      (cmgrainlabs_limit x arg).1.grains = x.grains ∧
      (cmgrainlabs_limit x arg).1.grains_count = x.grains_count ∧
      countBusy (cmgrainlabs_limit x arg).1.grains = countBusy x.grains := by
  have h : ¬ (arg < 1 ∨ arg > ((MAXGRAINS : Nat) : Int)) := by
    unfold MAXGRAINS
    push_cast
    omega
  have hs : toShort arg = arg := by
    unfold toShort
    omega
  unfold cmgrainlabs_limit
  rw [if_neg h, hs]
  exact ⟨rfl, rfl, rfl, rfl, rfl⟩

/-- Witness for claim C10: the message `limit 2` to an object built with limit 4. -/
theorem limit_accepted_effect_witness :
    (1 : Int) ≤ 2 ∧ (2 : Int) ≤ 128 ∧ (cmgrainlabs_limit object441 2).2 = false ∧
      (cmgrainlabs_limit object441 2).1.grains = object441.grains :=
  ⟨by decide, by decide, (limit_accepted_effect object441 2 (by decide) (by decide)).1,
    (limit_accepted_effect object441 2 (by decide) (by decide)).2.2.1⟩

/-! ## Lemmas on the limit fields -/

theorem playSlot_limit (c : Collab) (b w : t_buffer) (i : Nat) (m : Mix) :
    (playSlot c b w i m).x.grains_limit = m.x.grains_limit ∧
      (playSlot c b w i m).x.grains_limit_old = m.x.grains_limit_old ∧
      (playSlot c b w i m).x.limit_modified = m.x.limit_modified := by
  unfold playSlot
  split
  · exact ⟨rfl, rfl, rfl⟩
  · rename_i g hg
    by_cases hbusy : g.busy = true
    · rw [if_pos hbusy]
      by_cases hr : g.grainpos + 1 = g.t_length
      · rw [if_pos hr]
        exact ⟨rfl, rfl, rfl⟩
      · rw [if_neg hr]
        exact ⟨rfl, rfl, rfl⟩
    · rw [if_neg hbusy]
      exact ⟨rfl, rfl, rfl⟩

theorem foldl_playSlot_limit (c : Collab) (b w : t_buffer) (l : List Nat) (m : Mix) :
    (l.foldl (fun m i => playSlot c b w i m) m).x.grains_limit = m.x.grains_limit ∧
      (l.foldl (fun m i => playSlot c b w i m) m).x.grains_limit_old = m.x.grains_limit_old ∧
      (l.foldl (fun m i => playSlot c b w i m) m).x.limit_modified = m.x.limit_modified := by
  induction l generalizing m with
  | nil => exact ⟨rfl, rfl, rfl⟩
  | cons i l ih =>
    have h1 := playSlot_limit c b w i m
    have h2 := ih (playSlot c b w i m)
    exact ⟨h2.1.trans h1.1, h2.2.1.trans h1.2.1, h2.2.2.trans h1.2.2⟩

theorem playback_limit (c : Collab) (b w : t_buffer) (x : t_cmgrainlabs) :
    (playback c b w x).x.grains_limit = x.grains_limit ∧
      (playback c b w x).x.grains_limit_old = x.grains_limit_old ∧
      (playback c b w x).x.limit_modified = x.limit_modified := by
  unfold playback
  split_ifs
  · exact ⟨rfl, rfl, rfl⟩
  · exact foldl_playSlot_limit c b w _ _

theorem spawn_limit (c : Collab) (b : t_buffer) (p : Params) (d : Draws) (x : t_cmgrainlabs)
    (loc : Locals) :
    (spawn c b p d x loc).1.grains_limit = x.grains_limit ∧
      (spawn c b p d x loc).1.grains_limit_old = x.grains_limit_old ∧
      (spawn c b p d x loc).1.limit_modified = x.limit_modified := by
  unfold spawn
  split_ifs
  · cases scanFree x.grains 0 x.grains_limit <;> exact ⟨rfl, rfl, rfl⟩
  · exact ⟨rfl, rfl, rfl⟩

theorem resetPlayback_limit_old (x : t_cmgrainlabs) :
    (resetPlayback x).grains_limit_old = x.grains_limit_old := by
  unfold resetPlayback
  split_ifs <;> rfl

theorem tickSpawn_limit (c : Collab) (b : t_buffer) (p : Params) (tr_curr : ℚ) (d : Draws)
    (x : t_cmgrainlabs) (loc : Locals) :
    (tickSpawn c b p tr_curr d x loc).1.grains_limit = x.grains_limit ∧
      (tickSpawn c b p tr_curr d x loc).1.grains_limit_old = x.grains_limit_old ∧
      (tickSpawn c b p tr_curr d x loc).1.limit_modified = x.limit_modified := by
  unfold tickSpawn
  have h1 := spawn_limit c b p d (resetPlayback x)
    { loc with trigger := detectTrigger x tr_curr loc.trigger }
  have h2 := resetPlayback_limit x
  exact ⟨h1.1.trans h2.1, h1.2.1.trans (resetPlayback_limit_old x), h1.2.2.trans h2.2⟩

theorem tick_fields (c : Collab) (b w : t_buffer) (p : Params) (tr_curr : ℚ) (d : Draws)
    (x : t_cmgrainlabs) (loc : Locals) :
    (tick c b w p tr_curr d x loc).x.grains
        = (playback c b w (tickSpawn c b p tr_curr d x loc).1).x.grains ∧
      (tick c b w p tr_curr d x loc).x.grains_count
        = (playback c b w (tickSpawn c b p tr_curr d x loc).1).x.grains_count ∧
      (tick c b w p tr_curr d x loc).x.grains_limit = x.grains_limit ∧
      (tick c b w p tr_curr d x loc).x.grains_limit_old = x.grains_limit_old ∧
      (tick c b w p tr_curr d x loc).x.limit_modified
        = (if (playback c b w (tickSpawn c b p tr_curr d x loc).1).x.grains_count = 0
            then false else x.limit_modified) ∧
      (tick c b w p tr_curr d x loc).out_left
        = (playback c b w (tickSpawn c b p tr_curr d x loc).1).outsample_left ∧
      (tick c b w p tr_curr d x loc).out_right
        = (playback c b w (tickSpawn c b p tr_curr d x loc).1).outsample_right := by
  have hp := playback_limit c b w (tickSpawn c b p tr_curr d x loc).1
  have hs := tickSpawn_limit c b p tr_curr d x loc
  unfold tick resetLimitModified
  simp only
  by_cases h0 : (playback c b w (tickSpawn c b p tr_curr d x loc).1).x.grains_count = 0
  · simp only [h0, if_true]
    exact ⟨trivial, trivial, hp.1.trans hs.1, hp.2.1.trans hs.2.1, trivial, trivial, trivial⟩
  · simp only [h0, if_false]
    exact ⟨trivial, trivial, hp.1.trans hs.1, hp.2.1.trans hs.2.1, hp.2.2.trans hs.2.2,
      trivial, trivial⟩

/-- A tick whose spawn guard fails makes no slot busy and, from a non-negative
count, does not increase `grains_count`. -/
theorem tick_without_spawn (c : Collab) (b w : t_buffer) (p : Params) (tr_curr : ℚ)
    (d : Draws) (x : t_cmgrainlabs) (loc : Locals) (h0 : 0 ≤ x.grains_count)
    (hns : spawnGuard (resetPlayback x)
      { loc with trigger := detectTrigger x tr_curr loc.trigger } = false) :
    (∀ (i : Nat) (g' : cm_grainsinfo),
        (tick c b w p tr_curr d x loc).x.grains[i]? = some g' → g'.busy = true →
        ∃ g, x.grains[i]? = some g ∧ g.busy = true) ∧
      (tick c b w p tr_curr d x loc).x.grains_count ≤ x.grains_count := by
  have hsp : tickSpawn c b p tr_curr d x loc
      = (resetPlayback x, { loc with trigger := detectTrigger x tr_curr loc.trigger }) := by
    unfold tickSpawn
    exact spawn_of_not_guard c b p d _ _ hns
  have hf := tick_fields c b w p tr_curr d x loc
  rw [hsp] at hf
  constructor
  · intro i g' hg' hb
    rw [hf.1] at hg'
    obtain ⟨g1, hg1, hb1⟩ := playback_busy_sub c b w _ i g' hg' hb
    exact resetPlayback_busy_sub x i g1 hg1 hb1
  · rw [hf.2.1]
    have h1 := resetPlayback_count x h0
    exact (playback_count_le c b w _ h1.1).trans h1.2

theorem count_nonneg_of_reachable (c : Collab) (x : t_cmgrainlabs) (h : Reachable c x) :
    0 ≤ x.grains_count := by
  rw [(CountInv_reachable c x h).2.2]
  exact Int.ofNat_nonneg _

/-! ## C11: no spawn while a limit change is pending -/

/-- Claim C11: on a tick entered with `limit_modified` set no grain is spawned,
whatever the trigger sample, the trigger flag and `grains_count`: the spawn
step does not run, no slot goes from not busy to busy and `grains_count` does
not increase during the tick. -/
theorem no_spawn_while_limit_modified (c : Collab) (b w : t_buffer) (p : Params) (tr_curr : ℚ)
    (d : Draws) (x : t_cmgrainlabs) (loc : Locals) (hr : Reachable c x)
    (hm : x.limit_modified = true) :
    spawnsGrain c b p tr_curr d x loc = false ∧
      (∀ (i : Nat) (g' : cm_grainsinfo),
        (tick c b w p tr_curr d x loc).x.grains[i]? = some g' → g'.busy = true →
        ∃ g, x.grains[i]? = some g ∧ g.busy = true) ∧
      (tick c b w p tr_curr d x loc).x.grains_count ≤ x.grains_count := by
  have hns : spawnGuard (resetPlayback x)
      { loc with trigger := detectTrigger x tr_curr loc.trigger } = false := by
    unfold spawnGuard
    rw [(resetPlayback_limit x).2, hm]
    simp
  refine ⟨by rw [spawnsGrain_eq_guard]; exact hns, ?_⟩
  exact tick_without_spawn c b w p tr_curr d x loc (count_nonneg_of_reachable c x hr) hns

/-- Witness for claim C11: one grain is playing and a limit message has been
accepted; a dropping ramp (`tr_prev = 0`, sample `-1`) does not spawn. -/
theorem no_spawn_while_limit_modified_witness :
    Reachable linearCollab afterLimitMessage ∧ afterLimitMessage.limit_modified = true ∧
      spawnsGrain linearCollab (constBuffer 100000) (resolveParams afterLimitMessage []) (-1)
        zeroDraws afterLimitMessage blockStart = false :=
  have hr : Reachable linearCollab afterLimitMessage :=
    Reachable.limit 2 _ (Reachable.tick _ _ _ _ _ _ _ (Reachable_object441 linearCollab))
  ⟨hr, by decide!,
    (no_spawn_while_limit_modified linearCollab (constBuffer 100000) (constBuffer 512)
      (resolveParams afterLimitMessage []) (-1) zeroDraws afterLimitMessage blockStart hr
      (by decide!)).1⟩

/-! ## C12: when the pending limit change is cleared -/

theorem dspLoop_limit_modified (c : Collab) (b w : t_buffer) (p : Params) (rnd : Nat → Draws)
    (sig : List ℚ) (k0 : Nat) (x : t_cmgrainlabs) (loc : Locals) (k : Nat) (r : TickResult)
    (hr : (dspLoop c b w p rnd sig k0 x loc)[k]? = some r) :
    r.x.limit_modified = true ↔
      x.limit_modified = true ∧
        ∀ (j : Nat) (rj : TickResult), j ≤ k →
          (dspLoop c b w p rnd sig k0 x loc)[j]? = some rj → rj.x.grains_count ≠ 0 := by
  induction sig generalizing k0 x loc k with
  | nil => simp [dspLoop] at hr
  | cons tr rest ih =>
    have hf := (tick_fields c b w p tr (rnd k0) x loc)
    have h0 : (tick c b w p tr (rnd k0) x loc).x.limit_modified = true ↔
        x.limit_modified = true ∧ (tick c b w p tr (rnd k0) x loc).x.grains_count ≠ 0 := by
      rw [hf.2.2.2.2.1, hf.2.1]
      by_cases hc : (playback c b w (tickSpawn c b p tr (rnd k0) x loc).1).x.grains_count = 0
      · simp [hc]
      · simp [hc]
    cases k with
    | zero =>
      simp only [dspLoop, List.getElem?_cons_zero, Option.some.injEq] at hr
      subst hr
      rw [h0]
      constructor
      · rintro ⟨h1, h2⟩
        refine ⟨h1, ?_⟩
        intro j rj hj hrj
        have hj0 : j = 0 := by omega
        subst hj0
        simp only [dspLoop, List.getElem?_cons_zero, Option.some.injEq] at hrj
        subst hrj
        exact h2
      · rintro ⟨h1, h2⟩
        exact ⟨h1, h2 0 _ (le_refl _) (by simp [dspLoop])⟩
    | succ k' =>
      simp only [dspLoop, List.getElem?_cons_succ] at hr
      rw [ih (k0 + 1) _ _ k' hr, h0]
      constructor
      · rintro ⟨⟨h1, h2⟩, h3⟩
        refine ⟨h1, ?_⟩
        intro j rj hj hrj
        cases j with
        | zero =>
          simp only [dspLoop, List.getElem?_cons_zero, Option.some.injEq] at hrj
          subst hrj
          exact h2
        | succ j' =>
          simp only [dspLoop, List.getElem?_cons_succ] at hrj
          exact h3 j' rj (by omega) hrj
      · rintro ⟨h1, h2⟩
        refine ⟨⟨h1, h2 0 _ (by omega) (by simp [dspLoop])⟩, ?_⟩
        intro j rj hj hrj
        exact h2 (j + 1) rj (by omega) (by simpa [dspLoop] using hrj)

/-- Claim C12: at the end of a tick `limit_modified` is clear if `grains_count`
is 0 at that point and has its value from the start of the tick otherwise;
hence over the ticks of a block the flag is still set after tick `k` exactly
when it was set at the start and no tick up to `k` ended with `grains_count`
0, that is, it is cleared at the first tick that ends with no live grain. -/
theorem limit_modified_after_tick (c : Collab) (b w : t_buffer) (p : Params)
    (x : t_cmgrainlabs) (loc : Locals) :
    (∀ (tr_curr : ℚ) (d : Draws),
      (tick c b w p tr_curr d x loc).x.limit_modified
        = if (tick c b w p tr_curr d x loc).x.grains_count = 0 then false
          else x.limit_modified) ∧
    (∀ (rnd : Nat → Draws) (sig : List ℚ) (k : Nat) (r : TickResult),
      (dspLoop c b w p rnd sig 0 x loc)[k]? = some r →
      (r.x.limit_modified = true ↔
        x.limit_modified = true ∧
          ∀ (j : Nat) (rj : TickResult), j ≤ k →
            (dspLoop c b w p rnd sig 0 x loc)[j]? = some rj → rj.x.grains_count ≠ 0)) := by
  constructor
  · intro tr_curr d
    have hf := tick_fields c b w p tr_curr d x loc
    rw [hf.2.2.2.2.1, hf.2.1]
  · intro rnd sig k r hr
    exact dspLoop_limit_modified c b w p rnd sig 0 x loc k r hr

/-- Witness for claim C12: with one grain playing the flag set by `limit 2`
survives a tick. -/
theorem limit_modified_after_tick_witness :
    (tick linearCollab (constBuffer 100000) (constBuffer 512)
        (resolveParams afterLimitMessage []) 0 zeroDraws afterLimitMessage
        blockStart).x.limit_modified
      = if (tick linearCollab (constBuffer 100000) (constBuffer 512)
          (resolveParams afterLimitMessage []) 0 zeroDraws afterLimitMessage
          blockStart).x.grains_count = 0 then false
        else afterLimitMessage.limit_modified :=
  (limit_modified_after_tick linearCollab (constBuffer 100000) (constBuffer 512)
    (resolveParams afterLimitMessage []) afterLimitMessage blockStart).1 0 zeroDraws

/-! ## C13: the invalidation step -/

theorem map_clear_idem (gs : List cm_grainsinfo) :
    (gs.map (fun g => { g with busy := false })).map (fun g => { g with busy := false })
      = gs.map (fun g => { g with busy := false }) := by
  rw [List.map_map]
  rfl

/-- Claim C13: the reset run at a tick where `buffer_modified` is set (the
step `invalidateAll`) leaves every slot not busy, keeps the number of slots,
sets `grains_count` and `buffer_modified` to 0, for every prior state; run
twice it gives the same state as run once, both as the guarded step of the
tick and as the bare body. -/
theorem invalidation_clears_all (x : t_cmgrainlabs) (h : x.buffer_modified = true) :
    resetPlayback x = invalidateAll x ∧
      (∀ g ∈ (resetPlayback x).grains, g.busy = false) ∧
      (resetPlayback x).grains.length = x.grains.length ∧
      countBusy (resetPlayback x).grains = 0 ∧
      (resetPlayback x).grains_count = 0 ∧
      (resetPlayback x).buffer_modified = false ∧
      invalidateAll (invalidateAll x) = invalidateAll x ∧
      resetPlayback (resetPlayback x) = resetPlayback x := by
  have he : resetPlayback x = invalidateAll x := by
    unfold resetPlayback invalidateAll
    rw [if_pos h]
  have hi : invalidateAll (invalidateAll x) = invalidateAll x := by
    unfold invalidateAll
    simp only [map_clear_idem]
  refine ⟨he, ?_, ?_, ?_, ?_, ?_, hi, ?_⟩
  · rw [he]
    intro g hg
    simp only [invalidateAll, List.mem_map] at hg
    obtain ⟨g0, _, rfl⟩ := hg
    rfl
  · rw [he]
    simp [invalidateAll]
  · rw [he]
    exact countBusy_map_clear x.grains
  · rw [he]
    rfl
  · rw [he]
    rfl
  · rw [he]
    unfold resetPlayback
    simp [invalidateAll]

/-- Witness for claim C13: a notification arrives while one grain is playing. -/
theorem invalidation_clears_all_witness :
    afterNotify.buffer_modified = true ∧ afterNotify.grains_count = 1 ∧
      (resetPlayback afterNotify).grains_count = 0 ∧
      countBusy (resetPlayback afterNotify).grains = 0 :=
  ⟨by decide!, by decide!,
    (invalidation_clears_all afterNotify (by decide!)).2.2.2.2.1,
    (invalidation_clears_all afterNotify (by decide!)).2.2.2.1⟩

/-! ## C14: absent buffers -/

/-- Claim C14: when the sample buffer or the window buffer is absent the perform
routine writes 0 to every sample of both output vectors of the block and
returns the object unchanged, every field of it. -/
theorem absent_buffer_silent (c : Collab) (x : t_cmgrainlabs) (buffer w_buffer : Option t_buffer)
    (ins : List (List ℚ)) (rnd : Nat → Draws) (h : buffer = none ∨ w_buffer = none) :
    (cmgrainlabs_perform64 c x buffer w_buffer ins rnd).x = x ∧
      (cmgrainlabs_perform64 c x buffer w_buffer ins rnd).out_left
        = List.replicate (ins.getD 0 []).length 0 ∧
      (cmgrainlabs_perform64 c x buffer w_buffer ins rnd).out_right
        = List.replicate (ins.getD 0 []).length 0 := by
  unfold cmgrainlabs_perform64
  rcases h with h | h
  · subst h
    exact ⟨rfl, rfl, rfl⟩
  · subst h
    cases buffer <;> exact ⟨rfl, rfl, rfl⟩

/-- Witness for claim C14: the window buffer is missing while a grain is
playing and the trigger ramp drops. -/
theorem absent_buffer_silent_witness :
    (cmgrainlabs_perform64 linearCollab afterFirstSpawn (some (constBuffer 100000)) none
        [[1, 0, 0]] (fun _ => zeroDraws)).x = afterFirstSpawn ∧
      (cmgrainlabs_perform64 linearCollab afterFirstSpawn (some (constBuffer 100000)) none
        [[1, 0, 0]] (fun _ => zeroDraws)).out_left = [0, 0, 0] :=
  ⟨(absent_buffer_silent linearCollab afterFirstSpawn (some (constBuffer 100000)) none
      [[1, 0, 0]] (fun _ => zeroDraws) (Or.inr rfl)).1,
    (absent_buffer_silent linearCollab afterFirstSpawn (some (constBuffer 100000)) none
      [[1, 0, 0]] (fun _ => zeroDraws) (Or.inr rfl)).2.1⟩

/-! ## C15: float messages -/

/-- A float message that carries a number on inlet 1..8 stores it in that
inlet's scalar fallback, and changes nothing else, when it is in the legal
range of the inlet (start: `f >= 0`; length: `1 <= f <= 300`; pitch:
`0 < f <= 10`; pan: `-1 <= f <= 1`); otherwise the whole object, the fallback
included, is as before. -/
theorem float_number_stores_iff_legal (x : t_cmgrainlabs) (f : ℚ) :
    ((0 ≤ f → cmgrainlabs_float x 1 f = { x with startmin_float := f }) ∧
      (f < 0 → cmgrainlabs_float x 1 f = x)) ∧
    ((0 ≤ f → cmgrainlabs_float x 2 f = { x with startmax_float := f }) ∧
      (f < 0 → cmgrainlabs_float x 2 f = x)) ∧
    ((1 ≤ f ∧ f ≤ 300 → cmgrainlabs_float x 3 f = { x with lengthmin_float := f }) ∧
      (¬ (1 ≤ f ∧ f ≤ 300) → cmgrainlabs_float x 3 f = x)) ∧
    ((1 ≤ f ∧ f ≤ 300 → cmgrainlabs_float x 4 f = { x with lengthmax_float := f }) ∧
      (¬ (1 ≤ f ∧ f ≤ 300) → cmgrainlabs_float x 4 f = x)) ∧
    ((0 < f ∧ f ≤ 10 → cmgrainlabs_float x 5 f = { x with pitchmin_float := f }) ∧
      (¬ (0 < f ∧ f ≤ 10) → cmgrainlabs_float x 5 f = x)) ∧
    ((0 < f ∧ f ≤ 10 → cmgrainlabs_float x 6 f = { x with pitchmax_float := f }) ∧
      (¬ (0 < f ∧ f ≤ 10) → cmgrainlabs_float x 6 f = x)) ∧
    ((-1 ≤ f ∧ f ≤ 1 → cmgrainlabs_float x 7 f = { x with panmin_float := f }) ∧
      (¬ (-1 ≤ f ∧ f ≤ 1) → cmgrainlabs_float x 7 f = x)) ∧
    ((-1 ≤ f ∧ f ≤ 1 → cmgrainlabs_float x 8 f = { x with panmax_float := f }) ∧
      (¬ (-1 ≤ f ∧ f ≤ 1) → cmgrainlabs_float x 8 f = x)) := by
  refine ⟨⟨?_, ?_⟩, ⟨?_, ?_⟩, ⟨?_, ?_⟩, ⟨?_, ?_⟩, ⟨?_, ?_⟩, ⟨?_, ?_⟩, ⟨?_, ?_⟩, ⟨?_, ?_⟩⟩
  · intro h
    simp [cmgrainlabs_float, not_lt.mpr h]
  · intro h
    simp [cmgrainlabs_float, h]
  · intro h
    simp [cmgrainlabs_float, not_lt.mpr h]
  · intro h
    simp [cmgrainlabs_float, h]
  · rintro ⟨h1, h2⟩
    simp [cmgrainlabs_float, MIN_GRAINLENGTH, MAX_GRAINLENGTH, not_lt.mpr h1, not_lt.mpr h2]
  · intro h
    simp only [cmgrainlabs_float, MIN_GRAINLENGTH, MAX_GRAINLENGTH]
    by_cases h1 : f < 1
    · simp [h1]
    · have h2 : f > 300 := by
        by_contra h2
        exact h ⟨not_lt.mp h1, not_lt.mp h2⟩
      simp [h1, h2]
  · rintro ⟨h1, h2⟩
    simp [cmgrainlabs_float, MIN_GRAINLENGTH, MAX_GRAINLENGTH, not_lt.mpr h1, not_lt.mpr h2]
  · intro h
    simp only [cmgrainlabs_float, MIN_GRAINLENGTH, MAX_GRAINLENGTH]
    by_cases h1 : f < 1
    · simp [h1]
    · have h2 : f > 300 := by
        by_contra h2
        exact h ⟨not_lt.mp h1, not_lt.mp h2⟩
      simp [h1, h2]
  · rintro ⟨h1, h2⟩
    simp [cmgrainlabs_float, MAX_PITCH, not_le.mpr h1, not_lt.mpr h2]
  · intro h
    simp only [cmgrainlabs_float, MAX_PITCH]
    by_cases h1 : f ≤ 0
    · simp [h1]
    · have h2 : f > 10 := by
        by_contra h2
        exact h ⟨not_le.mp h1, not_lt.mp h2⟩
      simp [h1, h2]
  · rintro ⟨h1, h2⟩
    simp [cmgrainlabs_float, MAX_PITCH, not_le.mpr h1, not_lt.mpr h2]
  · intro h
    simp only [cmgrainlabs_float, MAX_PITCH]
    by_cases h1 : f ≤ 0
    · simp [h1]
    · have h2 : f > 10 := by
        by_contra h2
        exact h ⟨not_le.mp h1, not_lt.mp h2⟩
      simp [h1, h2]
  · rintro ⟨h1, h2⟩
    have h : ¬ (f < -1 ∨ f > 1) := by
      rintro (h | h)
      · exact absurd h (not_lt.mpr h1)
      · exact absurd h (not_lt.mpr h2)
    simp [cmgrainlabs_float, h]
  · intro h
    have h' : f < -1 ∨ f > 1 := by
      by_contra hc
      push_neg at hc
      exact h hc
    simp [cmgrainlabs_float, h']
  · rintro ⟨h1, h2⟩
    have h : ¬ (f < -1 ∨ f > 1) := by
      rintro (h | h)
      · exact absurd h (not_lt.mpr h1)
      · exact absurd h (not_lt.mpr h2)
    simp [cmgrainlabs_float, h]
  · intro h
    have h' : f < -1 ∨ f > 1 := by
      by_contra hc
      push_neg at hc
      exact h hc
    simp [cmgrainlabs_float, h']

theorem Double.lt_num (a b : ℚ) : (Double.num a).lt (.num b) = decide (a < b) := rfl
theorem Double.le_num (a b : ℚ) : (Double.num a).le (.num b) = decide (a ≤ b) := rfl

/-- On numbers the branch of `floatAssigns` is the one `cmgrainlabs_float`
takes: when it is `false` the object is unchanged, when it is `true` the
fallback of the inlet is the argument. -/
theorem float_of_assigns (x : t_cmgrainlabs) (inlet : Int) (q : ℚ) :
    (floatAssigns inlet (.num q) = false → cmgrainlabs_float x inlet q = x) ∧
      (floatAssigns inlet (.num q) = true →
        fallback (cmgrainlabs_float x inlet q) inlet = q) := by
  by_cases h1 : inlet = 1
  · subst h1
    by_cases h : q < 0 <;>
      simp [floatAssigns, cmgrainlabs_float, fallback, Double.lt_num, h]
  by_cases h2 : inlet = 2
  · subst h2
    by_cases h : q < 0 <;>
      simp [floatAssigns, cmgrainlabs_float, fallback, Double.lt_num, h]
  by_cases h3 : inlet = 3
  · subst h3
    by_cases h : q < MIN_GRAINLENGTH <;> by_cases h' : MAX_GRAINLENGTH < q <;>
      simp [floatAssigns, cmgrainlabs_float, fallback, Double.lt_num, h, h']
  by_cases h4 : inlet = 4
  · subst h4
    by_cases h : q < MIN_GRAINLENGTH <;> by_cases h' : MAX_GRAINLENGTH < q <;>
      simp [floatAssigns, cmgrainlabs_float, fallback, Double.lt_num, h, h']
  by_cases h5 : inlet = 5
  · subst h5
    by_cases h : q ≤ 0 <;> by_cases h' : MAX_PITCH < q <;>
      simp [floatAssigns, cmgrainlabs_float, fallback, Double.lt_num, Double.le_num, h, h']
  by_cases h6 : inlet = 6
  · subst h6
    by_cases h : q ≤ 0 <;> by_cases h' : MAX_PITCH < q <;>
      simp [floatAssigns, cmgrainlabs_float, fallback, Double.lt_num, Double.le_num, h, h']
  by_cases h7 : inlet = 7
  · subst h7
    by_cases h : q < -1 <;> by_cases h' : 1 < q <;>
      simp [floatAssigns, cmgrainlabs_float, fallback, Double.lt_num, h, h']
  by_cases h8 : inlet = 8
  · subst h8
    by_cases h : q < -1 <;> by_cases h' : 1 < q <;>
      simp [floatAssigns, cmgrainlabs_float, fallback, Double.lt_num, h, h']
  simp [floatAssigns, cmgrainlabs_float, h1, h2, h3, h4, h5, h6, h7, h8]

/-- On numbers `floatAssigns` is the legal range of the inlets 1..8. -/
theorem floatAssigns_num (inlet : Int) (q : ℚ) :
    floatAssigns inlet (.num q) = legalValue inlet (.num q) := by
  by_cases h1 : inlet = 1
  · subst h1
    by_cases h : q < 0 <;>
      simp [floatAssigns, legalValue, Double.lt_num, Double.le_num, h, not_le.mpr, not_lt.mp]
  by_cases h2 : inlet = 2
  · subst h2
    by_cases h : q < 0 <;>
      simp [floatAssigns, legalValue, Double.lt_num, Double.le_num, h, not_le.mpr, not_lt.mp]
  by_cases h3 : inlet = 3
  · subst h3
    by_cases h : q < 1 <;> by_cases h' : 300 < q <;>
      simp [floatAssigns, legalValue, Double.lt_num, Double.le_num, MIN_GRAINLENGTH,
        MAX_GRAINLENGTH, h, h', not_le.mpr, not_lt.mp]
  by_cases h4 : inlet = 4
  · subst h4
    by_cases h : q < 1 <;> by_cases h' : 300 < q <;>
      simp [floatAssigns, legalValue, Double.lt_num, Double.le_num, MIN_GRAINLENGTH,
        MAX_GRAINLENGTH, h, h', not_le.mpr, not_lt.mp]
  by_cases h5 : inlet = 5
  · subst h5
    by_cases h : q ≤ 0 <;> by_cases h' : 10 < q <;>
      simp [floatAssigns, legalValue, Double.lt_num, Double.le_num, MAX_PITCH, h, h',
        not_le.mpr, not_lt.mp, not_le.mp, not_lt.mpr]
  by_cases h6 : inlet = 6
  · subst h6
    by_cases h : q ≤ 0 <;> by_cases h' : 10 < q <;>
      simp [floatAssigns, legalValue, Double.lt_num, Double.le_num, MAX_PITCH, h, h',
        not_le.mpr, not_lt.mp, not_le.mp, not_lt.mpr]
  by_cases h7 : inlet = 7
  · subst h7
    by_cases h : q < -1 <;> by_cases h' : 1 < q <;>
      simp [floatAssigns, legalValue, Double.lt_num, Double.le_num, h, h', not_le.mpr,
        not_lt.mp]
  by_cases h8 : inlet = 8
  · subst h8
    by_cases h : q < -1 <;> by_cases h' : 1 < q <;>
      simp [floatAssigns, legalValue, Double.lt_num, Double.le_num, h, h', not_le.mpr,
        not_lt.mp]
  simp [floatAssigns, legalValue, h1, h2, h3, h4, h5, h6, h7, h8]

/-- Claim C15 fails on the code: a float message that carries a NaN reaches the
assignment on every inlet 1..8, because each comparison of the handler is
false for a NaN, although a NaN is in no legal range.  For every number the
handler assigns exactly when the number is in the legal range of the inlet,
and then the fallback of the inlet is that number; otherwise the object is
unchanged. -/
theorem float_stores_nan :
    (∀ inlet ∈ [(1 : Int), 2, 3, 4, 5, 6, 7, 8],
      floatAssigns inlet Double.nan = true ∧ legalValue inlet Double.nan = false) ∧
    (∀ (inlet : Int) (q : ℚ), floatAssigns inlet (.num q) = legalValue inlet (.num q)) ∧
    (∀ (x : t_cmgrainlabs) (inlet : Int) (q : ℚ),
      (floatAssigns inlet (.num q) = false → cmgrainlabs_float x inlet q = x) ∧
        (floatAssigns inlet (.num q) = true →
          fallback (cmgrainlabs_float x inlet q) inlet = q)) := by
  refine ⟨by decide, ?_, ?_⟩
  · intro inlet q
    exact floatAssigns_num inlet q
  · intro x inlet q
    exact float_of_assigns x inlet q

/-! ## C16: parameter resolution -/

theorem dsp64_connect_status (x : t_cmgrainlabs) (count : List Int) (samplerate : ℚ) :
    (cmgrainlabs_dsp64 x count samplerate).connect_status
      = [count.getD 1 0, count.getD 2 0, count.getD 3 0, count.getD 4 0,
         count.getD 5 0, count.getD 6 0, count.getD 7 0, count.getD 8 0] := rfl

theorem dsp64_m_sr (x : t_cmgrainlabs) (count : List Int) (samplerate : ℚ) :
    (cmgrainlabs_dsp64 x count samplerate).m_sr = samplerate * (1 / 1000) := by
  unfold cmgrainlabs_dsp64
  simp only
  split_ifs with h
  · rfl
  · exact not_not.mp h

/-- Claim C16: `s1 .. s8` being the first samples of the signal vectors of the
inlets 1..8 of a block (inlet 0 carries the trigger `tr`), each of the eight
parameters is the first sample of its inlet's signal when `connect_status` of
the inlet is non-zero and the stored scalar fallback otherwise; the start and
length values are multiplied by `m_sr`, the pitch and pan values are not
scaled.  After `cmgrainlabs_dsp64` the status of inlet `k` is the host's count
for that inlet and `m_sr` is the sample rate times 0.001.  With both buffers
present all ticks of the block run with these parameters. -/
theorem params_resolved_per_block (x : t_cmgrainlabs) (tr : List ℚ)
    (s1 s2 s3 s4 s5 s6 s7 s8 : ℚ) (r1 r2 r3 r4 r5 r6 r7 r8 : List ℚ) :
    resolveParams x
        [tr, s1 :: r1, s2 :: r2, s3 :: r3, s4 :: r4, s5 :: r5, s6 :: r6, s7 :: r7, s8 :: r8]
      = { startmin := (if x.connect_status.getD 0 0 ≠ 0 then s1 else x.startmin_float) * x.m_sr
          startmax := (if x.connect_status.getD 1 0 ≠ 0 then s2 else x.startmax_float) * x.m_sr
          lengthmin := (if x.connect_status.getD 2 0 ≠ 0 then s3 else x.lengthmin_float) * x.m_sr
          lengthmax := (if x.connect_status.getD 3 0 ≠ 0 then s4 else x.lengthmax_float) * x.m_sr
          pitchmin := if x.connect_status.getD 4 0 ≠ 0 then s5 else x.pitchmin_float
          pitchmax := if x.connect_status.getD 5 0 ≠ 0 then s6 else x.pitchmax_float
          panmin := if x.connect_status.getD 6 0 ≠ 0 then s7 else x.panmin_float
          panmax := if x.connect_status.getD 7 0 ≠ 0 then s8 else x.panmax_float } ∧
    (∀ (count : List Int) (samplerate : ℚ),
      resolveParams (cmgrainlabs_dsp64 x count samplerate)
          [tr, s1 :: r1, s2 :: r2, s3 :: r3, s4 :: r4, s5 :: r5, s6 :: r6, s7 :: r7, s8 :: r8]
        = { startmin := (if count.getD 1 0 ≠ 0 then s1 else x.startmin_float)
              * (samplerate * (1 / 1000))
            startmax := (if count.getD 2 0 ≠ 0 then s2 else x.startmax_float)
              * (samplerate * (1 / 1000))
            lengthmin := (if count.getD 3 0 ≠ 0 then s3 else x.lengthmin_float)
              * (samplerate * (1 / 1000))
            lengthmax := (if count.getD 4 0 ≠ 0 then s4 else x.lengthmax_float)
              * (samplerate * (1 / 1000))
            pitchmin := if count.getD 5 0 ≠ 0 then s5 else x.pitchmin_float
            pitchmax := if count.getD 6 0 ≠ 0 then s6 else x.pitchmax_float
            panmin := if count.getD 7 0 ≠ 0 then s7 else x.panmin_float
            panmax := if count.getD 8 0 ≠ 0 then s8 else x.panmax_float }) ∧
    (∀ (c : Collab) (b w : t_buffer) (rnd : Nat → Draws),
      (cmgrainlabs_perform64 c x (some b) (some w)
          [tr, s1 :: r1, s2 :: r2, s3 :: r3, s4 :: r4, s5 :: r5, s6 :: r6, s7 :: r7, s8 :: r8]
          rnd).out_left
        = (dspLoop c b w (resolveParams x
            [tr, s1 :: r1, s2 :: r2, s3 :: r3, s4 :: r4, s5 :: r5, s6 :: r6, s7 :: r7,
              s8 :: r8]) rnd tr 0 x { trigger := false, slot := 0 }).map (fun r => r.out_left) ∧
      (cmgrainlabs_perform64 c x (some b) (some w)
          [tr, s1 :: r1, s2 :: r2, s3 :: r3, s4 :: r4, s5 :: r5, s6 :: r6, s7 :: r7, s8 :: r8]
          rnd).out_right
        = (dspLoop c b w (resolveParams x
            [tr, s1 :: r1, s2 :: r2, s3 :: r3, s4 :: r4, s5 :: r5, s6 :: r6, s7 :: r7,
              s8 :: r8]) rnd tr 0 x { trigger := false, slot := 0 }).map
            (fun r => r.out_right)) := by
  have hres : ∀ y : t_cmgrainlabs, resolveParams y
        [tr, s1 :: r1, s2 :: r2, s3 :: r3, s4 :: r4, s5 :: r5, s6 :: r6, s7 :: r7, s8 :: r8]
      = { startmin := (if y.connect_status.getD 0 0 ≠ 0 then s1 else y.startmin_float) * y.m_sr
          startmax := (if y.connect_status.getD 1 0 ≠ 0 then s2 else y.startmax_float) * y.m_sr
          lengthmin := (if y.connect_status.getD 2 0 ≠ 0 then s3 else y.lengthmin_float) * y.m_sr
          lengthmax := (if y.connect_status.getD 3 0 ≠ 0 then s4 else y.lengthmax_float) * y.m_sr
          pitchmin := if y.connect_status.getD 4 0 ≠ 0 then s5 else y.pitchmin_float
          pitchmax := if y.connect_status.getD 5 0 ≠ 0 then s6 else y.pitchmax_float
          panmin := if y.connect_status.getD 6 0 ≠ 0 then s7 else y.panmin_float
          panmax := if y.connect_status.getD 7 0 ≠ 0 then s8 else y.panmax_float } := by
    intro y
    unfold resolveParams
    congr 1 <;> first | rfl | (split_ifs <;> rfl)
  refine ⟨hres x, ?_, ?_⟩
  · intro count samplerate
    rw [hres, dsp64_connect_status, dsp64_m_sr]
    rfl
  · intro c b w rnd
    exact ⟨rfl, rfl⟩

/-! ## Lemmas on the playback sums -/

theorem leftSample_congr (c : Collab) (b w : t_buffer) (x y : t_cmgrainlabs) (g : cm_grainsinfo)
    (h1 : y.attr_stereo = x.attr_stereo) (h2 : y.attr_sinterp = x.attr_sinterp)
    (h3 : y.attr_winterp = x.attr_winterp) :
    leftSample c b w y g = leftSample c b w x g := by
  unfold leftSample windowRead
  rw [h1, h2, h3]

theorem rightSample_congr (c : Collab) (b w : t_buffer) (x y : t_cmgrainlabs)
    (g : cm_grainsinfo)
    (h1 : y.attr_stereo = x.attr_stereo) (h2 : y.attr_sinterp = x.attr_sinterp)
    (h3 : y.attr_winterp = x.attr_winterp) :
    rightSample c b w y g = rightSample c b w x g := by
  unfold rightSample windowRead
  rw [h1, h2, h3]

theorem playSlot_attrs (c : Collab) (b w : t_buffer) (i : Nat) (m : Mix) :
    (playSlot c b w i m).x.attr_stereo = m.x.attr_stereo ∧
      (playSlot c b w i m).x.attr_sinterp = m.x.attr_sinterp ∧
      (playSlot c b w i m).x.attr_winterp = m.x.attr_winterp := by
  unfold playSlot
  split
  · exact ⟨rfl, rfl, rfl⟩
  · rename_i g hg
    by_cases hbusy : g.busy = true
    · rw [if_pos hbusy]
      by_cases hr : g.grainpos + 1 = g.t_length
      · rw [if_pos hr]
        exact ⟨rfl, rfl, rfl⟩
      · rw [if_neg hr]
        exact ⟨rfl, rfl, rfl⟩
    · rw [if_neg hbusy]
      exact ⟨rfl, rfl, rfl⟩

theorem playSlot_getElem?_ne (c : Collab) (b w : t_buffer) (i j : Nat) (m : Mix) (h : i ≠ j) :
    (playSlot c b w i m).x.grains[j]? = m.x.grains[j]? := by
  unfold playSlot
  split
  · rfl
  · rename_i g hg
    by_cases hbusy : g.busy = true
    · rw [if_pos hbusy]
      by_cases hr : g.grainpos + 1 = g.t_length
      · rw [if_pos hr]
        exact List.getElem?_set_ne h
      · rw [if_neg hr]
        exact List.getElem?_set_ne h
    · rw [if_neg hbusy]

theorem playSlot_out (c : Collab) (b w : t_buffer) (i : Nat) (m : Mix) :
    (playSlot c b w i m).outsample_left
        = m.outsample_left
          + (((m.x.grains[i]?).toList.filter (fun g => g.busy)).map
              (leftSample c b w m.x)).sum ∧
      (playSlot c b w i m).outsample_right
        = m.outsample_right
          + (((m.x.grains[i]?).toList.filter (fun g => g.busy)).map
              (rightSample c b w m.x)).sum := by
  unfold playSlot
  split
  · rename_i hg
    simp [hg]
  · rename_i g hg
    by_cases hbusy : g.busy = true
    · rw [if_pos hbusy]
      by_cases hr : g.grainpos + 1 = g.t_length
      · rw [if_pos hr]
        simp [hg, hbusy]
      · rw [if_neg hr]
        simp [hg, hbusy]
    · rw [if_neg hbusy]
      simp [hg, hbusy]

theorem foldl_playSlot_range (c : Collab) (b w : t_buffer) (s : t_cmgrainlabs) (n : Nat) :
    (∀ j, n ≤ j →
      ((List.range n).foldl (fun m i => playSlot c b w i m)
        { x := s, outsample_left := 0, outsample_right := 0 }).x.grains[j]? = s.grains[j]?) ∧
    (((List.range n).foldl (fun m i => playSlot c b w i m)
        { x := s, outsample_left := 0, outsample_right := 0 }).x.attr_stereo = s.attr_stereo ∧
      ((List.range n).foldl (fun m i => playSlot c b w i m)
        { x := s, outsample_left := 0, outsample_right := 0 }).x.attr_sinterp = s.attr_sinterp ∧
      ((List.range n).foldl (fun m i => playSlot c b w i m)
        { x := s, outsample_left := 0, outsample_right := 0 }).x.attr_winterp
          = s.attr_winterp) ∧
    ((List.range n).foldl (fun m i => playSlot c b w i m)
        { x := s, outsample_left := 0, outsample_right := 0 }).outsample_left
      = (((s.grains.take n).filter (fun g => g.busy)).map (leftSample c b w s)).sum ∧
    ((List.range n).foldl (fun m i => playSlot c b w i m)
        { x := s, outsample_left := 0, outsample_right := 0 }).outsample_right
      = (((s.grains.take n).filter (fun g => g.busy)).map (rightSample c b w s)).sum := by
  induction n with
  | zero => simp
  | succ n ih =>
    obtain ⟨hget, hattr, hl, hr⟩ := ih
    rw [List.range_succ, List.foldl_append]
    simp only [List.foldl_cons, List.foldl_nil]
    generalize hm : (List.range n).foldl (fun m i => playSlot c b w i m)
      { x := s, outsample_left := 0, outsample_right := 0 } = m at hget hattr hl hr
    have ha := playSlot_attrs c b w n m
    have ho := playSlot_out c b w n m
    have hfun_l : leftSample c b w m.x = leftSample c b w s := by
      funext g
      exact leftSample_congr c b w s m.x g hattr.1 hattr.2.1 hattr.2.2
    have hfun_r : rightSample c b w m.x = rightSample c b w s := by
      funext g
      exact rightSample_congr c b w s m.x g hattr.1 hattr.2.1 hattr.2.2
    refine ⟨?_, ⟨ha.1.trans hattr.1, ha.2.1.trans hattr.2.1, ha.2.2.trans hattr.2.2⟩, ?_, ?_⟩
    · intro j hj
      rw [playSlot_getElem?_ne c b w n j m (by omega)]
      exact hget j (by omega)
    · rw [ho.1, hl, hget n (le_refl _), hfun_l, List.take_succ, List.filter_append,
        List.map_append, List.sum_append]
    · rw [ho.2, hr, hget n (le_refl _), hfun_r, List.take_succ, List.filter_append,
        List.map_append, List.sum_append]

theorem playback_out (c : Collab) (b w : t_buffer) (s : t_cmgrainlabs)
    (h : s.grains_count ≠ 0) :
    (playback c b w s).outsample_left
        = ((busyBelowLimit s).map (leftSample c b w s)).sum ∧
      (playback c b w s).outsample_right
        = ((busyBelowLimit s).map (rightSample c b w s)).sum := by
  unfold playback busyBelowLimit
  rw [if_neg h]
  have hf := foldl_playSlot_range c b w s (playLimit s).toNat
  exact ⟨hf.2.2.1, hf.2.2.2⟩

theorem resetPlayback_attrs (x : t_cmgrainlabs) :
    (resetPlayback x).attr_stereo = x.attr_stereo ∧
      (resetPlayback x).attr_sinterp = x.attr_sinterp ∧
      (resetPlayback x).attr_winterp = x.attr_winterp := by
  unfold resetPlayback
  split_ifs <;> exact ⟨rfl, rfl, rfl⟩

theorem spawn_attrs (c : Collab) (b : t_buffer) (p : Params) (d : Draws) (x : t_cmgrainlabs)
    (loc : Locals) :
    (spawn c b p d x loc).1.attr_stereo = x.attr_stereo ∧
      (spawn c b p d x loc).1.attr_sinterp = x.attr_sinterp ∧
      (spawn c b p d x loc).1.attr_winterp = x.attr_winterp := by
  unfold spawn
  split_ifs
  · cases scanFree x.grains 0 x.grains_limit <;> exact ⟨rfl, rfl, rfl⟩
  · exact ⟨rfl, rfl, rfl⟩

theorem tickSpawn_attrs (c : Collab) (b : t_buffer) (p : Params) (tr_curr : ℚ) (d : Draws)
    (x : t_cmgrainlabs) (loc : Locals) :
    (tickSpawn c b p tr_curr d x loc).1.attr_stereo = x.attr_stereo ∧
      (tickSpawn c b p tr_curr d x loc).1.attr_sinterp = x.attr_sinterp ∧
      (tickSpawn c b p tr_curr d x loc).1.attr_winterp = x.attr_winterp := by
  unfold tickSpawn
  have h1 := spawn_attrs c b p d (resetPlayback x)
    { loc with trigger := detectTrigger x tr_curr loc.trigger }
  have h2 := resetPlayback_attrs x
  exact ⟨h1.1.trans h2.1, h1.2.1.trans h2.2.1, h1.2.2.trans h2.2.2⟩

/-! ## The limit invariant -/

theorem Reachable_applyEvent (c : Collab) (x : t_cmgrainlabs) (e : Event) (h : Reachable c x) :
    Reachable c (applyEvent c x e) := by
  cases e with
  | tick b w p tr_curr d loc => exact Reachable.tick b w p tr_curr d loc x h
  | limit arg => exact Reachable.limit arg x h
  | float inlet f => exact Reachable.float inlet f x h
  | notify modified => exact Reachable.notify modified x h
  | set ac => exact Reachable.set ac x h
  | dsp64 count samplerate => exact Reachable.dsp64 count samplerate x h
  | stereo_set av => exact Reachable.stereo_set av x h
  | winterp_set av => exact Reachable.winterp_set av x h
  | sinterp_set av => exact Reachable.sinterp_set av x h
  | zero_set av => exact Reachable.zero_set av x h

theorem Reachable_runEvents (c : Collab) (x : t_cmgrainlabs) (es : List Event)
    (h : Reachable c x) : Reachable c (runEvents c x es) := by
  induction es generalizing x with
  | nil => exact h
  | cons e es ih => exact ih _ (Reachable_applyEvent c x e h)

theorem LimitInv_of_eq (x y : t_cmgrainlabs) (hl : y.grains_limit = x.grains_limit)
    (hm : y.limit_modified = x.limit_modified) (hc : y.grains_count = x.grains_count)
    (h : LimitInv x) : LimitInv y := by
  unfold LimitInv at h ⊢
  rw [hl, hm, hc]
  exact h

theorem float_limit_fields (x : t_cmgrainlabs) (inlet : Int) (f : ℚ) :
    (cmgrainlabs_float x inlet f).grains_limit = x.grains_limit ∧
      (cmgrainlabs_float x inlet f).limit_modified = x.limit_modified ∧
      (cmgrainlabs_float x inlet f).grains_count = x.grains_count := by
  unfold cmgrainlabs_float
  repeat' split
  all_goals exact ⟨rfl, rfl, rfl⟩

theorem LimitInv_tick (c : Collab) (b w : t_buffer) (p : Params) (tr_curr : ℚ) (d : Draws)
    (x : t_cmgrainlabs) (loc : Locals) (h0 : 0 ≤ x.grains_count) (h : LimitInv x) :
    LimitInv (tick c b w p tr_curr d x loc).x := by
  obtain ⟨h1, h2⟩ := h
  have hf := tick_fields c b w p tr_curr d x loc
  have hr := resetPlayback_count x h0
  have hs : 0 ≤ (tickSpawn c b p tr_curr d x loc).1.grains_count ∧
      (x.limit_modified = false →
        (tickSpawn c b p tr_curr d x loc).1.grains_count ≤ x.grains_limit) := by
    unfold tickSpawn
    rw [spawn_count]
    by_cases hg : spawnGuard (resetPlayback x)
        { loc with trigger := detectTrigger x tr_curr loc.trigger } = true
    · rw [if_pos hg]
      have hlt : (resetPlayback x).grains_count < (resetPlayback x).grains_limit := by
        simp only [spawnGuard, Bool.and_eq_true, decide_eq_true_eq] at hg
        exact hg.1.2
      rw [(resetPlayback_limit x).1] at hlt
      exact ⟨by omega, fun _ => by omega⟩
    · rw [if_neg hg]
      exact ⟨hr.1, fun hm => hr.2.trans (h2 hm)⟩
  have hp := playback_count_le c b w (tickSpawn c b p tr_curr d x loc).1 hs.1
  refine ⟨by rw [hf.2.2.1]; exact h1, ?_⟩
  intro hm
  rw [hf.2.1, hf.2.2.1]
  rw [hf.2.2.2.2.1] at hm
  by_cases hc : (playback c b w (tickSpawn c b p tr_curr d x loc).1).x.grains_count = 0
  · rw [hc]
    omega
  · rw [if_neg hc] at hm
    exact hp.trans (hs.2 hm)

theorem LimitInv_reachable (c : Collab) (x : t_cmgrainlabs) (h : Reachable c x) :
    LimitInv x := by
  induction h with
  | new argc arg2 attrs sr allocated x hx =>
    unfold cmgrainlabs_new at hx
    simp only at hx
    split_ifs at hx with h1 h2 h3
    simp only [Option.some.injEq] at hx
    subst hx
    push_neg at h2
    exact ⟨h2.1, fun _ => by simp only; omega⟩
  | tick b w p tr_curr d loc x hx ih =>
    exact LimitInv_tick c b w p tr_curr d x loc (count_nonneg_of_reachable c x hx) ih
  | limit arg x _ ih =>
    unfold cmgrainlabs_limit
    by_cases ha : arg < 1 ∨ arg > (MAXGRAINS : Int)
    · rw [if_pos ha]
      exact ih
    · rw [if_neg ha]
      refine ⟨?_, fun hm => by simp at hm⟩
      simp only [toShort, MAXGRAINS] at ha ⊢
      push_cast at ha
      omega
  | float inlet f x _ ih =>
    have hf := float_limit_fields x inlet f
    exact LimitInv_of_eq x _ hf.1 hf.2.1 hf.2.2 ih
  | notify modified x _ ih =>
    unfold cmgrainlabs_notify
    split_ifs <;> exact ih
  | set ac x _ ih =>
    unfold cmgrainlabs_set
    split_ifs <;> exact ih
  | dsp64 count samplerate x _ ih => exact ih
  | stereo_set av x _ ih => cases av <;> exact ih
  | winterp_set av x _ ih => cases av <;> exact ih
  | sinterp_set av x _ ih => cases av <;> exact ih
  | zero_set av x _ ih => cases av <;> exact ih

theorem applyEvent_keeps_limit (c : Collab) (x : t_cmgrainlabs) (e : Event)
    (he : isLimitMessage e = false) (hm : x.limit_modified = false) :
    (applyEvent c x e).limit_modified = false ∧
      (applyEvent c x e).grains_limit = x.grains_limit := by
  cases e with
  | tick b w p tr_curr d loc =>
    have hf := tick_fields c b w p tr_curr d x loc
    simp only [applyEvent]
    refine ⟨?_, hf.2.2.1⟩
    rw [hf.2.2.2.2.1, hm]
    simp
  | limit arg => simp [isLimitMessage] at he
  | float inlet f =>
    have hf := float_limit_fields x inlet f
    exact ⟨hf.2.1.trans hm, hf.1⟩
  | notify modified =>
    simp only [applyEvent, cmgrainlabs_notify]
    split_ifs <;> exact ⟨hm, rfl⟩
  | set ac =>
    simp only [applyEvent, cmgrainlabs_set]
    split_ifs <;> exact ⟨hm, rfl⟩
  | dsp64 count samplerate => exact ⟨hm, rfl⟩
  | stereo_set av => cases av <;> exact ⟨hm, rfl⟩
  | winterp_set av => cases av <;> exact ⟨hm, rfl⟩
  | sinterp_set av => cases av <;> exact ⟨hm, rfl⟩
  | zero_set av => cases av <;> exact ⟨hm, rfl⟩

theorem runEvents_keeps_limit (c : Collab) (x : t_cmgrainlabs) (es : List Event)
    (he : ∀ e ∈ es, isLimitMessage e = false) (hm : x.limit_modified = false) :
    (runEvents c x es).limit_modified = false ∧
      (runEvents c x es).grains_limit = x.grains_limit := by
  induction es generalizing x with
  | nil => exact ⟨hm, rfl⟩
  | cons e es ih =>
    have h1 := applyEvent_keeps_limit c x e (he e (List.mem_cons_self _ _)) hm
    have h2 := ih (applyEvent c x e) (fun e' he' => he e' (List.mem_cons_of_mem _ he')) h1.1
    exact ⟨h2.1, h2.2.trans h1.2⟩

theorem new_limit_fields (argc arg2 : Int) (attrs : AttrArgs) (sr : ℚ) (allocated : Bool)
    (x : t_cmgrainlabs) (h : cmgrainlabs_new argc arg2 attrs sr allocated = some x) :
    x.grains_limit = toShort arg2 ∧ x.limit_modified = false := by
  unfold cmgrainlabs_new at h
  simp only at h
  split_ifs at h with h1 h2 h3
  simp only [Option.some.injEq] at h
  subst h
  exact ⟨rfl, rfl⟩

/-! ## C18: the live count and the limits -/

/-- Claim C18: in every reachable state `grains_count <= MAXGRAINS = 128` and,
while `limit_modified` is clear, `grains_count <= grains_limit`; for an object
constructed with a limit argument in 1..128 and any sequence of events without
a limit message, `grains_limit` stays the configured limit and the number of
busy slots never exceeds it. -/
theorem count_within_limits (c : Collab) :
    (∀ x : t_cmgrainlabs, Reachable c x →
      x.grains_count ≤ 128 ∧ (x.limit_modified = false → x.grains_count ≤ x.grains_limit)) ∧
    (∀ (argc arg2 : Int) (attrs : AttrArgs) (sr : ℚ) (allocated : Bool) (x0 : t_cmgrainlabs)
        (es : List Event),
      1 ≤ arg2 → arg2 ≤ 128 → cmgrainlabs_new argc arg2 attrs sr allocated = some x0 →
      (∀ e ∈ es, isLimitMessage e = false) →
      (runEvents c x0 es).grains_limit = arg2 ∧
        (runEvents c x0 es).grains_count ≤ arg2 ∧
        (countBusy (runEvents c x0 es).grains : Int) ≤ arg2) := by
  constructor
  · intro x h
    obtain ⟨hlen, _, hcnt⟩ := CountInv_reachable c x h
    refine ⟨?_, (LimitInv_reachable c x h).2⟩
    rw [hcnt]
    have hle : countBusy x.grains ≤ x.grains.length := by
      unfold countBusy
      exact List.countP_le_length _
    rw [hlen] at hle
    unfold MAXGRAINS at hle
    omega
  · intro argc arg2 attrs sr allocated x0 es h1 h2 hnew hes
    have hx0 : Reachable c x0 := Reachable.new argc arg2 attrs sr allocated x0 hnew
    have hr := Reachable_runEvents c x0 es hx0
    have hn := new_limit_fields argc arg2 attrs sr allocated x0 hnew
    have hk := runEvents_keeps_limit c x0 es hes hn.2
    have hs : toShort arg2 = arg2 := by
      unfold toShort
      omega
    have hlim : (runEvents c x0 es).grains_limit = arg2 := by rw [hk.2, hn.1, hs]
    have hc := (LimitInv_reachable c _ hr).2 hk.1
    rw [hlim] at hc
    refine ⟨hlim, hc, ?_⟩
    rw [← (CountInv_reachable c _ hr).2.2]
    exact hc

/-- Witness for claim C18: the object built with limit 4 after a tick that
serves a trigger and a float message. -/
theorem count_within_limits_witness :
    (runEvents linearCollab object441
      [Event.tick (constBuffer 100000) (constBuffer 512) (resolveParams object441 []) 0
        zeroDraws triggered, Event.float 3 20]).grains_count ≤ 4 :=
  ((count_within_limits linearCollab).2 3 4 noAttrs 44100 true object441
    [Event.tick (constBuffer 100000) (constBuffer 512) (resolveParams object441 []) 0
      zeroDraws triggered, Event.float 3 20]
    (by decide) (by decide) (Option.some_get _).symm
    (by intro e he; simp at he; rcases he with rfl | rfl <;> rfl)).2.1

/-! ## C19: the source frame index -/

/-- The source index at every position of a grain lies in the buffer when the
grain has `start >= 0`, `start + gr_length <= b_framecount` and a `gr_length`
of at least 1. -/
theorem source_index_in_range (g : cm_grainsinfo) (b_framecount : Int) (h0 : 0 ≤ g.start)
    (h1 : g.start + g.gr_length ≤ b_framecount) (hgr : 1 ≤ g.gr_length)
    (hp0 : 0 ≤ g.grainpos) (hp : g.grainpos < g.t_length) :
    0 ≤ toLong (sourceDistance g) ∧ toLong (sourceDistance g) < b_framecount := by
  have ht : (0 : ℚ) < (g.t_length : ℚ) := by
    have : (0 : Int) < g.t_length := by omega
    exact_mod_cast this
  have hq0 : (0 : ℚ) ≤ (g.grainpos : ℚ) / (g.t_length : ℚ) :=
    div_nonneg (by exact_mod_cast hp0) ht.le
  have hq1 : (g.grainpos : ℚ) / (g.t_length : ℚ) < 1 := by
    rw [div_lt_one ht]
    exact_mod_cast hp
  have hgq : (1 : ℚ) ≤ (g.gr_length : ℚ) := by exact_mod_cast hgr
  have hsq : (0 : ℚ) ≤ (g.start : ℚ) := by exact_mod_cast h0
  have hbq : (g.start : ℚ) + (g.gr_length : ℚ) ≤ (b_framecount : ℚ) := by exact_mod_cast h1
  have hv0 : 0 ≤ sourceDistance g := by
    unfold sourceDistance
    have : (0 : ℚ) ≤ (g.grainpos : ℚ) / (g.t_length : ℚ) * (g.gr_length : ℚ) :=
      mul_nonneg hq0 (by linarith)
    linarith
  have hv1 : sourceDistance g < (b_framecount : ℚ) := by
    unfold sourceDistance
    have : (g.grainpos : ℚ) / (g.t_length : ℚ) * (g.gr_length : ℚ) < (g.gr_length : ℚ) := by
      have := mul_lt_mul_of_pos_right hq1 (by linarith : (0 : ℚ) < (g.gr_length : ℚ))
      linarith
    linarith
  unfold toLong
  rw [if_pos hv0]
  exact ⟨Int.floor_nonneg.mpr hv0, Int.floor_lt.mpr hv1⟩

/-- Claim C19 fails on the code: with a 48000 frame buffer (one second at
48 kHz), start 2000 ms, length 1 ms and pitch 0.01 the spawn writes
`t_length = 48`, `gr_length = trunc(0.48) = 0` and moves the start back to
`b_framecount - gr_length = 48000`; at position 0 of the grain the source
index is 48000, which is not below `b_framecount`. -/
theorem source_index_at_buffer_end :
    spawnGuard lowPitchObject triggered = true ∧
      ((spawn linearCollab (constBuffer 48000) (resolveParams lowPitchObject []) zeroDraws
          lowPitchObject triggered).1.grains[(spawn linearCollab (constBuffer 48000)
            (resolveParams lowPitchObject []) zeroDraws lowPitchObject triggered).2.slot]?).map
        (fun g => (g.busy, g.grainpos, g.start, g.t_length, g.gr_length))
        = some (true, 0, 48000, 48, 0) ∧
      ((spawn linearCollab (constBuffer 48000) (resolveParams lowPitchObject []) zeroDraws
          lowPitchObject triggered).1.grains[(spawn linearCollab (constBuffer 48000)
            (resolveParams lowPitchObject []) zeroDraws lowPitchObject triggered).2.slot]?).map
        (fun g => (toLong (sourceDistance g), decide (toLong (sourceDistance g) < 48000)))
        = some (48000, false) :=
  ⟨by decide!, by decide!, by decide!⟩

/-! ## C20: degenerate ranges -/

theorem clampStart_eq (s gr b : Int) : clampStart s gr b = max (min s (b - gr)) 0 := by
  unfold clampStart
  simp only
  split_ifs <;> omega

theorem drawPan_of_eq (p : Params) (d : Draws) (h : p.panmin = p.panmax) :
    drawPan p d = min (max p.panmin (-1)) 1 := by
  unfold drawPan
  simp only [h, ne_eq, not_true_eq_false, if_false]
  split_ifs with h1 h2 h3 <;>
    simp only [max_def, min_def] <;> split_ifs <;> first | rfl | linarith

theorem drawPitch_of_eq (p : Params) (d : Draws) (h : p.pitchmin = p.pitchmax) :
    drawPitch p d = min (max p.pitchmin (1 / 1000)) 10 := by
  rw [drawPitch_eq]
  simp [h]

theorem castLong_of_range (c : Collab) (d : ℚ) (h1 : LONG_MIN ≤ toLong d)
    (h2 : toLong d ≤ LONG_MAX) : castLong c d = toLong d := by
  unfold castLong
  rw [if_pos ⟨h1, h2⟩]

theorem drawStart_of_eq (c : Collab) (p : Params) (d : Draws) (h : p.startmin = p.startmax) :
    drawStart c p d = castLong c p.startmin := by
  unfold drawStart
  simp [h]

theorem drawLength_of_eq (c : Collab) (m_sr : ℚ) (p : Params) (d : Draws)
    (h : p.lengthmin = p.lengthmax) :
    drawLength c m_sr p d
      = if (castLong c p.lengthmin : ℚ) > 300 * m_sr then toLong (300 * m_sr)
        else if (castLong c p.lengthmin : ℚ) < 1 * m_sr then toLong (1 * m_sr)
        else castLong c p.lengthmin := by
  unfold drawLength MAX_GRAINLENGTH MIN_GRAINLENGTH
  simp [h]

theorem writeGrain_of_degenerate (c : Collab) (m_sr : ℚ) (b_framecount : Int) (p : Params)
    (d d' : Draws) (g : cm_grainsinfo) (h1 : p.startmin = p.startmax)
    (h2 : p.lengthmin = p.lengthmax) (h3 : p.pitchmin = p.pitchmax)
    (h4 : p.panmin = p.panmax) :
    writeGrain c m_sr b_framecount p d' g = writeGrain c m_sr b_framecount p d g := by
  unfold writeGrain
  rw [drawLength_of_eq c m_sr p d h2, drawLength_of_eq c m_sr p d' h2, drawPitch_of_eq p d h3,
    drawPitch_of_eq p d' h3, drawPan_of_eq p d h4, drawPan_of_eq p d' h4,
    drawStart_of_eq c p d h1, drawStart_of_eq c p d' h1]

/-- Claim C20: when the resolved min of a parameter equals its max the spawned
grain does not depend on the random value for it: the pan handed to the pan
law is `panmin` clamped to [-1, 1], the pitch is `pitchmin` clamped to
[0.001, 10] (so `gr_length` is the truncated double product of `t_length` and
that pitch, capped at the frame count), start and `t_length` are the
conversions to `long` of `startmin` and `lengthmin` put through their clamps,
the conversion being the truncation whenever that fits a 64 bit `long`; with
all four ranges degenerate the whole spawn step is the same for every random
values, so the grain is a function of the resolved parameters, `m_sr` and
`b_framecount`. -/
theorem degenerate_range_uses_min (c : Collab) (b : t_buffer) (p : Params) (d : Draws)
    (x : t_cmgrainlabs) (loc : Locals) (hg : spawnGuard x loc = true) (g : cm_grainsinfo)
    (hs : (spawn c b p d x loc).1.grains[(spawn c b p d x loc).2.slot]? = some g) :
    (p.panmin = p.panmax →
      (g.pan_left, g.pan_right) = c.cm_panning (min (max p.panmin (-1)) 1)) ∧
    (p.pitchmin = p.pitchmax →
      g.gr_length
        = min (toLong (roundDouble (roundDouble (g.t_length : ℚ) *
            min (max p.pitchmin (1 / 1000)) 10))) b.framecount) ∧
    (p.startmin = p.startmax →
      g.start = max (min (castLong c p.startmin) (b.framecount - g.gr_length)) 0) ∧
    (p.lengthmin = p.lengthmax →
      g.t_length
        = if (castLong c p.lengthmin : ℚ) > 300 * x.m_sr then toLong (300 * x.m_sr)
          else if (castLong c p.lengthmin : ℚ) < 1 * x.m_sr then toLong (1 * x.m_sr)
          else castLong c p.lengthmin) ∧
    ((LONG_MIN ≤ toLong p.startmin ∧ toLong p.startmin ≤ LONG_MAX →
        castLong c p.startmin = toLong p.startmin) ∧
      (LONG_MIN ≤ toLong p.lengthmin ∧ toLong p.lengthmin ≤ LONG_MAX →
        castLong c p.lengthmin = toLong p.lengthmin)) ∧
    (p.startmin = p.startmax → p.lengthmin = p.lengthmax → p.pitchmin = p.pitchmax →
      p.panmin = p.panmax → ∀ d' : Draws, spawn c b p d' x loc = spawn c b p d x loc) := by
  obtain ⟨g0, rfl⟩ := spawn_written c b p d x loc hg g hs
  refine ⟨?_, ?_, ?_, ?_, ⟨?_, ?_⟩, ?_⟩
  · intro h
    simp only [writeGrain]
    rw [drawPan_of_eq p d h]
  · intro h
    simp only [writeGrain]
    rw [grainLength_eq_min, drawPitch_of_eq p d h]
  · intro h
    simp only [writeGrain]
    rw [clampStart_eq, drawStart_of_eq c p d h]
  · intro h
    simp only [writeGrain]
    exact drawLength_of_eq c x.m_sr p d h
  · intro h
    exact castLong_of_range c p.startmin h.1 h.2
  · intro h
    exact castLong_of_range c p.lengthmin h.1 h.2
  · intro h1 h2 h3 h4 d'
    have hw : writeGrain c x.m_sr b.framecount p d' = writeGrain c x.m_sr b.framecount p d := by
      funext g
      exact writeGrain_of_degenerate c x.m_sr b.framecount p d d' g h1 h2 h3 h4
    unfold spawn
    rw [hw]

/-- Witness for claim C20: the default parameters are degenerate ranges; the
spawn with other random values is the same. -/
theorem degenerate_range_uses_min_witness :
    spawnGuard object441 triggered = true ∧
      spawn linearCollab (constBuffer 100000) (resolveParams object441 []) otherDraws
          object441 triggered
        = spawn linearCollab (constBuffer 100000) (resolveParams object441 []) zeroDraws
          object441 triggered :=
  ⟨by decide,
    (degenerate_range_uses_min linearCollab (constBuffer 100000) (resolveParams object441 [])
      zeroDraws object441 triggered (by decide) firstGrain (by decide!)).2.2.2.2.2
      (by decide!) (by decide!) (by decide!) (by decide!) otherDraws⟩

/-! ## C21: the position of a new grain -/

/-- Claim C21 fails on the code: after a buffer-modified reset that interrupted
the grain of slot 0 at position 63, the second tick of the next block (the
ramp drops from 1 to 0) spawns a grain into slot 0, and immediately after the
spawn step, before the playback routine, that slot is busy with `grainpos`
63, not 0. -/
theorem spawned_grain_keeps_stale_grainpos :
    Reachable linearCollab staleEntry.x ∧
      spawnsGrain linearCollab (constBuffer 100000) (resolveParams staleObject []) 0 zeroDraws
        staleEntry.x staleEntry.loc = true ∧
      (staleEntry.x.grains.head?.map (fun g => (g.busy, g.grainpos))) = some (false, 63) ∧
      ((tickSpawn linearCollab (constBuffer 100000) (resolveParams staleObject []) 0 zeroDraws
          staleEntry.x staleEntry.loc).1.grains[(tickSpawn linearCollab (constBuffer 100000)
            (resolveParams staleObject []) 0 zeroDraws staleEntry.x staleEntry.loc).2.slot]?).map
        (fun g => (g.busy, g.grainpos, g.t_length)) = some (true, 63, 48) := by
  refine ⟨?_, by decide!, by decide!, by decide!⟩
  apply Reachable.tick
  apply Reachable.float
  apply Reachable.float
  apply Reachable.notify
  apply Reachable_perform64
  exact Reachable_object48 linearCollab

/-! ## C22: construction -/

/-- For a third argument that fits a `short` and a successful allocation the
constructor returns an object exactly when at least 3 arguments are given and
the third is in 1..128. -/
theorem new_isSome_iff_of_short (argc arg2 : Int) (attrs : AttrArgs) (sr : ℚ)
    (h1 : -32768 ≤ arg2) (h2 : arg2 ≤ 32767) :
    (cmgrainlabs_new argc arg2 attrs sr true).isSome = true ↔
      3 ≤ argc ∧ 1 ≤ arg2 ∧ arg2 ≤ 128 := by
  have hs : toShort arg2 = arg2 := by
    unfold toShort
    omega
  unfold cmgrainlabs_new ARGUMENTS MAXGRAINS
  simp only [hs]
  by_cases ha : argc < 3
  · rw [if_pos ha]
    simp only [Option.isSome_none, Bool.false_eq_true, false_iff]
    omega
  · rw [if_neg ha]
    by_cases hl : arg2 < 1 ∨ arg2 > ((128 : Nat) : Int)
    · rw [if_pos hl]
      simp only [Option.isSome_none, Bool.false_eq_true, false_iff]
      push_cast at hl
      omega
    · rw [if_neg hl]
      simp only [Bool.not_true, Bool.false_eq_true, if_false, Option.isSome_some, true_iff]
      push_cast at hl
      omega

/-- Claim C22 fails on the code: with three arguments whose third is 65537 the
constructor returns an object, with `grains_limit = 1`; the value is stored
into the `short` field before the range check. -/
theorem new_accepts_wrapped_limit :
    (cmgrainlabs_new 3 65537 noAttrs 48000 true).isSome = true ∧
      (cmgrainlabs_new 3 65537 noAttrs 48000 true).map (fun x => x.grains_limit) = some 1 ∧
      (cmgrainlabs_limit object48 65537).2 = true := by
  decide

/-! ## Lemmas on the free slot search -/

/-- Under the counting invariant an executed spawn finds a free slot below
`grains_limit`, claims it and leaves every other slot as it was. -/
theorem spawn_claims_free_slot (c : Collab) (b : t_buffer) (p : Params) (d : Draws)
    (x : t_cmgrainlabs) (loc : Locals) (h : CountInv x) (hg : spawnGuard x loc = true) :
    ∃ i g0, scanFree x.grains 0 x.grains_limit = some i ∧ (i : Int) < x.grains_limit ∧
      x.grains[i]? = some g0 ∧ g0.busy = false ∧
      (spawn c b p d x loc).2.slot = i ∧
      (spawn c b p d x loc).1.grains[i]?
        = some { writeGrain c x.m_sr b.framecount p d g0 with busy := true } ∧
      (∀ k, k ≠ i → (spawn c b p d x loc).1.grains[k]? = x.grains[k]?) := by
  obtain ⟨hlen, hlim, hcnt⟩ := h
  have hlt : x.grains_count < x.grains_limit := by
    simp only [spawnGuard, Bool.and_eq_true, decide_eq_true_eq] at hg
    exact hg.1.2
  cases hs : scanFree x.grains 0 x.grains_limit with
  | none =>
    exfalso
    have := scanFree_none x.grains 0 x.grains_limit hs (by rw [hlen]; simpa using hlim)
    simp at this
    omega
  | some i =>
    obtain ⟨_, hi, ⟨g0, hg0, hfree⟩, _⟩ := scanFree_some x.grains 0 x.grains_limit i hs
    simp only [Nat.sub_zero] at hg0
    refine ⟨i, g0, rfl, hi, hg0, hfree, ?_, ?_, ?_⟩
    · unfold spawn
      rw [if_pos hg]
      simp only [hs]
    · unfold spawn
      rw [if_pos hg]
      simp only [hs, updateSlot_getElem?_self, hg0, Option.map_some']
      rfl
    · intro k hk
      unfold spawn
      rw [if_pos hg]
      simp only [hs]
      exact updateSlot_getElem?_ne x.grains i k _ hk

/-! ## Lemmas on the life of a grain -/

theorem playSlot_getElem?_self (c : Collab) (b w : t_buffer) (i : Nat) (m : Mix)
    (g : cm_grainsinfo) (hg : m.x.grains[i]? = some g) (hb : g.busy = true) :
    (playSlot c b w i m).x.grains[i]? = some (advanced g) ∧
      (playSlot c b w i m).x.grains_count
        = if g.grainpos + 1 = g.t_length then max (m.x.grains_count - 1) 0
          else m.x.grains_count := by
  have hi : i < m.x.grains.length := (List.getElem?_eq_some_iff.mp hg).1
  unfold playSlot advanced
  simp only [hg]
  rw [if_pos hb]
  by_cases hr : g.grainpos + 1 = g.t_length
  · rw [if_pos hr, if_pos hr, if_pos hr]
    refine ⟨by simp [List.getElem?_set_self hi], ?_⟩
    simp only
    split_ifs <;> omega
  · rw [if_neg hr, if_neg hr, if_neg hr]
    exact ⟨by simp [List.getElem?_set_self hi], rfl⟩

theorem foldl_range_slot (c : Collab) (b w : t_buffer) (s : t_cmgrainlabs) (i : Nat)
    (g : cm_grainsinfo) (hg : s.grains[i]? = some g) (hb : g.busy = true) (n : Nat)
    (hn : i < n) :
    ((List.range n).foldl (fun m i => playSlot c b w i m)
      { x := s, outsample_left := 0, outsample_right := 0 }).x.grains[i]?
      = some (advanced g) := by
  induction n with
  | zero => omega
  | succ n ih =>
    rw [List.range_succ, List.foldl_append]
    simp only [List.foldl_cons, List.foldl_nil]
    by_cases hin : i = n
    · subst hin
      have h0 := (foldl_playSlot_range c b w s i).1 i (le_refl _)
      exact (playSlot_getElem?_self c b w i _ g (h0.trans hg) hb).1
    · rw [playSlot_getElem?_ne c b w n i _ (fun h => hin h.symm)]
      exact ih (by omega)

theorem playback_slot (c : Collab) (b w : t_buffer) (s : t_cmgrainlabs) (i : Nat)
    (g : cm_grainsinfo) (hc : s.grains_count ≠ 0) (hg : s.grains[i]? = some g)
    (hb : g.busy = true) (hi : (i : Int) < playLimit s) :
    (playback c b w s).x.grains[i]? = some (advanced g) := by
  unfold playback
  rw [if_neg hc]
  exact foldl_range_slot c b w s i g hg hb _ (by omega)

theorem countBusy_pos (gs : List cm_grainsinfo) (i : Nat) (g : cm_grainsinfo)
    (hg : gs[i]? = some g) (hb : g.busy = true) : 0 < countBusy gs := by
  unfold countBusy
  exact List.countP_pos_iff.mpr ⟨g, List.getElem?_mem hg, hb⟩

theorem mem_busyBelowLimit (s : t_cmgrainlabs) (i : Nat) (g : cm_grainsinfo)
    (hg : s.grains[i]? = some g) (hb : g.busy = true) (hi : (i : Int) < playLimit s) :
    g ∈ busyBelowLimit s := by
  unfold busyBelowLimit
  rw [List.mem_filter]
  refine ⟨?_, hb⟩
  have h1 : (s.grains.take (playLimit s).toNat)[i]? = some g := by
    rw [List.getElem?_take_of_lt (by omega)]
    exact hg
  exact List.getElem?_mem h1

theorem resetPlayback_buffer_modified (x : t_cmgrainlabs) :
    (resetPlayback x).buffer_modified = false := by
  unfold resetPlayback
  by_cases h : x.buffer_modified = true
  · rw [if_pos h]
  · rw [if_neg h]
    simpa using h

theorem spawn_buffer_modified (c : Collab) (b : t_buffer) (p : Params) (d : Draws)
    (x : t_cmgrainlabs) (loc : Locals) :
    (spawn c b p d x loc).1.buffer_modified = x.buffer_modified := by
  unfold spawn
  split_ifs
  · cases scanFree x.grains 0 x.grains_limit <;> rfl
  · rfl

theorem playSlot_buffer_modified (c : Collab) (b w : t_buffer) (i : Nat) (m : Mix) :
    (playSlot c b w i m).x.buffer_modified = m.x.buffer_modified := by
  unfold playSlot
  split
  · rfl
  · rename_i g hg
    by_cases hbusy : g.busy = true
    · rw [if_pos hbusy]
      by_cases hr : g.grainpos + 1 = g.t_length
      · rw [if_pos hr]
      · rw [if_neg hr]
    · rw [if_neg hbusy]

theorem foldl_playSlot_buffer_modified (c : Collab) (b w : t_buffer) (l : List Nat) (m : Mix) :
    (l.foldl (fun m i => playSlot c b w i m) m).x.buffer_modified = m.x.buffer_modified := by
  induction l generalizing m with
  | nil => rfl
  | cons i l ih => exact (ih _).trans (playSlot_buffer_modified c b w i m)

theorem tick_buffer_modified (c : Collab) (b w : t_buffer) (p : Params) (tr_curr : ℚ)
    (d : Draws) (x : t_cmgrainlabs) (loc : Locals) :
    (tick c b w p tr_curr d x loc).x.buffer_modified = false := by
  have h1 : (tickSpawn c b p tr_curr d x loc).1.buffer_modified = false := by
    unfold tickSpawn
    rw [spawn_buffer_modified]
    exact resetPlayback_buffer_modified x
  have h2 : (playback c b w (tickSpawn c b p tr_curr d x loc).1).x.buffer_modified = false := by
    unfold playback
    split_ifs
    · exact h1
    · rw [foldl_playSlot_buffer_modified]
      exact h1
  unfold tick resetLimitModified
  simp only
  split_ifs <;> exact h2

theorem CountInv_tickSpawn (c : Collab) (b : t_buffer) (p : Params) (tr_curr : ℚ) (d : Draws)
    (x : t_cmgrainlabs) (loc : Locals) (h : CountInv x) :
    CountInv (tickSpawn c b p tr_curr d x loc).1 := by
  unfold tickSpawn
  exact CountInv_spawn c b p d _ _ (CountInv_resetPlayback x h)

theorem playLimit_congr (x y : t_cmgrainlabs) (h1 : y.grains_limit = x.grains_limit)
    (h2 : y.grains_limit_old = x.grains_limit_old) (h3 : y.limit_modified = x.limit_modified) :
    playLimit y = playLimit x := by
  unfold playLimit
  rw [h1, h2, h3]

/-- A busy slot below the iteration limit after the spawn step of a tick, in a
tick entered from a reachable state: the grain is among the grains summed into
the outputs of the tick, the tick leaves the slot advanced, and while the slot
stays busy it stays below the iteration limit. -/
theorem tick_of_spawned_slot (c : Collab) (b w : t_buffer) (p : Params) (tr_curr : ℚ)
    (d : Draws) (x : t_cmgrainlabs) (loc : Locals) (i : Nat) (g : cm_grainsinfo)
    (hr : Reachable c x) (hs : (tickSpawn c b p tr_curr d x loc).1.grains[i]? = some g)
    (hb : g.busy = true) (hi : (i : Int) < playLimit (tickSpawn c b p tr_curr d x loc).1) :
    g ∈ busyBelowLimit (tickSpawn c b p tr_curr d x loc).1 ∧
      (tick c b w p tr_curr d x loc).out_left
        = ((busyBelowLimit (tickSpawn c b p tr_curr d x loc).1).map
            (leftSample c b w (tickSpawn c b p tr_curr d x loc).1)).sum ∧
      (tick c b w p tr_curr d x loc).out_right
        = ((busyBelowLimit (tickSpawn c b p tr_curr d x loc).1).map
            (rightSample c b w (tickSpawn c b p tr_curr d x loc).1)).sum ∧
      (tick c b w p tr_curr d x loc).x.grains[i]? = some (advanced g) ∧
      ((advanced g).busy = true → (i : Int) < playLimit (tick c b w p tr_curr d x loc).x) := by
  have hinv := CountInv_tickSpawn c b p tr_curr d x loc (CountInv_reachable c x hr)
  have hpos := countBusy_pos _ i g hs hb
  have hc : (tickSpawn c b p tr_curr d x loc).1.grains_count ≠ 0 := by
    rw [hinv.2.2]
    omega
  have hf := tick_fields c b w p tr_curr d x loc
  have ho := playback_out c b w _ hc
  have hsl := playback_slot c b w _ i g hc hs hb hi
  have hfin : (tick c b w p tr_curr d x loc).x.grains[i]? = some (advanced g) := by
    rw [hf.1]
    exact hsl
  refine ⟨mem_busyBelowLimit _ i g hs hb hi, by rw [hf.2.2.2.2.2.1]; exact ho.1,
    by rw [hf.2.2.2.2.2.2]; exact ho.2, hfin, ?_⟩
  intro hadv
  have hinv' := CountInv_reachable c _ (Reachable.tick b w p tr_curr d loc x hr)
  have hpos' := countBusy_pos _ i _ hfin hadv
  have hc' : (tick c b w p tr_curr d x loc).x.grains_count ≠ 0 := by
    rw [hinv'.2.2]
    omega
  have hlm : (tick c b w p tr_curr d x loc).x.limit_modified = x.limit_modified := by
    rw [hf.2.2.2.2.1, ← hf.2.1, if_neg hc']
  have hts := tickSpawn_limit c b p tr_curr d x loc
  rw [playLimit_congr x _ hf.2.2.1 hf.2.2.2.1 hlm,
    ← playLimit_congr x _ hts.1 hts.2.1 hts.2.2]
  exact hi

/-- A busy slot of a reachable state whose buffer-modified flag is clear is
still there, unchanged, after the spawn step of the next tick. -/
theorem tickSpawn_keeps_busy_slot (c : Collab) (b : t_buffer) (p : Params) (tr_curr : ℚ)
    (d : Draws) (x : t_cmgrainlabs) (loc : Locals) (i : Nat) (g : cm_grainsinfo)
    (hr : Reachable c x) (hm : x.buffer_modified = false) (hg : x.grains[i]? = some g)
    (hb : g.busy = true) :
    (tickSpawn c b p tr_curr d x loc).1.grains[i]? = some g := by
  have hre : resetPlayback x = x := by
    unfold resetPlayback
    rw [hm]
    simp
  unfold tickSpawn
  rw [hre]
  by_cases hgd : spawnGuard x { loc with trigger := detectTrigger x tr_curr loc.trigger } = true
  · obtain ⟨k, g0, _, _, hk, hfree, _, _, hother⟩ :=
      spawn_claims_free_slot c b p d x { loc with trigger := detectTrigger x tr_curr loc.trigger }
        (CountInv_reachable c x hr) hgd
    have hne : i ≠ k := by
      intro h
      rw [h, hk] at hg
      simp only [Option.some.injEq] at hg
      rw [hg, hb] at hfree
      exact Bool.noConfusion hfree
    rw [hother i hne]
    exact hg
  · rw [spawn_of_not_guard c b p d _ _ (by simpa using hgd)]
    exact hg

theorem advanced_of_lt (g : cm_grainsinfo) (n : Nat) (h : (n : Int) + 1 ≠ g.t_length) :
    advanced { g with grainpos := (n : Int) } = { g with grainpos := ((n + 1 : Nat) : Int) } := by
  unfold advanced
  simp only
  rw [if_neg h]
  push_cast
  rfl

theorem advanced_of_eq (g : cm_grainsinfo) (n : Nat) (h : (n : Int) + 1 = g.t_length) :
    advanced { g with grainpos := (n : Int) } = { g with grainpos := 0, busy := false } := by
  unfold advanced
  simp only
  rw [if_pos h]

/-- One further tick on a reachable state with a clear buffer-modified flag
and a busy slot below the iteration limit. -/
theorem tick_of_busy_slot (c : Collab) (b w : t_buffer) (p : Params) (tr_curr : ℚ)
    (d : Draws) (x : t_cmgrainlabs) (loc : Locals) (i : Nat) (g : cm_grainsinfo)
    (hr : Reachable c x) (hm : x.buffer_modified = false) (hg : x.grains[i]? = some g)
    (hb : g.busy = true) (hi : (i : Int) < playLimit x) :
    g ∈ busyBelowLimit (tickSpawn c b p tr_curr d x loc).1 ∧
      (tick c b w p tr_curr d x loc).out_left
        = ((busyBelowLimit (tickSpawn c b p tr_curr d x loc).1).map
            (leftSample c b w (tickSpawn c b p tr_curr d x loc).1)).sum ∧
      (tick c b w p tr_curr d x loc).out_right
        = ((busyBelowLimit (tickSpawn c b p tr_curr d x loc).1).map
            (rightSample c b w (tickSpawn c b p tr_curr d x loc).1)).sum ∧
      (tick c b w p tr_curr d x loc).x.grains[i]? = some (advanced g) ∧
      ((advanced g).busy = true → (i : Int) < playLimit (tick c b w p tr_curr d x loc).x) := by
  have hs := tickSpawn_keeps_busy_slot c b p tr_curr d x loc i g hr hm hg hb
  have hts := tickSpawn_limit c b p tr_curr d x loc
  have hi' : (i : Int) < playLimit (tickSpawn c b p tr_curr d x loc).1 := by
    rw [playLimit_congr x _ hts.1 hts.2.1 hts.2.2]
    exact hi
  exact tick_of_spawned_slot c b w p tr_curr d x loc i g hr hs hb hi'

theorem runEvents_ticks_slot (c : Collab) (i : Nat) (g : cm_grainsinfo) (hb : g.busy = true)
    (es : List Event) (hes : ∀ e ∈ es, isTick e = true) (y : t_cmgrainlabs) (n : Nat)
    (hr : Reachable c y) (hm : y.buffer_modified = false)
    (hy : y.grains[i]? = some { g with grainpos := (n : Int) })
    (hi : (i : Int) < playLimit y) (hlt : (n : Int) + es.length < g.t_length) :
    Reachable c (runEvents c y es) ∧ (runEvents c y es).buffer_modified = false ∧
      (runEvents c y es).grains[i]? = some { g with grainpos := ((n + es.length : Nat) : Int) } ∧
      (i : Int) < playLimit (runEvents c y es) := by
  induction es generalizing y n with
  | nil => exact ⟨hr, hm, hy, hi⟩
  | cons e es ih =>
    have he := hes e (List.mem_cons_self _ _)
    cases e with
    | tick b w p tr_curr d loc =>
      simp only [List.length_cons] at hlt
      push_cast at hlt
      have hne : (n : Int) + 1 ≠ g.t_length := by omega
      have ht := tick_of_busy_slot c b w p tr_curr d y loc i _ hr hm hy hb hi
      rw [advanced_of_lt g n hne] at ht
      have h := ih (fun e' he' => hes e' (List.mem_cons_of_mem _ he'))
        (tick c b w p tr_curr d y loc).x (n + 1)
        (Reachable.tick b w p tr_curr d loc y hr) (tick_buffer_modified c b w p tr_curr d y loc)
        ht.2.2.2.1 (ht.2.2.2.2 hb) (by push_cast; omega)
      have hl : n + 1 + es.length = n + (es.length + 1) := by omega
      rw [hl] at h
      exact h
    | limit arg => simp [isTick] at he
    | float inlet f => simp [isTick] at he
    | notify modified => simp [isTick] at he
    | set ac => simp [isTick] at he
    | dsp64 count samplerate => simp [isTick] at he
    | stereo_set av => simp [isTick] at he
    | winterp_set av => simp [isTick] at he
    | sinterp_set av => simp [isTick] at he
    | zero_set av => simp [isTick] at he

theorem runEvents_ticks_retire (c : Collab) (i : Nat) (g : cm_grainsinfo) (hb : g.busy = true)
    (es : List Event) (hes : ∀ e ∈ es, isTick e = true) (y : t_cmgrainlabs) (n : Nat)
    (hr : Reachable c y) (hm : y.buffer_modified = false)
    (hy : y.grains[i]? = some { g with grainpos := (n : Int) })
    (hi : (i : Int) < playLimit y) (hne : es ≠ [])
    (hlt : (n : Int) + es.length = g.t_length) :
    (runEvents c y es).grains[i]? = some { g with grainpos := 0, busy := false } := by
  induction es generalizing y n with
  | nil => exact absurd rfl hne
  | cons e es ih =>
    have he := hes e (List.mem_cons_self _ _)
    cases e with
    | tick b w p tr_curr d loc =>
      simp only [List.length_cons] at hlt
      push_cast at hlt
      have ht := tick_of_busy_slot c b w p tr_curr d y loc i _ hr hm hy hb hi
      by_cases hnil : es = []
      · subst hnil
        simp only [List.length_nil, Nat.cast_zero, zero_add] at hlt
        rw [advanced_of_eq g n hlt] at ht
        exact ht.2.2.2.1
      · have hne' : (n : Int) + 1 ≠ g.t_length := by
          have : 0 < es.length := List.length_pos.mpr hnil
          omega
        rw [advanced_of_lt g n hne'] at ht
        exact ih (fun e' he' => hes e' (List.mem_cons_of_mem _ he'))
          (tick c b w p tr_curr d y loc).x (n + 1)
          (Reachable.tick b w p tr_curr d loc y hr)
          (tick_buffer_modified c b w p tr_curr d y loc)
          ht.2.2.2.1 (ht.2.2.2.2 hb) hnil (by push_cast; omega)
    | limit arg => simp [isTick] at he
    | float inlet f => simp [isTick] at he
    | notify modified => simp [isTick] at he
    | set ac => simp [isTick] at he
    | dsp64 count samplerate => simp [isTick] at he
    | stereo_set av => simp [isTick] at he
    | winterp_set av => simp [isTick] at he
    | sinterp_set av => simp [isTick] at he
    | zero_set av => simp [isTick] at he

/-! ## C23: the life of a grain -/

/-- Claim C23: a slot `i` below the iteration limit that is busy with
`grainpos = 0` and `t_length = L >= 1` after the spawn step of a tick (the
spawn tick, with buffers present, entered from a reachable state), followed
by any further ticks `es` and nothing else (no notification, no limit
message).  After the spawn tick and the further ticks the position is the
number of ticks, as long as that is below `L`; the tick that makes it `L`
leaves the slot not busy with `grainpos = 0`.  In the spawn tick and in every
further tick that starts below `L` the grain is one of the grains summed into
both outputs.  Releasing a slot sets `grains_count` to the maximum of
`grains_count - 1` and 0. -/
theorem grain_lifecycle (c : Collab) (b w : t_buffer) (p : Params) (tr_curr : ℚ) (d : Draws)
    (x : t_cmgrainlabs) (loc : Locals) (i : Nat) (g : cm_grainsinfo) (hr : Reachable c x)
    (hs : (tickSpawn c b p tr_curr d x loc).1.grains[i]? = some g) (hb : g.busy = true)
    (hp : g.grainpos = 0) (hL : 1 ≤ g.t_length)
    (hi : (i : Int) < playLimit (tickSpawn c b p tr_curr d x loc).1)
    (es : List Event) (hes : ∀ e ∈ es, isTick e = true) :
    (((es.length : Int) + 1 < g.t_length →
        (runEvents c (tick c b w p tr_curr d x loc).x es).grains[i]?
          = some { g with grainpos := ((es.length + 1 : Nat) : Int) }) ∧
      ((es.length : Int) + 1 = g.t_length →
        (runEvents c (tick c b w p tr_curr d x loc).x es).grains[i]?
          = some { g with grainpos := 0, busy := false })) ∧
    (g ∈ busyBelowLimit (tickSpawn c b p tr_curr d x loc).1 ∧
      (tick c b w p tr_curr d x loc).out_left
        = ((busyBelowLimit (tickSpawn c b p tr_curr d x loc).1).map
            (leftSample c b w (tickSpawn c b p tr_curr d x loc).1)).sum ∧
      (tick c b w p tr_curr d x loc).out_right
        = ((busyBelowLimit (tickSpawn c b p tr_curr d x loc).1).map
            (rightSample c b w (tickSpawn c b p tr_curr d x loc).1)).sum) ∧
    (∀ (b' w' : t_buffer) (p' : Params) (tr' : ℚ) (d' : Draws) (loc' : Locals),
      (es.length : Int) + 1 < g.t_length →
      { g with grainpos := ((es.length + 1 : Nat) : Int) }
          ∈ busyBelowLimit (tickSpawn c b' p' tr' d'
              (runEvents c (tick c b w p tr_curr d x loc).x es) loc').1 ∧
        (tick c b' w' p' tr' d' (runEvents c (tick c b w p tr_curr d x loc).x es) loc').out_left
          = ((busyBelowLimit (tickSpawn c b' p' tr' d'
                (runEvents c (tick c b w p tr_curr d x loc).x es) loc').1).map
              (leftSample c b' w' (tickSpawn c b' p' tr' d'
                (runEvents c (tick c b w p tr_curr d x loc).x es) loc').1)).sum ∧
        (tick c b' w' p' tr' d' (runEvents c (tick c b w p tr_curr d x loc).x es) loc').out_right
          = ((busyBelowLimit (tickSpawn c b' p' tr' d'
                (runEvents c (tick c b w p tr_curr d x loc).x es) loc').1).map
              (rightSample c b' w' (tickSpawn c b' p' tr' d'
                (runEvents c (tick c b w p tr_curr d x loc).x es) loc').1)).sum) ∧
    (∀ (m : Mix) (g' : cm_grainsinfo), m.x.grains[i]? = some g' → g'.busy = true →
      g'.grainpos + 1 = g'.t_length →
      (playSlot c b w i m).x.grains[i]? = some { g' with grainpos := 0, busy := false } ∧
        (playSlot c b w i m).x.grains_count = max (m.x.grains_count - 1) 0) := by
  have hg0 : g = { g with grainpos := ((0 : Nat) : Int) } := by
    cases g
    simp only at hp
    subst hp
    rfl
  have ht := tick_of_spawned_slot c b w p tr_curr d x loc i g hr hs hb hi
  have hr1 : Reachable c (tick c b w p tr_curr d x loc).x :=
    Reachable.tick b w p tr_curr d loc x hr
  have hm1 := tick_buffer_modified c b w p tr_curr d x loc
  -- the state after the spawn tick while the grain is alive
  have halive : (1 : Int) < g.t_length →
      (tick c b w p tr_curr d x loc).x.grains[i]?
          = some { g with grainpos := ((1 : Nat) : Int) } ∧
        (i : Int) < playLimit (tick c b w p tr_curr d x loc).x := by
    intro h1
    have hadv : advanced g = { g with grainpos := ((0 + 1 : Nat) : Int) } := by
      have := advanced_of_lt g 0 (by push_cast; omega)
      rw [← hg0] at this
      exact this
    have h4 := ht.2.2.2.1
    have h5 := ht.2.2.2.2
    rw [hadv] at h4 h5
    exact ⟨h4, h5 hb⟩
  have hrun : (es.length : Int) + 1 < g.t_length →
      Reachable c (runEvents c (tick c b w p tr_curr d x loc).x es) ∧
        (runEvents c (tick c b w p tr_curr d x loc).x es).buffer_modified = false ∧
        (runEvents c (tick c b w p tr_curr d x loc).x es).grains[i]?
          = some { g with grainpos := ((es.length + 1 : Nat) : Int) } ∧
        (i : Int) < playLimit (runEvents c (tick c b w p tr_curr d x loc).x es) := by
    intro hlt
    have h1 : (1 : Int) < g.t_length := by omega
    have h := runEvents_ticks_slot c i g hb es hes (tick c b w p tr_curr d x loc).x 1 hr1 hm1
      (halive h1).1 (halive h1).2 (by push_cast; omega)
    have hl : 1 + es.length = es.length + 1 := by omega
    rw [hl] at h
    exact h
  refine ⟨⟨fun hlt => (hrun hlt).2.2.1, ?_⟩, ⟨ht.1, ht.2.1, ht.2.2.1⟩, ?_, ?_⟩
  · intro heq
    by_cases hnil : es = []
    · subst hnil
      simp only [List.length_nil, Nat.cast_zero, zero_add] at heq
      have hadv : advanced g = { g with grainpos := 0, busy := false } := by
        have := advanced_of_eq g 0 (by push_cast; omega)
        rw [← hg0] at this
        exact this
      have h4 := ht.2.2.2.1
      rw [hadv] at h4
      exact h4
    · have hpos : 0 < es.length := List.length_pos.mpr hnil
      have h1 : (1 : Int) < g.t_length := by omega
      exact runEvents_ticks_retire c i g hb es hes (tick c b w p tr_curr d x loc).x 1 hr1 hm1
        (halive h1).1 (halive h1).2 hnil (by push_cast; omega)
  · intro b' w' p' tr' d' loc' hlt
    obtain ⟨hry, hmy, hgy, hiy⟩ := hrun hlt
    have h := tick_of_busy_slot c b' w' p' tr' d' _ loc' i _ hry hmy hgy hb hiy
    exact ⟨h.1, h.2.1, h.2.2.1⟩
  · intro m g' hg' hb' hret
    have h := playSlot_getElem?_self c b w i m g' hg' hb'
    unfold advanced at h
    rw [if_pos hret, if_pos hret] at h
    exact h

/-- Witness for claim C23: a grain of 2 samples is released by the tick after
its spawn tick. -/
theorem grain_lifecycle_witness :
    (tickSpawn linearCollab (constBuffer 100) shortGrainParams 0 zeroDraws object1k
        triggered).1.grains[0]? = some shortGrain ∧
      (runEvents linearCollab
        (tick linearCollab (constBuffer 100) (constBuffer 512) shortGrainParams 0 zeroDraws
          object1k triggered).x
        [Event.tick (constBuffer 100) (constBuffer 512) shortGrainParams 0 zeroDraws
          blockStart]).grains[0]?
        = some { shortGrain with grainpos := 0, busy := false } :=
  ⟨by decide!,
    (grain_lifecycle linearCollab (constBuffer 100) (constBuffer 512) shortGrainParams 0
      zeroDraws object1k triggered 0 shortGrain
      (Reachable.new 3 4 noAttrs 1000 true object1k (Option.some_get _).symm)
      (by decide!) (by decide) (by decide) (by decide) (by decide!)
      [Event.tick (constBuffer 100) (constBuffer 512) shortGrainParams 0 zeroDraws blockStart]
      (by intro e he; simp at he; rw [he]; rfl)).1.2 (by decide)⟩

/-! ## C24: busy slots and the iteration limit -/

theorem Reachable_object48two (c : Collab) : Reachable c object48two :=
  Reachable.new 3 2 noAttrs 48000 true object48two (Option.some_get _).symm

/-- Claim C24 fails on the code: two grains play in slots 0 and 1 under limit
2 and the accepted message `limit 1` arrives twice; the second message
overwrites `grains_limit_old` with 1, so the iteration limit is 1 while slot 1
is busy. In the next block slot 0 advances from 3 to 7 and slot 1 stays at
position 1. -/
theorem busy_slot_above_iteration_limit :
    Reachable linearCollab twiceLimited ∧
      (twiceLimited.limit_modified, twiceLimited.grains_limit_old, twiceLimited.grains_limit,
        playLimit twiceLimited) = (true, 1, 1, 1) ∧
      twiceLimited.grains[1]?.map (fun g => (g.busy, g.grainpos, g.t_length))
        = some (true, 1, 7200) ∧
      stuckBlock.x.grains[0]?.map (fun g => (g.busy, g.grainpos)) = some (true, 7) ∧
      stuckBlock.x.grains[1]?.map (fun g => (g.busy, g.grainpos)) = some (true, 1) := by
  refine ⟨?_, by decide!, by decide!, by decide!, by decide!⟩
  apply Reachable.limit
  apply Reachable.limit
  apply Reachable_perform64
  exact Reachable_object48two linearCollab

/-! ## C25: the free slot search never falls through -/

/-- Claim C25: in every reachable state in which the spawn guard holds, be it
at the state itself or inside a tick after the buffer-modified reset, some
slot below `grains_limit` is not busy: the free slot search returns such a
slot, `slot` becomes its index, the new grain is written there with the busy
flag set, and no other slot is written. -/
theorem scan_never_falls_through (c : Collab) (x : t_cmgrainlabs) (hr : Reachable c x)
    (b : t_buffer) (p : Params) (d : Draws) (loc : Locals) :
    (spawnGuard x loc = true →
      ∃ i g0, scanFree x.grains 0 x.grains_limit = some i ∧ (i : Int) < x.grains_limit ∧
        x.grains[i]? = some g0 ∧ g0.busy = false ∧
        (spawn c b p d x loc).2.slot = i ∧
        (spawn c b p d x loc).1.grains[i]?
          = some { writeGrain c x.m_sr b.framecount p d g0 with busy := true } ∧
        (∀ k, k ≠ i → (spawn c b p d x loc).1.grains[k]? = x.grains[k]?)) ∧
    (∀ tr_curr : ℚ, spawnsGrain c b p tr_curr d x loc = true →
      ∃ i g0, scanFree (resetPlayback x).grains 0 (resetPlayback x).grains_limit = some i ∧
        (i : Int) < x.grains_limit ∧
        (resetPlayback x).grains[i]? = some g0 ∧ g0.busy = false ∧
        (tickSpawn c b p tr_curr d x loc).2.slot = i ∧
        (tickSpawn c b p tr_curr d x loc).1.grains[i]?
          = some { writeGrain c x.m_sr b.framecount p d g0 with busy := true } ∧
        (∀ k, k ≠ i →
          (tickSpawn c b p tr_curr d x loc).1.grains[k]? = (resetPlayback x).grains[k]?)) := by
  have hinv := CountInv_reachable c x hr
  constructor
  · intro hg
    exact spawn_claims_free_slot c b p d x loc hinv hg
  · intro tr_curr hsp
    rw [spawnsGrain_eq_guard] at hsp
    obtain ⟨i, g0, h1, h2, h3, h4, h5, h6, h7⟩ :=
      spawn_claims_free_slot c b p d (resetPlayback x)
        { loc with trigger := detectTrigger x tr_curr loc.trigger }
        (CountInv_resetPlayback x hinv) hsp
    have hm : (resetPlayback x).m_sr = x.m_sr := by
      unfold resetPlayback
      split_ifs <;> rfl
    rw [(resetPlayback_limit x).1] at h2
    rw [hm] at h6
    exact ⟨i, g0, h1, h2, h3, h4, h5, h6, h7⟩

/-- Witness for claim C25: the first trigger on a fresh object. -/
theorem scan_never_falls_through_witness :
    Reachable linearCollab object441 ∧ spawnGuard object441 triggered = true ∧
      ∃ i g0, scanFree object441.grains 0 object441.grains_limit = some i ∧
        (i : Int) < object441.grains_limit ∧
        object441.grains[i]? = some g0 ∧ g0.busy = false ∧
        (spawn linearCollab (constBuffer 100000) (resolveParams object441 []) zeroDraws
          object441 triggered).2.slot = i ∧
        (spawn linearCollab (constBuffer 100000) (resolveParams object441 []) zeroDraws
          object441 triggered).1.grains[i]?
          = some { writeGrain linearCollab object441.m_sr (constBuffer 100000).framecount
              (resolveParams object441 []) zeroDraws g0 with busy := true } ∧
        (∀ k, k ≠ i →
          (spawn linearCollab (constBuffer 100000) (resolveParams object441 []) zeroDraws
            object441 triggered).1.grains[k]? = object441.grains[k]?) :=
  ⟨Reachable_object441 linearCollab, by decide,
    (scan_never_falls_through linearCollab object441 (Reachable_object441 linearCollab)
      (constBuffer 100000) (resolveParams object441 []) zeroDraws triggered).1 (by decide)⟩

/-! ## C26: the window index -/

/-- Claim C26: for a grain with `t_length >= 1` at a position
`0 <= grainpos < t_length` and a window of `w_framecount >= 1` frames, the
window sample read with window interpolation off is the one at index
`trunc((grainpos / t_length) * w_framecount)`, and this index is at least 0,
below `w_framecount`, and 0 at position 0. -/
theorem window_index_in_range (c : Collab) (w : t_buffer) (x : t_cmgrainlabs)
    (g : cm_grainsinfo) (hw : x.attr_winterp = false) (ht : 1 ≤ g.t_length)
    (hp0 : 0 ≤ g.grainpos) (hp : g.grainpos < g.t_length) (hf : 1 ≤ w.framecount) :
    windowRead c w x g
        = w.sample (toLong (((g.grainpos : ℚ) / (g.t_length : ℚ)) * (w.framecount : ℚ))) ∧
      0 ≤ toLong (((g.grainpos : ℚ) / (g.t_length : ℚ)) * (w.framecount : ℚ)) ∧
      toLong (((g.grainpos : ℚ) / (g.t_length : ℚ)) * (w.framecount : ℚ)) < w.framecount ∧
      (g.grainpos = 0 →
        toLong (((g.grainpos : ℚ) / (g.t_length : ℚ)) * (w.framecount : ℚ)) = 0) := by
  have htq : (0 : ℚ) < (g.t_length : ℚ) := by
    have : (0 : Int) < g.t_length := by omega
    exact_mod_cast this
  have hq0 : (0 : ℚ) ≤ (g.grainpos : ℚ) / (g.t_length : ℚ) :=
    div_nonneg (by exact_mod_cast hp0) htq.le
  have hq1 : (g.grainpos : ℚ) / (g.t_length : ℚ) < 1 := by
    rw [div_lt_one htq]
    exact_mod_cast hp
  have hfq : (0 : ℚ) < (w.framecount : ℚ) := by
    have : (0 : Int) < w.framecount := by omega
    exact_mod_cast this
  have hv0 : (0 : ℚ) ≤ (g.grainpos : ℚ) / (g.t_length : ℚ) * (w.framecount : ℚ) :=
    mul_nonneg hq0 hfq.le
  have hv1 : (g.grainpos : ℚ) / (g.t_length : ℚ) * (w.framecount : ℚ) < (w.framecount : ℚ) := by
    have := mul_lt_mul_of_pos_right hq1 hfq
    linarith
  refine ⟨?_, ?_, ?_, ?_⟩
  · unfold windowRead
    rw [hw]
    simp
  · exact toLong_nonneg hv0
  · unfold toLong
    rw [if_pos hv0]
    exact Int.floor_lt.mpr hv1
  · intro h0
    rw [h0]
    unfold toLong
    simp

/-- Witness for claim C26: the grain of the first spawn at position 0 and a
window of 512 frames. -/
theorem window_index_in_range_witness :
    object441.attr_winterp = false ∧ (1 : Int) ≤ firstGrain.t_length ∧
      toLong (((firstGrain.grainpos : ℚ) / (firstGrain.t_length : ℚ))
        * ((constBuffer 512).framecount : ℚ)) < (constBuffer 512).framecount :=
  ⟨by decide, by decide,
    (window_index_in_range linearCollab (constBuffer 512) object441 firstGrain (by decide)
      (by decide) (by decide) (by decide) (by decide)).2.2.1⟩

/-! ## Lemmas on the ticks of a block -/

theorem dspLoop_getElem? (c : Collab) (b w : t_buffer) (p : Params) (rnd : Nat → Draws)
    (sig : List ℚ) (k0 : Nat) (x : t_cmgrainlabs) (loc : Locals) (k : Nat)
    (hk : k < sig.length) :
    (dspLoop c b w p rnd sig k0 x loc)[k]?
      = some (tick c b w p (sig.getD k 0) (rnd (k0 + k))
          (tickEntry c b w p rnd sig k0 x loc k).1 (tickEntry c b w p rnd sig k0 x loc k).2) := by
  induction sig generalizing k0 x loc k with
  | nil => simp at hk
  | cons tr rest ih =>
    cases k with
    | zero => simp [dspLoop, tickEntry]
    | succ k' =>
      simp only [dspLoop, List.getElem?_cons_succ, tickEntry, List.getD_cons_succ]
      rw [ih (k0 + 1) _ _ k' (by simpa using hk)]
      have : k0 + 1 + k' = k0 + (k' + 1) := by omega
      rw [this]

theorem tickEntry_succ (c : Collab) (b w : t_buffer) (p : Params) (rnd : Nat → Draws)
    (sig : List ℚ) (k0 : Nat) (x : t_cmgrainlabs) (loc : Locals) (k : Nat)
    (hk : k < sig.length) :
    tickEntry c b w p rnd sig k0 x loc (k + 1)
      = ((tick c b w p (sig.getD k 0) (rnd (k0 + k))
            (tickEntry c b w p rnd sig k0 x loc k).1
            (tickEntry c b w p rnd sig k0 x loc k).2).x,
         (tick c b w p (sig.getD k 0) (rnd (k0 + k))
            (tickEntry c b w p rnd sig k0 x loc k).1
            (tickEntry c b w p rnd sig k0 x loc k).2).loc) := by
  induction sig generalizing k0 x loc k with
  | nil => simp at hk
  | cons tr rest ih =>
    cases k with
    | zero => simp [tickEntry]
    | succ k' =>
      have h := ih (k0 + 1) (tick c b w p tr (rnd k0) x loc).x
        (tick c b w p tr (rnd k0) x loc).loc k' (by simpa using hk)
      have he : k0 + 1 + k' = k0 + (k' + 1) := by omega
      rw [he] at h
      simp only [tickEntry, List.getD_cons_succ]
      exact h

theorem tickSpawn_trigger (c : Collab) (b : t_buffer) (p : Params) (tr_curr : ℚ) (d : Draws)
    (x : t_cmgrainlabs) (loc : Locals) :
    (tickSpawn c b p tr_curr d x loc).2.trigger
      = if spawnsGrain c b p tr_curr d x loc = true then false
        else (detectorFires x tr_curr || loc.trigger) := by
  rw [spawnsGrain_eq_guard]
  unfold tickSpawn spawn
  by_cases hg : spawnGuard (resetPlayback x)
      { loc with trigger := detectTrigger x tr_curr loc.trigger } = true
  · rw [if_pos hg, if_pos hg]
    cases scanFree (resetPlayback x).grains 0 (resetPlayback x).grains_limit <;> rfl
  · rw [if_neg hg, if_neg hg]
    simp only [detectTrigger]
    cases detectorFires x tr_curr <;> simp

theorem spawnsGrain_iff (c : Collab) (b : t_buffer) (p : Params) (tr_curr : ℚ) (d : Draws)
    (x : t_cmgrainlabs) (loc : Locals) :
    spawnsGrain c b p tr_curr d x loc = true ↔
      ((resetPlayback x).grains_count < x.grains_limit ∧ x.limit_modified = false) ∧
        (detectorFires x tr_curr = true ∨ loc.trigger = true) := by
  rw [spawnsGrain_eq_guard]
  unfold spawnGuard
  rw [(resetPlayback_limit x).1, (resetPlayback_limit x).2]
  simp only [detectTrigger, Bool.and_eq_true, decide_eq_true_eq, Bool.not_eq_true']
  by_cases hf : detectorFires x tr_curr = true <;> by_cases ht : loc.trigger = true <;>
    simp [hf, ht, and_assoc]

/-- The trigger flag at the entry of tick `k` of a block that starts with the
flag clear is set exactly when the detector fired at an earlier tick `j` and
no grain was spawned on the ticks `j..k-1`. -/
theorem entry_trigger_iff (c : Collab) (b w : t_buffer) (p : Params) (rnd : Nat → Draws)
    (sig : List ℚ) (x : t_cmgrainlabs) (slot : Nat) (k : Nat) (hk : k ≤ sig.length) :
    (tickEntry c b w p rnd sig 0 x { trigger := false, slot := slot } k).2.trigger = true ↔
      ∃ j, j < k ∧
        detectorFires (tickEntry c b w p rnd sig 0 x { trigger := false, slot := slot } j).1
          (sig.getD j 0) = true ∧
        ∀ m, j ≤ m → m < k →
          spawnsGrain c b p (sig.getD m 0) (rnd m)
            (tickEntry c b w p rnd sig 0 x { trigger := false, slot := slot } m).1
            (tickEntry c b w p rnd sig 0 x { trigger := false, slot := slot } m).2 = false := by
  induction k with
  | zero =>
    have h0 : (tickEntry c b w p rnd sig 0 x { trigger := false, slot := slot } 0).2.trigger
        = false := by
      cases sig <;> rfl
    rw [h0]
    simp
  | succ k ih =>
    have hk' : k < sig.length := by omega
    have hstep := tickEntry_succ c b w p rnd sig 0 x { trigger := false, slot := slot } k hk'
    simp only [Nat.zero_add] at hstep
    have htr : (tickEntry c b w p rnd sig 0 x { trigger := false, slot := slot } (k + 1)).2.trigger
        = if spawnsGrain c b p (sig.getD k 0) (rnd k)
              (tickEntry c b w p rnd sig 0 x { trigger := false, slot := slot } k).1
              (tickEntry c b w p rnd sig 0 x { trigger := false, slot := slot } k).2 = true
            then false
          else (detectorFires
              (tickEntry c b w p rnd sig 0 x { trigger := false, slot := slot } k).1
              (sig.getD k 0)
            || (tickEntry c b w p rnd sig 0 x { trigger := false, slot := slot } k).2.trigger) := by
      rw [hstep]
      exact tickSpawn_trigger c b p (sig.getD k 0) (rnd k) _ _
    rw [htr]
    have ih' := ih (by omega)
    constructor
    · intro h
      by_cases hs : spawnsGrain c b p (sig.getD k 0) (rnd k)
            (tickEntry c b w p rnd sig 0 x { trigger := false, slot := slot } k).1
            (tickEntry c b w p rnd sig 0 x { trigger := false, slot := slot } k).2 = true
      · rw [if_pos hs] at h
        exact absurd h (by simp)
      · rw [if_neg hs] at h
        have hs' := Bool.eq_false_iff.mpr hs
        rw [Bool.or_eq_true] at h
        rcases h with hf | ht
        · refine ⟨k, by omega, hf, ?_⟩
          intro m hm1 hm2
          have : m = k := by omega
          rw [this]
          exact hs'
        · obtain ⟨j, hj, hfj, hno⟩ := ih'.mp ht
          refine ⟨j, by omega, hfj, ?_⟩
          intro m hm1 hm2
          by_cases hmk : m = k
          · rw [hmk]
            exact hs'
          · exact hno m hm1 (by omega)
    · rintro ⟨j, hj, hfj, hno⟩
      have hs' := hno k (by omega) (by omega)
      rw [if_neg (by rw [hs']; simp)]
      rw [Bool.or_eq_true]
      by_cases hjk : j = k
      · left
        rw [← hjk]
        exact hfj
      · right
        exact ih'.mpr ⟨j, by omega, hfj, fun m hm1 hm2 => hno m hm1 (by omega)⟩

/-! ## C27: the latched trigger flag -/

/-- Claim C27: in a block (the DSP loop started with the trigger flag clear,
as the perform routine does), tick `k` is the tick computed by the loop from
the entry state `tickEntry k`, and a grain is spawned on it exactly when
`grains_count < grains_limit` (after the buffer-modified reset) and
`limit_modified` is clear at tick `k` and the detector fired at some tick
`j <= k` of the block with no spawn on the ticks `j..k-1`.  The flag is a local
of the routine: the block result keeps the object only, and every block runs
the loop from a clear flag. -/
theorem trigger_latched_within_block (c : Collab) (b w : t_buffer) (p : Params)
    (rnd : Nat → Draws) (sig : List ℚ) (x : t_cmgrainlabs) :
    (∀ k, k < sig.length →
      (dspLoop c b w p rnd sig 0 x { trigger := false, slot := 0 })[k]?
        = some (tick c b w p (sig.getD k 0) (rnd k)
            (tickEntry c b w p rnd sig 0 x { trigger := false, slot := 0 } k).1
            (tickEntry c b w p rnd sig 0 x { trigger := false, slot := 0 } k).2) ∧
      (spawnsGrain c b p (sig.getD k 0) (rnd k)
          (tickEntry c b w p rnd sig 0 x { trigger := false, slot := 0 } k).1
          (tickEntry c b w p rnd sig 0 x { trigger := false, slot := 0 } k).2 = true ↔
        ((resetPlayback (tickEntry c b w p rnd sig 0 x { trigger := false, slot := 0 } k).1).grains_count
            < (tickEntry c b w p rnd sig 0 x { trigger := false, slot := 0 } k).1.grains_limit ∧
          (tickEntry c b w p rnd sig 0 x { trigger := false, slot := 0 } k).1.limit_modified
            = false) ∧
        ∃ j, j ≤ k ∧
          detectorFires (tickEntry c b w p rnd sig 0 x { trigger := false, slot := 0 } j).1
            (sig.getD j 0) = true ∧
          ∀ m, j ≤ m → m < k →
            spawnsGrain c b p (sig.getD m 0) (rnd m)
              (tickEntry c b w p rnd sig 0 x { trigger := false, slot := 0 } m).1
              (tickEntry c b w p rnd sig 0 x { trigger := false, slot := 0 } m).2 = false)) ∧
    (∀ (ins : List (List ℚ)),
      (cmgrainlabs_perform64 c x (some b) (some w) ins rnd).x
        = (((dspLoop c b w (resolveParams x ins) rnd (ins.getD 0 []) 0 x
            { trigger := false, slot := 0 }).getLast?).map (fun r => r.x)).getD x) := by
  constructor
  · intro k hk
    refine ⟨?_, ?_⟩
    · have h := dspLoop_getElem? c b w p rnd sig 0 x { trigger := false, slot := 0 } k hk
      simp only [Nat.zero_add] at h
      exact h
    · rw [spawnsGrain_iff, entry_trigger_iff c b w p rnd sig x 0 k (by omega)]
      constructor
      · rintro ⟨hguard, hf | ⟨j, hj, hfj, hno⟩⟩
        · exact ⟨hguard, k, le_refl _, hf, fun m hm1 hm2 => by omega⟩
        · exact ⟨hguard, j, by omega, hfj, hno⟩
      · rintro ⟨hguard, j, hj, hfj, hno⟩
        refine ⟨hguard, ?_⟩
        by_cases hjk : j = k
        · left
          rw [← hjk]
          exact hfj
        · right
          exact ⟨j, by omega, hfj, hno⟩
  · intro ins
    rfl

/-- Witness for claim C27: in the block `[1, 0]` on a fresh object the grain
spawned on the second tick comes from a detection at some tick `j <= 1`. -/
theorem trigger_latched_within_block_witness :
    ∃ j, j ≤ 1 ∧
      detectorFires (tickEntry linearCollab (constBuffer 100000) (constBuffer 512)
        (resolveParams object441 []) (fun _ => zeroDraws) [1, 0] 0 object441
        { trigger := false, slot := 0 } j).1 (([1, 0] : List ℚ).getD j 0) = true ∧
      ∀ m, j ≤ m → m < 1 →
        spawnsGrain linearCollab (constBuffer 100000) (resolveParams object441 [])
          (([1, 0] : List ℚ).getD m 0) zeroDraws
          (tickEntry linearCollab (constBuffer 100000) (constBuffer 512)
            (resolveParams object441 []) (fun _ => zeroDraws) [1, 0] 0 object441
            { trigger := false, slot := 0 } m).1
          (tickEntry linearCollab (constBuffer 100000) (constBuffer 512)
            (resolveParams object441 []) (fun _ => zeroDraws) [1, 0] 0 object441
            { trigger := false, slot := 0 } m).2 = false :=
  ((((trigger_latched_within_block linearCollab (constBuffer 100000) (constBuffer 512)
    (resolveParams object441 []) (fun _ => zeroDraws) [1, 0] object441).1 1 (by decide)).2).mp
    (by decide!)).2

/-! ## The length invariant -/

theorem drawLength_le_trunc (c : Collab) (m_sr : ℚ) (p : Params) (d : Draws) (h : 0 < m_sr) :
    drawLength c m_sr p d ≤ toLong (MAX_GRAINLENGTH * m_sr) := by
  have h300 : (0 : ℚ) ≤ MAX_GRAINLENGTH * m_sr := by unfold MAX_GRAINLENGTH; positivity
  unfold toLong
  rw [if_pos h300]
  exact Int.le_floor.mpr (drawLength_upper c m_sr p d h)

theorem drawLength_ge_one (c : Collab) (m_sr : ℚ) (p : Params) (d : Draws) (h : 1 ≤ m_sr) :
    1 ≤ drawLength c m_sr p d := by
  have hlow := drawLength_lower c m_sr p d (by linarith)
  have h1 : 1 ≤ toLong (MIN_GRAINLENGTH * m_sr) := by
    unfold toLong MIN_GRAINLENGTH
    rw [if_pos (by linarith)]
    exact Int.le_floor.mpr (by push_cast; linarith)
  omega

theorem resetPlayback_m_sr (x : t_cmgrainlabs) : (resetPlayback x).m_sr = x.m_sr := by
  unfold resetPlayback
  split_ifs <;> rfl

theorem spawn_m_sr (c : Collab) (b : t_buffer) (p : Params) (d : Draws) (x : t_cmgrainlabs)
    (loc : Locals) : (spawn c b p d x loc).1.m_sr = x.m_sr := by
  unfold spawn
  split_ifs
  · cases scanFree x.grains 0 x.grains_limit <;> rfl
  · rfl

theorem playSlot_m_sr (c : Collab) (b w : t_buffer) (i : Nat) (m : Mix) :
    (playSlot c b w i m).x.m_sr = m.x.m_sr := by
  unfold playSlot
  split
  · rfl
  · rename_i g hg
    by_cases hbusy : g.busy = true
    · rw [if_pos hbusy]
      by_cases hr : g.grainpos + 1 = g.t_length
      · rw [if_pos hr]
      · rw [if_neg hr]
    · rw [if_neg hbusy]

theorem BusyLengthInv_resetPlayback (x : t_cmgrainlabs) (h : BusyLengthInv x) :
    BusyLengthInv (resetPlayback x) := by
  refine ⟨by rw [resetPlayback_m_sr]; exact h.1, ?_⟩
  intro g hg hb
  unfold resetPlayback at hg
  split_ifs at hg
  · simp only [List.mem_map] at hg
    obtain ⟨g0, _, rfl⟩ := hg
    simp at hb
  · exact h.2 g hg hb

theorem updateSlot_mem (gs : List cm_grainsinfo) (i : Nat) (f : cm_grainsinfo → cm_grainsinfo)
    (g : cm_grainsinfo) (h : g ∈ updateSlot gs i f) : g ∈ gs ∨ ∃ g0, g = f g0 := by
  unfold updateSlot at h
  split at h
  · rename_i g0 _
    rcases List.mem_or_eq_of_mem_set h with h1 | h1
    · exact Or.inl h1
    · exact Or.inr ⟨g0, h1⟩
  · exact Or.inl h

theorem BusyLengthInv_spawn (c : Collab) (b : t_buffer) (p : Params) (d : Draws)
    (x : t_cmgrainlabs) (loc : Locals) (h : BusyLengthInv x) :
    BusyLengthInv (spawn c b p d x loc).1 := by
  refine ⟨by rw [spawn_m_sr]; exact h.1, ?_⟩
  have hw : ∀ g0, 1 ≤ (writeGrain c x.m_sr b.framecount p d g0).t_length := by
    intro g0
    simp only [writeGrain]
    exact drawLength_ge_one c x.m_sr p d h.1
  intro g hg hb
  unfold spawn at hg
  split_ifs at hg
  · cases hs : scanFree x.grains 0 x.grains_limit with
    | none =>
      simp only [hs] at hg
      rcases updateSlot_mem _ _ _ _ hg with h1 | ⟨g0, rfl⟩
      · exact h.2 g h1 hb
      · exact hw g0
    | some i =>
      simp only [hs] at hg
      rcases updateSlot_mem _ _ _ _ hg with h1 | ⟨g0, rfl⟩
      · exact h.2 g h1 hb
      · exact hw _
  · exact h.2 g hg hb

theorem BusyLengthInv_playSlot (c : Collab) (b w : t_buffer) (i : Nat) (m : Mix)
    (h : BusyLengthInv m.x) : BusyLengthInv (playSlot c b w i m).x := by
  refine ⟨by rw [playSlot_m_sr]; exact h.1, ?_⟩
  intro g' hg' hb'
  unfold playSlot at hg'
  split at hg'
  · exact h.2 g' hg' hb'
  · rename_i g hg
    have hmem : g ∈ m.x.grains := List.getElem?_mem hg
    by_cases hbusy : g.busy = true
    · rw [if_pos hbusy] at hg'
      by_cases hr : g.grainpos + 1 = g.t_length
      · rw [if_pos hr] at hg'
        rcases List.mem_or_eq_of_mem_set hg' with h1 | h1
        · exact h.2 g' h1 hb'
        · rw [h1] at hb'
          simp at hb'
      · rw [if_neg hr] at hg'
        rcases List.mem_or_eq_of_mem_set hg' with h1 | h1
        · exact h.2 g' h1 hb'
        · rw [h1]
          exact h.2 g hmem hbusy
    · rw [if_neg hbusy] at hg'
      exact h.2 g' hg' hb'

theorem BusyLengthInv_foldl_playSlot (c : Collab) (b w : t_buffer) (l : List Nat) (m : Mix)
    (h : BusyLengthInv m.x) :
    BusyLengthInv (l.foldl (fun m i => playSlot c b w i m) m).x := by
  induction l generalizing m with
  | nil => exact h
  | cons i l ih => exact ih _ (BusyLengthInv_playSlot c b w i m h)

theorem BusyLengthInv_playback (c : Collab) (b w : t_buffer) (x : t_cmgrainlabs)
    (h : BusyLengthInv x) : BusyLengthInv (playback c b w x).x := by
  unfold playback
  split_ifs
  · exact h
  · exact BusyLengthInv_foldl_playSlot c b w _ _ h

theorem BusyLengthInv_of_eq (x y : t_cmgrainlabs) (hg : y.grains = x.grains)
    (hm : y.m_sr = x.m_sr) (h : BusyLengthInv x) : BusyLengthInv y := by
  unfold BusyLengthInv at h ⊢
  rw [hg, hm]
  exact h

theorem BusyLengthInv_tick (c : Collab) (b w : t_buffer) (p : Params) (tr_curr : ℚ)
    (d : Draws) (x : t_cmgrainlabs) (loc : Locals) (h : BusyLengthInv x) :
    BusyLengthInv (tick c b w p tr_curr d x loc).x := by
  have h1 := BusyLengthInv_playback c b w _ (BusyLengthInv_spawn c b p d _
    { loc with trigger := detectTrigger x tr_curr loc.trigger }
    (BusyLengthInv_resetPlayback x h))
  unfold tick tickSpawn resetLimitModified
  simp only
  split_ifs <;> exact BusyLengthInv_of_eq _ _ rfl rfl h1

theorem float_grains_m_sr (x : t_cmgrainlabs) (inlet : Int) (f : ℚ) :
    (cmgrainlabs_float x inlet f).grains = x.grains ∧
      (cmgrainlabs_float x inlet f).m_sr = x.m_sr := by
  unfold cmgrainlabs_float
  repeat' split
  all_goals exact ⟨rfl, rfl⟩

theorem BusyLengthInv_applyEvent (c : Collab) (x : t_cmgrainlabs) (e : Event)
    (he : keepsRate e) (h : BusyLengthInv x) : BusyLengthInv (applyEvent c x e) := by
  cases e with
  | tick b w p tr_curr d loc => exact BusyLengthInv_tick c b w p tr_curr d x loc h
  | limit arg =>
    simp only [applyEvent, cmgrainlabs_limit]
    split_ifs <;> exact BusyLengthInv_of_eq x _ rfl rfl h
  | float inlet f =>
    have hf := float_grains_m_sr x inlet f
    exact BusyLengthInv_of_eq x _ hf.1 hf.2 h
  | notify modified =>
    simp only [applyEvent, cmgrainlabs_notify]
    split_ifs <;> exact BusyLengthInv_of_eq x _ rfl rfl h
  | set ac =>
    simp only [applyEvent, cmgrainlabs_set]
    split_ifs <;> exact BusyLengthInv_of_eq x _ rfl rfl h
  | dsp64 count samplerate =>
    refine ⟨?_, h.2⟩
    simp only [applyEvent]
    rw [dsp64_m_sr]
    exact he
  | stereo_set av => cases av <;> exact BusyLengthInv_of_eq x _ rfl rfl h
  | winterp_set av => cases av <;> exact BusyLengthInv_of_eq x _ rfl rfl h
  | sinterp_set av => cases av <;> exact BusyLengthInv_of_eq x _ rfl rfl h
  | zero_set av => cases av <;> exact BusyLengthInv_of_eq x _ rfl rfl h

theorem BusyLengthInv_runEvents (c : Collab) (x : t_cmgrainlabs) (es : List Event)
    (he : ∀ e ∈ es, keepsRate e) (h : BusyLengthInv x) : BusyLengthInv (runEvents c x es) := by
  induction es generalizing x with
  | nil => exact h
  | cons e es ih =>
    exact ih (applyEvent c x e) (fun e' he' => he e' (List.mem_cons_of_mem _ he'))
      (BusyLengthInv_applyEvent c x e (he e (List.mem_cons_self _ _)) h)

theorem BusyLengthInv_new (argc arg2 : Int) (attrs : AttrArgs) (sr : ℚ) (allocated : Bool)
    (x : t_cmgrainlabs) (h : cmgrainlabs_new argc arg2 attrs sr allocated = some x)
    (hsr : 1 ≤ sr * (1 / 1000)) : BusyLengthInv x := by
  unfold cmgrainlabs_new at h
  simp only at h
  split_ifs at h with h1 h2 h3
  simp only [Option.some.injEq] at h
  subst h
  refine ⟨hsr, ?_⟩
  intro g hg hb
  simp only at hg
  rw [List.eq_of_mem_replicate hg] at hb
  simp [emptyGrain] at hb

/-! ## C28: the truncated bounds of the nominal length -/

/-- Claim C28: for `m_sr > 0` the `t_length` written by a spawn lies between
the truncations of `MIN_GRAINLENGTH * m_sr` and of `MAX_GRAINLENGTH * m_sr`,
and for `m_sr >= 1` it is at least 1; hence for an object built at a sample
rate of at least 1000 Hz, after any events that keep the rate there, every
busy slot has `t_length >= 1` and the divisor of the playback routine is not
zero. -/
theorem spawn_t_length_trunc_bounds (c : Collab) :
    (∀ (b : t_buffer) (p : Params) (d : Draws) (x : t_cmgrainlabs) (loc : Locals)
        (g : cm_grainsinfo),
      0 < x.m_sr → spawnGuard x loc = true →
      (spawn c b p d x loc).1.grains[(spawn c b p d x loc).2.slot]? = some g →
      toLong (MIN_GRAINLENGTH * x.m_sr) ≤ g.t_length ∧
        g.t_length ≤ toLong (MAX_GRAINLENGTH * x.m_sr) ∧
        (1 ≤ x.m_sr → 1 ≤ g.t_length)) ∧
    (∀ (argc arg2 : Int) (attrs : AttrArgs) (sr : ℚ) (allocated : Bool) (x0 : t_cmgrainlabs)
        (es : List Event),
      cmgrainlabs_new argc arg2 attrs sr allocated = some x0 → 1 ≤ sr * (1 / 1000) →
      (∀ e ∈ es, keepsRate e) →
      ∀ g ∈ (runEvents c x0 es).grains, g.busy = true →
        1 ≤ g.t_length ∧ (g.t_length : ℚ) ≠ 0) := by
  constructor
  · intro b p d x loc g hm hg hs
    obtain ⟨g0, rfl⟩ := spawn_written c b p d x loc hg g hs
    simp only [writeGrain]
    exact ⟨drawLength_lower c x.m_sr p d hm, drawLength_le_trunc c x.m_sr p d hm,
      fun h1 => drawLength_ge_one c x.m_sr p d h1⟩
  · intro argc arg2 attrs sr allocated x0 es hnew hsr hes g hg hb
    have hinv := BusyLengthInv_runEvents c x0 es hes
      (BusyLengthInv_new argc arg2 attrs sr allocated x0 hnew hsr)
    have h1 := hinv.2 g hg hb
    refine ⟨h1, ?_⟩
    have : (0 : Int) < g.t_length := by omega
    exact_mod_cast this.ne'

/-- Witness for claim C28: the grain of the first spawn at 44.1 kHz has
`t_length = 6615`, between `trunc(44.1) = 44` and `trunc(13230) = 13230`. -/
theorem spawn_t_length_trunc_bounds_witness :
    0 < object441.m_sr ∧ spawnGuard object441 triggered = true ∧
      toLong (MIN_GRAINLENGTH * object441.m_sr) ≤ firstGrain.t_length ∧
      firstGrain.t_length ≤ toLong (MAX_GRAINLENGTH * object441.m_sr) :=
  have h := (spawn_t_length_trunc_bounds linearCollab).1 (constBuffer 100000)
    (resolveParams object441 []) zeroDraws object441 triggered firstGrain (by decide!)
    (by decide) (by decide!)
  ⟨by decide!, by decide, h.1, h.2.1⟩

end CmGrainlabs
